import Mathlib

/-
Verification of the schedule-normalization core of `src/data.py`.

A pandas `DataFrame` is modelled column-major: a row count together with an
ordered list of (label, cells) pairs.  Duplicate labels are representable,
exactly as in pandas, because `DataFrame.rename` happily produces them.
Cells are loosely typed: strings, integers, nulls (NaN/NaT), and datetime
values.  A datetime cell carries its timestamp in seconds together with a
timezone-awareness flag; the fixed zone `America/New_York` is modelled as a
fixed-offset zone (offset folded into the timestamp), which is faithful for
every property below — none of the claims exercises a DST transition.
`pd.to_datetime(errors='coerce')` is modelled as a per-cell total function
whose string parser accepts ISO `YYYY-MM-DD` dates; `Series.dt.tz_localize`
raises exactly when the column already holds an aware value, mirroring
pandas' TypeError on already-localized data.  Code that can raise an
uncaught exception is modelled in `Except String`.
-/

namespace ScheduleCore

inductive Cell where
  | str (s : String)
  | num (n : Int)
  | null
  | date (t : Int) (aware : Bool)
  deriving DecidableEq, Repr

structure DF where
  nrows : Nat
  cols : List (String × List Cell)
  deriving DecidableEq, Repr

/-- Every column holds exactly `nrows` cells. -/
def DF.Sized (df : DF) : Prop := ∀ c ∈ df.cols, c.2.length = df.nrows

/-- Well-formed raw input: sized, and column labels are pairwise distinct
(tables arriving through `pd.read_csv` / `get_all_records` have unique
headers; the pipeline itself may create duplicates by renaming). -/
def DF.WF (df : DF) : Prop := df.Sized ∧ (df.cols.map Prod.fst).Nodup

instance (df : DF) : Decidable df.Sized := by
  unfold DF.Sized; infer_instance

instance (df : DF) : Decidable df.WF := by
  unfold DF.WF; infer_instance

/-- Column lookup, `df[name]` for a unique label: first matching column. -/
def DF.getCol (df : DF) (name : String) : Option (List Cell) :=
  (df.cols.find? (fun c => c.1 == name)).map Prod.snd

/-- Membership test `name in df.columns`. -/
def DF.hasCol (df : DF) (name : String) : Bool :=
  df.cols.any (fun c => c.1 == name)

/-- Number of columns carrying a label (pandas allows duplicates). -/
def DF.colCount (df : DF) (name : String) : Nat :=
  (df.cols.filter (fun c => c.1 == name)).length

/-- Column assignment `df[name] = vals`: overwrite the columns holding the
label, or append a new column when the label is absent. -/
def DF.setCol (df : DF) (name : String) (vals : List Cell) : DF :=
  if df.hasCol name then
    { df with cols := df.cols.map (fun c => if c.1 == name then (c.1, vals) else c) }
  else
    { df with cols := df.cols ++ [(name, vals)] }

/-- `df.rename(columns=m)`: relabel every column through the dict `m`,
leaving labels outside the dict unchanged.  Duplicate result labels are
kept, as pandas does. -/
def DF.rename (df : DF) (m : List (String × String)) : DF :=
  { df with cols := df.cols.map (fun c => ((m.lookup c.1).getD c.1, c.2)) }

/-- Value of row `i` in the (first) column labelled `name`. -/
def DF.cellAt (df : DF) (name : String) (i : Nat) : Option Cell :=
  (df.getCol name).bind (fun l => l.get? i)

/-- `df.empty`: some axis has length zero. -/
def DF.isEmpty (df : DF) : Bool := df.nrows == 0 || df.cols.isEmpty

/-- Python `str.lower()` (character-level, kernel-reducible). -/
def lowerStr (s : String) : String := ⟨s.data.map Char.toLower⟩

/-- Python `str.strip()`: drop leading and trailing whitespace. -/
def trimStr (s : String) : String :=
  ⟨((s.data.dropWhile Char.isWhitespace).reverse.dropWhile Char.isWhitespace).reverse⟩

/-- Remove the given characters from a string (`str.replace(c, '')`). -/
def stripChars (s : String) (bad : List Char) : String :=
  ⟨s.data.filter (fun c => !bad.contains c)⟩

/-- Boolean prefix test on character lists. -/
def prefixOfB : List Char → List Char → Bool
  | [], _ => true
  | _ :: _, [] => false
  | x :: xs, y :: ys => x == y && prefixOfB xs ys

/-- Boolean infix test on character lists. -/
def infixOfB (needle : List Char) : List Char → Bool
  | [] => needle.isEmpty
  | y :: ys => prefixOfB needle (y :: ys) || infixOfB needle ys

/-- Substring containment, `needle in hay` on Python strings. -/
def containsSub (hay needle : String) : Bool :=
  infixOfB needle.data hay.data

/-- Header normalization of `standardize_columns`:
`col.lower().replace(' ', '').replace('_', '').replace('#', '')`. -/
def normKey (s : String) : String := stripChars (lowerStr s) [' ', '_', '#']

/-- The `column_mapping` alias table of `standardize_columns`, verbatim.
Keys containing a space, underscore or hash can never match a normalized
header (normalization strips those characters); they are kept for fidelity. -/
def columnMapping : List (String × String) :=
  [("mhsjob#", "JobID"),
   ("mhsjob", "JobID"),
   ("mhs job#", "JobID"),
   ("mhs job #", "JobID"),
   ("jobid", "JobID"),
   ("job_id", "JobID"),
   ("id", "JobID"),
   ("job", "JobID"),
   ("job#", "JobID"),
   ("job #", "JobID"),
   ("jobname", "JobName"),
   ("job_name", "JobName"),
   ("name", "JobName"),
   ("branch", "Branch"),
   ("workcenter", "Branch"),
   ("work_center", "Branch"),
   ("resource", "Branch"),
   ("machine", "Branch"),
   ("customername", "CustomerName"),
   ("customer_name", "CustomerName"),
   ("owner", "CustomerName"),
   ("assignee", "CustomerName"),
   ("assigned_to", "CustomerName"),
   ("customerrequestdate", "CustomerRequestDate"),
   ("customer_request_date", "CustomerRequestDate"),
   ("enddate", "CustomerRequestDate"),
   ("end_date", "CustomerRequestDate"),
   ("shipdate", "ShipDate"),
   ("ship_date", "ShipDate"),
   ("priority", "Priority"),
   ("quantity", "Quantity"),
   ("qty", "Quantity"),
   ("notes", "Notes"),
   ("comments", "Notes"),
   ("description", "Notes")]

/-- Canonical rename target of a raw header under the alias pass, if any. -/
def stdName (h : String) : Option String := columnMapping.lookup (normKey h)

/-- The `required_cols` defaults of `standardize_columns`; `JobID`'s default
is the positional row index rendered as a string. -/
def requiredDefaults : List (String × (Nat → Cell)) :=
  [("JobID", fun i => Cell.str (toString i)),
   ("JobName", fun _ => Cell.str ""),
   ("Branch", fun _ => Cell.str "Unassigned"),
   ("CustomerName", fun _ => Cell.str "Unassigned"),
   ("Priority", fun _ => Cell.str "Medium"),
   ("Status", fun _ => Cell.str "Planned"),
   ("Quantity", fun _ => Cell.num 1),
   ("ShipDate", fun _ => Cell.str ""),
   ("Notes", fun _ => Cell.str "")]

/-- Add the column with its default when absent (`if col not in df.columns`). -/
def injectDefault (df : DF) (name : String) (mk : Nat → Cell) : DF :=
  if df.hasCol name then df
  else { df with cols := df.cols ++ [(name, (List.range df.nrows).map mk)] }

/-- The `rename_dict` of `standardize_columns`, built by iterating
`df.columns` and keeping headers whose normalized form hits the alias
table. -/
def stdRenameDict (names : List String) : List (String × String) :=
  names.foldl (fun acc n =>
    match stdName n with
    | some t => acc ++ [(n, t)]
    | none => acc) []

/-- The rename step of `standardize_columns`. -/
def stdRename (df : DF) : DF := df.rename (stdRenameDict (df.cols.map Prod.fst))

/-- The default-injection loop of `standardize_columns`. -/
def stdInject (df : DF) : DF :=
  requiredDefaults.foldl (fun d p => injectDefault d p.1 p.2) df

/-- `standardize_columns`: build the rename dict from the alias table over the
normalized headers, apply it, then inject defaults for missing required
columns. -/
def standardizeColumns (df : DF) : DF := stdInject (stdRename df)

/-- The ordered role → keyword table of `infer_date_columns`. -/
def datePatterns : List (String × List String) :=
  [("StartDate", ["start", "startdate", "start_date", "begin", "begindate"]),
   ("CustomerRequestDate",
      ["customerrequest", "customer_request", "end", "enddate", "end_date", "finish", "finishdate"]),
   ("ShipDate", ["ship", "shipdate", "ship_date", "shipping"]),
   ("DueDate", ["due", "duedate", "due_date", "deadline"])]

/-- Date-role of a header: normalize (`lower`, strip spaces and hash marks)
and return the first role owning a keyword that is a substring. -/
def dateRole (name : String) : Option String :=
  let n := stripChars (lowerStr name) [' ', '#']
  (datePatterns.find? (fun p => p.2.any (fun k => containsSub n k))).map Prod.fst

/-- Python dict assignment `d[k] = v`: overwrite in place or append. -/
def upsert (l : List (String × String)) (k v : String) : List (String × String) :=
  if l.any (fun p => p.1 == k) then
    l.map (fun p => if p.1 == k then (k, v) else p)
  else l ++ [(k, v)]

/-- `infer_date_columns`: for each header of `df.columns` in order, assign it
to its first matching role; a later header matching the same role overwrites
the dict entry. -/
def inferDateColumns (names : List String) : List (String × String) :=
  names.foldl (fun acc n =>
    match dateRole n with
    | some role => upsert acc role n
    | none => acc) []

/-- The inverted dict `{v: k for k, v in date_mapping.items()}`. -/
def inferRenameDict (names : List String) : List (String × String) :=
  (inferDateColumns names).map (fun p => (p.2, p.1))

/-- Day number of a proleptic Gregorian civil date (days since 1970-01-01),
the standard days-from-civil computation. -/
def daysFromCivil (y m d : Int) : Int :=
  let y1 := if m ≤ 2 then y - 1 else y
  let era := (if 0 ≤ y1 then y1 else y1 - 399) / 400
  let yoe := y1 - era * 400
  let mp := (m + 9) % 12
  let doy := (153 * mp + 2) / 5 + d - 1
  let doe := yoe * 365 + yoe / 4 - yoe / 100 + doy
  era * 146097 + doe - 719468

/-- Numeric value of a decimal digit run; `none` on a non-digit. -/
def parseNatDigits (cs : List Char) : Option Nat :=
  cs.foldl (fun acc c =>
    match acc with
    | some a => if c.isDigit then some (a * 10 + (c.toNat - 48)) else none
    | none => none) (some 0)

/-- String-to-instant parser standing in for `pd.to_datetime` on a single
value: accepts ISO `YYYY-MM-DD` (surrounding whitespace tolerated) and
yields midnight of that day in seconds; every other string is unparseable. -/
def parseDateStr (s : String) : Option Int :=
  match (trimStr s).data with
  | [y1, y2, y3, y4, '-', m1, m2, '-', d1, d2] =>
    match parseNatDigits [y1, y2, y3, y4], parseNatDigits [m1, m2], parseNatDigits [d1, d2] with
    | some y, some m, some d =>
      if 1 ≤ m ∧ m ≤ 12 ∧ 1 ≤ d ∧ d ≤ 31 then
        some (86400 * daysFromCivil (Int.ofNat y) (Int.ofNat m) (Int.ofNat d))
      else none
    | _, _, _ => none
  | _ => none

/-- Per-cell `pd.to_datetime(errors='coerce')`: strings parse or coerce to
null, numbers are epoch offsets, nulls stay null, datetimes pass through. -/
def toDatetimeCell : Cell → Cell
  | .str s =>
    match parseDateStr s with
    | some t => .date t false
    | none => .null
  | .num n => .date n false
  | .null => .null
  | .date t a => .date t a

/-- `Series.dt.tz_localize(TZ, ...)`: raises when the column already holds a
timezone-aware value, otherwise stamps every naive datetime as aware.  The
zone is modelled as fixed-offset, so the `ambiguous='infer'` and
`nonexistent='shift_forward'` DST policies never fire. -/
def tzLocalizeCol (cells : List Cell) : Except String (List Cell) :=
  if cells.any (fun c => match c with | .date _ true => true | _ => false) then
    .error "Already tz-aware, use tz_convert to convert"
  else
    .ok (cells.map (fun c => match c with | .date t false => .date t true | c0 => c0))

def dateColNames : List String := ["StartDate", "CustomerRequestDate", "ShipDate", "DueDate"]

/-- One iteration of the `parse_dates` loop body for a recognized date column
label.  A duplicated label makes `df[name]` a DataFrame, so `pd.to_datetime`
raises inside the try block and the column is left as-is with an error
warning.  Otherwise the coerced values are committed, a parse-failure
warning is emitted when the column holds nulls afterwards, and localization
either succeeds or leaves the committed coerced values with an error
warning. -/
def parseOneDateCol (df : DF) (name : String) : DF × List String :=
  if df.hasCol name then
    if 2 ≤ df.colCount name then
      (df, ["Error parsing " ++ name ++ ": to assemble mappings requires at least year, month, day"])
    else
      match df.getCol name with
      | some cells =>
        let parsed := cells.map toDatetimeCell
        let nullCount := (parsed.filter (fun c => c == Cell.null)).length
        let w1 : List String :=
          if 0 < nullCount then
            ["Failed to parse " ++ toString nullCount ++ " dates in " ++ name]
          else []
        match tzLocalizeCol parsed with
        | .ok loc => (df.setCol name loc, w1)
        | .error e => (df.setCol name parsed, w1 ++ ["Error parsing " ++ name ++ ": " ++ e])
      | none => (df, [])
  else (df, [])

/-- `parse_dates`: rename inferred date columns to their standard names, then
run the parse/localize loop over the four standard names in order,
accumulating warnings. -/
def parseDates (df : DF) : DF × List String :=
  let dfr := df.rename (inferRenameDict (df.cols.map Prod.fst))
  dateColNames.foldl (fun acc name =>
    let r := parseOneDateCol acc.1 name
    (r.1, acc.2 ++ r.2)) (dfr, [])

/-- The `status_mapping` alias table of `normalize_status`, verbatim. -/
def statusMapping : List (String × String) :=
  [("planned", "Planned"),
   ("in progress", "In-Progress"),
   ("in-progress", "In-Progress"),
   ("inprogress", "In-Progress"),
   ("complete", "Complete"),
   ("completed", "Complete"),
   ("done", "Complete"),
   ("hold", "Hold"),
   ("on hold", "Hold"),
   ("paused", "Hold"),
   ("pending", "Planned")]

/-- Python `str(cell)` as applied by `astype(str)`.  A null renders as the
string nan and a datetime as its timestamp display form; both miss every
alias and therefore fall back to Planned, exactly as in pandas. -/
def cellToPyStr : Cell → String
  | .str s => s
  | .num n => toString n
  | .null => "nan"
  | .date t _ => "Timestamp " ++ toString t

/-- One status value through `astype(str).str.strip().str.lower()` followed
by `map(status_mapping).fillna('Planned')`. -/
def normalizeStatusValue (c : Cell) : Cell :=
  .str ((statusMapping.lookup (lowerStr (trimStr (cellToPyStr c)))).getD "Planned")

/-- `normalize_status`: when a `Status` column is absent, rename the first
header containing the substring status (case-insensitively) to `Status`, or
set every row's Status to Unknown when no such header exists and stop;
otherwise canonicalize the values of the `Status` column. -/
def normalizeStatus (df : DF) : DF :=
  if df.hasCol "Status" then
    match df.getCol "Status" with
    | some cells => df.setCol "Status" (cells.map normalizeStatusValue)
    | none => df
  else
    match df.cols.find? (fun c => containsSub (lowerStr c.1) "status") with
    | some c =>
      let d := df.rename [(c.1, "Status")]
      match d.getCol "Status" with
      | some cells => d.setCol "Status" (cells.map normalizeStatusValue)
      | none => d
    | none => df.setCol "Status" (List.replicate df.nrows (Cell.str "Unknown"))

/-- Elementwise evaluation of a fallible vectorized operation: the first
raising element aborts, as a pandas column operation does. -/
def mapExcept {α β : Type} (f : α → Except String β) : List α → Except String (List β)
  | [] => .ok []
  | x :: xs => do
    let y ← f x
    let ys ← mapExcept f xs
    pure (y :: ys)

/-- `Series.notna()` on one cell. -/
def cellNotNull (c : Cell) : Bool := c != Cell.null

/-- One cell of the comparison `df['DueDate'] < today`.  Datetimes compare by
timestamp, a null compares False (NaT semantics), and comparing a leftover
string or number against a Timestamp raises, as pandas does on an unparsed
object column. -/
def cellLtTime (c : Cell) (now : Int) : Except String Bool :=
  match c with
  | .date t _ => .ok (decide (t < now))
  | .null => .ok false
  | .str _ => .error "< not supported between instances of str and Timestamp"
  | .num _ => .error "< not supported between instances of int and Timestamp"

/-- One row of the DaysLate computation: the overdue mask conjunct
`notna & (DueDate < today) & (Status != Complete)` followed by the masked
assignment of `(today - DueDate).dt.days`, against the zeroed column. -/
def daysLateCell (now : Int) (d s : Cell) : Except String Cell := do
  let lt ← cellLtTime d now
  pure (if cellNotNull d && lt && !(s == Cell.str "Complete") then
      match d with
      | Cell.date t _ => Cell.num (Int.fdiv (now - t) 86400)
      | _ => Cell.num 0
    else Cell.num 0)

/-- The DaysLate half of `add_calculated_fields`: zeroed column overwritten on
the overdue mask when DueDate and Status exist, plain zeros otherwise.  A
duplicated DueDate or Status label makes `df[label]` a DataFrame and the
mask computation raise. -/
def daysLateStep (now : Int) (df : DF) : Except String DF :=
  if df.hasCol "DueDate" && df.hasCol "Status" then
    if 2 ≤ df.colCount "DueDate" || 2 ≤ df.colCount "Status" then
      throw "cannot align DataFrame mask from duplicated labels"
    else do
      let due := (df.getCol "DueDate").getD []
      let st := (df.getCol "Status").getD []
      let dl ← mapExcept
        (fun i => daysLateCell now (due.getD i Cell.null) (st.getD i Cell.null))
        (List.range df.nrows)
      pure (df.setCol "DaysLate" dl)
  else
    pure (df.setCol "DaysLate" (List.replicate df.nrows (Cell.num 0)))

/-- One row of the DurationDays computation: rows on the both-dates mask get
the whole-day difference, other rows keep their previous value. -/
def durationCell (a b old : Cell) : Except String Cell :=
  if cellNotNull a && cellNotNull b then
    match a, b with
    | Cell.date t1 _, Cell.date t2 _ => pure (Cell.num (Int.fdiv (t2 - t1) 86400))
    | _, _ => throw "unsupported operand type for timestamp subtraction"
  else
    pure old

/-- The DurationDays half of `add_calculated_fields`: runs only when both
StartDate and CustomerRequestDate exist; rows outside the mask keep the
previous DurationDays value (null when the column is new). -/
def durationStep (df : DF) : Except String DF :=
  if df.hasCol "StartDate" && df.hasCol "CustomerRequestDate" then
    if 2 ≤ df.colCount "StartDate" || 2 ≤ df.colCount "CustomerRequestDate" then
      throw "cannot align DataFrame mask from duplicated labels"
    else do
      let sd := (df.getCol "StartDate").getD []
      let cd := (df.getCol "CustomerRequestDate").getD []
      let oldD := df.getCol "DurationDays"
      let dur ← mapExcept
        (fun i => durationCell (sd.getD i Cell.null) (cd.getD i Cell.null)
          (match oldD with | some oc => oc.getD i Cell.null | none => Cell.null))
        (List.range df.nrows)
      pure (df.setCol "DurationDays" dur)
  else
    pure df

/-- `add_calculated_fields`: DaysLate is zeroed then set to the truncated
whole-day difference on rows whose DueDate is present, strictly before the
captured now and whose Status is not Complete; then DurationDays is set on
rows where both StartDate and CustomerRequestDate are present. -/
def addCalculatedFields (now : Int) (df : DF) : Except String DF := do
  let df1 ← daysLateStep now df
  durationStep df1

/-- `process_dataframe`: short-circuit on an empty frame, otherwise run
standardize, date parsing, status normalization and calculated fields in
order, returning the frame together with the accumulated warnings. -/
def processDataframe (now : Int) (df : DF) : Except String (DF × List String) := do
  if df.isEmpty then
    pure (df, [])
  else
    let df1 := standardizeColumns df
    let pd := parseDates df1
    let df3 := normalizeStatus pd.1
    let df4 ← addCalculatedFields now df3
    pure (df4, pd.2)

/-- The four canonical Status enum values of the specification. -/
def statusEnum : List Cell :=
  [Cell.str "Planned", Cell.str "In-Progress", Cell.str "Complete", Cell.str "Hold"]

/-- The canonical field names of the §3 table (the specification counts
them as 13; the list enumerates 14). -/
def canonicalNames : List String :=
  ["JobID", "JobName", "Branch", "CustomerName", "Priority", "Status", "Quantity",
   "StartDate", "CustomerRequestDate", "ShipDate", "DueDate", "Notes", "DaysLate", "DurationDays"]

/-- Number of values of a column that were non-null and coerced to null by
date parsing — the strict reading of values that became null during
parsing. -/
def becameNullCount (cells : List Cell) : Nat :=
  (cells.filter (fun c => !(c == Cell.null) && (toDatetimeCell c == Cell.null))).length

/-- The warning `parse_dates` emits for one date column, computed against
the renamed pre-parse frame: the null count is taken on the column AFTER
coercion (`df[col].isna().sum()`), so pre-existing nulls are included. -/
def parseWarn (d : DF) (n : String) : Option String :=
  match d.getCol n with
  | some cells =>
    if 0 < ((cells.map toDatetimeCell).filter (fun c => c == Cell.null)).length then
      some ("Failed to parse "
        ++ toString ((cells.map toDatetimeCell).filter (fun c => c == Cell.null)).length
        ++ " dates in " ++ n)
    else none
  | none => none

deriving instance DecidableEq for Except

/-- Whether an `Except` computation ended in an error. -/
def isErr {α : Type} : Except String α → Bool
  | .error _ => true
  | .ok _ => false

/-- Net effect of the `parse_dates` loop body on the cells of a recognized,
unduplicated date column: coerce every value, then localize, keeping the
coerced values when localization raises. -/
def coerceLocalize (cells : List Cell) : List Cell :=
  match tzLocalizeCol (cells.map toDatetimeCell) with
  | .ok loc => loc
  | .error _ => cells.map toDatetimeCell

/-- Pure value of `daysLateCell` on a coerced (date-or-null) DueDate cell. -/
def dlPure (now : Int) (d s : Cell) : Cell :=
  match d with
  | Cell.date t _ =>
    if t < now ∧ s ≠ Cell.str "Complete" then Cell.num (Int.fdiv (now - t) 86400)
    else Cell.num 0
  | _ => Cell.num 0

/-- Pure value of `durationCell` on coerced (date-or-null) cells. -/
def durPure (a b old : Cell) : Cell :=
  match a, b with
  | Cell.date t1 _, Cell.date t2 _ => Cell.num (Int.fdiv (t2 - t1) 86400)
  | _, _ => old

/-- Concrete one-row table with an overdue DueDate, used to exercise the
lateness computation on a run of the full pipeline. -/
def dfC4W : DF := ⟨1, [("DueDate", [Cell.str "2024-01-01"])]⟩

/-- The pipeline's output frame on `dfC4W` with `now` = 2024-01-10 UTC:
DueDate parsed and localized, defaults injected, DaysLate = 9. -/
def outC4W : DF := ⟨1, [("DueDate", [Cell.date 1704067200 true]),
  ("JobID", [Cell.str "0"]),
  ("JobName", [Cell.str ""]),
  ("Branch", [Cell.str "Unassigned"]),
  ("CustomerName", [Cell.str "Unassigned"]),
  ("Priority", [Cell.str "Medium"]),
  ("Status", [Cell.str "Planned"]),
  ("Quantity", [Cell.num 1]),
  ("ShipDate", [Cell.null]),
  ("Notes", [Cell.str ""]),
  ("DaysLate", [Cell.num 9])]⟩

/-- Concrete two-row table with a single unrecognized header, used to
exercise the default-injection path of the full pipeline. -/
def dfC3W : DF := ⟨2, [("X", [Cell.str "a", Cell.str "b"])]⟩

/-- The pipeline's output frame on `dfC3W`: the source column kept, the
nine required defaults injected (JobID positional) and DaysLate zeroed. -/
def outC3W : DF := ⟨2, [("X", [Cell.str "a", Cell.str "b"]),
  ("JobID", [Cell.str "0", Cell.str "1"]),
  ("JobName", [Cell.str "", Cell.str ""]),
  ("Branch", [Cell.str "Unassigned", Cell.str "Unassigned"]),
  ("CustomerName", [Cell.str "Unassigned", Cell.str "Unassigned"]),
  ("Priority", [Cell.str "Medium", Cell.str "Medium"]),
  ("Status", [Cell.str "Planned", Cell.str "Planned"]),
  ("Quantity", [Cell.num 1, Cell.num 1]),
  ("ShipDate", [Cell.null, Cell.null]),
  ("Notes", [Cell.str "", Cell.str ""]),
  ("DaysLate", [Cell.num 0, Cell.num 0])]⟩

/-- Concrete already-canonical one-row table: canonical headers in order,
enum Status, timezone-aware or null dates, and a stale DurationDays. -/
def dfC9W : DF := ⟨1, [("JobID", [Cell.str "1"]), ("JobName", [Cell.str "j"]),
  ("Branch", [Cell.str "b"]), ("CustomerName", [Cell.str "c"]),
  ("Priority", [Cell.str "High"]), ("Status", [Cell.str "Planned"]),
  ("Quantity", [Cell.num 2]), ("StartDate", [Cell.date 0 true]),
  ("CustomerRequestDate", [Cell.date 777600 true]), ("ShipDate", [Cell.null]),
  ("DueDate", [Cell.null]), ("Notes", [Cell.str ""]), ("DaysLate", [Cell.num 0]),
  ("DurationDays", [Cell.num 999])]⟩

/-- The pipeline's output frame on `dfC9W`: identical except that the stale
DurationDays 999 is recomputed to the 9-day gap of the two dates. -/
def outC9W : DF := ⟨1, [("JobID", [Cell.str "1"]), ("JobName", [Cell.str "j"]),
  ("Branch", [Cell.str "b"]), ("CustomerName", [Cell.str "c"]),
  ("Priority", [Cell.str "High"]), ("Status", [Cell.str "Planned"]),
  ("Quantity", [Cell.num 2]), ("StartDate", [Cell.date 0 true]),
  ("CustomerRequestDate", [Cell.date 777600 true]), ("ShipDate", [Cell.null]),
  ("DueDate", [Cell.null]), ("Notes", [Cell.str ""]), ("DaysLate", [Cell.num 0]),
  ("DurationDays", [Cell.num 9])]⟩

/-- A successful lookup in an association list locates a member. -/
theorem lookup_mem {β : Type} {l : List (String × β)} {k : String} {v : β}
    (h : l.lookup k = some v) : (k, v) ∈ l := by
  induction l with
  | nil => simp [List.lookup] at h
  | cons p t ih =>
    rw [List.lookup] at h
    by_cases hk : k == p.1
    · simp only [hk] at h
      have hp : p = (k, v) := by
        cases p
        have hk2 : k = _ := eq_of_beq hk
        simp_all [Prod.ext_iff]
      simp [hp]
    · simp only [hk] at h
      exact List.mem_cons_of_mem _ (ih h)

/-- Mapping a fallible operation that succeeds pointwise succeeds globally. -/
theorem mapExcept_ok {α β : Type} {f : α → Except String β} {g : α → β} :
    ∀ {l : List α}, (∀ x ∈ l, f x = Except.ok (g x)) → mapExcept f l = Except.ok (l.map g)
  | [], _ => rfl
  | x :: xs, h => by
    have hx := h x (List.mem_cons_self x xs)
    have ht := mapExcept_ok (fun y hy => h y (List.mem_cons_of_mem x hy))
    simp [mapExcept, hx, ht, bind, Except.bind, pure, Except.pure]

theorem find?_name_map_set {cs : List (String × List Cell)} {n : String} (v : List Cell)
    (h : cs.any (fun c => c.1 == n) = true) :
    (cs.map (fun c => if c.1 == n then (c.1, v) else c)).find? (fun c => c.1 == n)
      = some (n, v) := by
  induction cs with
  | nil => simp at h
  | cons c t ih =>
    rw [List.map_cons]
    by_cases hc : (c.1 == n) = true
    · have hcn : c.1 = n := eq_of_beq hc
      rw [if_pos hc, List.find?_cons_of_pos _ (by simpa using hc), hcn]
    · have hcf : (c.1 == n) = false := by simpa using hc
      simp only [List.any_cons, hcf, Bool.false_or] at h
      rw [if_neg (by simp [hcf]), List.find?_cons_of_neg _ (by simp [hcf])]
      exact ih h

theorem find?_append_one {cs : List (String × List Cell)} {n : String} (v : List Cell)
    (h : cs.any (fun c => c.1 == n) = false) :
    (cs ++ [(n, v)]).find? (fun c => c.1 == n) = some (n, v) := by
  induction cs with
  | nil => simp [List.find?]
  | cons c t ih =>
    simp only [List.any_cons, Bool.or_eq_false_iff] at h
    rw [List.cons_append, List.find?_cons_of_neg _ (by simp [h.1])]
    exact ih h.2

theorem find?_map_namekeep {cs : List (String × List Cell)}
    {f : (String × List Cell) → (String × List Cell)}
    (hf : ∀ c, (f c).1 = c.1) (m : String) :
    (cs.map f).find? (fun c => c.1 == m) = (cs.find? (fun c => c.1 == m)).map f := by
  induction cs with
  | nil => rfl
  | cons c t ih =>
    rw [List.map_cons]
    by_cases hc : (c.1 == m) = true
    · rw [List.find?_cons_of_pos _ (by simp [hf c, hc]),
        List.find?_cons_of_pos _ (by simpa using hc)]
      rfl
    · have hcf : (c.1 == m) = false := by simpa using hc
      rw [List.find?_cons_of_neg _ (by simp [hf c, hcf]),
        List.find?_cons_of_neg _ (by simp [hcf])]
      exact ih

theorem find?_append_nomatch {cs : List (String × List Cell)} {n m : String} (v : List Cell)
    (h : (n == m) = false) :
    (cs ++ [(n, v)]).find? (fun c => c.1 == m) = cs.find? (fun c => c.1 == m) := by
  induction cs with
  | nil => simp [List.find?, h]
  | cons c t ih =>
    rw [List.cons_append]
    by_cases hc : (c.1 == m) = true
    · rw [List.find?_cons_of_pos _ (by simpa using hc),
        List.find?_cons_of_pos _ (by simpa using hc)]
    · have hcf : (c.1 == m) = false := by simpa using hc
      rw [List.find?_cons_of_neg _ (by simp [hcf]),
        List.find?_cons_of_neg _ (by simp [hcf])]
      exact ih

theorem DF.nrows_setCol (df : DF) (n : String) (v : List Cell) :
    (df.setCol n v).nrows = df.nrows := by
  unfold DF.setCol; split <;> rfl

theorem DF.nrows_rename (df : DF) (m : List (String × String)) :
    (df.rename m).nrows = df.nrows := rfl

theorem DF.nrows_injectDefault (df : DF) (n : String) (mk : Nat → Cell) :
    (injectDefault df n mk).nrows = df.nrows := by
  unfold injectDefault; split <;> rfl

theorem DF.getCol_setCol_self (df : DF) (n : String) (v : List Cell) :
    (df.setCol n v).getCol n = some v := by
  cases df with
  | mk nr cs =>
    unfold DF.setCol
    split
    next h =>
      have h1 : cs.any (fun c => c.1 == n) = true := h
      show ((cs.map _).find? _).map Prod.snd = _
      rw [find?_name_map_set v h1]
      rfl
    next h =>
      have h1 : cs.any (fun c => c.1 == n) = false := by
        revert h
        cases hb : cs.any (fun c => c.1 == n) <;> intro h
        · rfl
        · exact absurd (by exact hb) h
      show ((cs ++ [(n, v)]).find? _).map Prod.snd = _
      rw [find?_append_one v h1]
      rfl

theorem DF.getCol_setCol_ne (df : DF) {n m : String} (v : List Cell) (h : (n == m) = false) :
    (df.setCol n v).getCol m = df.getCol m := by
  cases df with
  | mk nr cs =>
    unfold DF.setCol
    split
    · show ((cs.map (fun c => if c.1 == n then (c.1, v) else c)).find? (fun c => c.1 == m)).map Prod.snd
        = (cs.find? (fun c => c.1 == m)).map Prod.snd
      rw [find?_map_namekeep (by intro c; split <;> rfl) m]
      rcases hf : cs.find? (fun c => c.1 == m) with _ | c
      · rw [hf]; rfl
      · have hc : (c.1 == m) = true := by
          have := List.find?_some hf
          simpa using this
        have hm : c.1 = m := eq_of_beq hc
        have hcn : (c.1 == n) = false := by
          rw [hm]
          simp only [beq_eq_false_iff_ne] at h ⊢
          exact fun he => h he.symm
        rw [hf]
        have hne : c.1 ≠ n := by simpa using hcn
        simp [hne]
    · show ((cs ++ [(n, v)]).find? (fun c => c.1 == m)).map Prod.snd
        = (cs.find? (fun c => c.1 == m)).map Prod.snd
      rw [find?_append_nomatch v h]

theorem find?_cons_pos {cs : List (String × List Cell)} {c : String × List Cell} {n : String}
    (h : (c.1 == n) = true) :
    (c :: cs).find? (fun x => x.1 == n) = some c :=
  List.find?_cons_of_pos _ h

theorem find?_cons_neg {cs : List (String × List Cell)} {c : String × List Cell} {n : String}
    (h : (c.1 == n) = false) :
    (c :: cs).find? (fun x => x.1 == n) = cs.find? (fun x => x.1 == n) :=
  List.find?_cons_of_neg _ (by simp [h])

theorem filter_cons_pos {cs : List (String × List Cell)} {c : String × List Cell} {n : String}
    (h : (c.1 == n) = true) :
    (c :: cs).filter (fun x => x.1 == n) = c :: cs.filter (fun x => x.1 == n) :=
  List.filter_cons_of_pos h

theorem filter_cons_neg {cs : List (String × List Cell)} {c : String × List Cell} {n : String}
    (h : (c.1 == n) = false) :
    (c :: cs).filter (fun x => x.1 == n) = cs.filter (fun x => x.1 == n) :=
  List.filter_cons_of_neg (by simp [h])

theorem beq_false_of_not_true {a b : String} (h : ¬(a == b) = true) : (a == b) = false := by
  cases hb : a == b
  · rfl
  · exact absurd hb h

theorem any_name_map_namekeep {cs : List (String × List Cell)}
    {f : (String × List Cell) → (String × List Cell)}
    (hf : ∀ c, (f c).1 = c.1) (m : String) :
    (cs.map f).any (fun c => c.1 == m) = cs.any (fun c => c.1 == m) := by
  induction cs with
  | nil => rfl
  | cons c t ih => simp [List.any_cons, hf c, ih]

theorem count_name_map_namekeep {cs : List (String × List Cell)}
    {f : (String × List Cell) → (String × List Cell)}
    (hf : ∀ c, (f c).1 = c.1) (m : String) :
    ((cs.map f).filter (fun c => c.1 == m)).length
      = (cs.filter (fun c => c.1 == m)).length := by
  induction cs with
  | nil => rfl
  | cons c t ih =>
    rw [List.map_cons]
    by_cases hc : (c.1 == m) = true
    · rw [List.filter_cons_of_pos (by simp [hf c, hc]),
        List.filter_cons_of_pos (by simpa using hc)]
      simp [ih]
    · have hcf : (c.1 == m) = false := by
        cases hb : c.1 == m
        · rfl
        · exact absurd hb hc
      rw [List.filter_cons_of_neg (by simp [hf c, hcf]),
        List.filter_cons_of_neg (by simp [hcf])]
      exact ih

theorem any_eq_isSome_find? {cs : List (String × List Cell)} {n : String} :
    cs.any (fun c => c.1 == n) = (cs.find? (fun c => c.1 == n)).isSome := by
  induction cs with
  | nil => rfl
  | cons c t ih =>
    by_cases hc : (c.1 == n) = true
    · simp [List.any_cons, hc, find?_cons_pos hc]
    · have hcf : (c.1 == n) = false := beq_false_of_not_true hc
      simp only [List.any_cons, hcf, Bool.false_or, find?_cons_neg hcf]
      exact ih

theorem DF.hasCol_eq_isSome (df : DF) (n : String) :
    df.hasCol n = (df.getCol n).isSome := by
  cases df with
  | mk nr cs =>
    show cs.any (fun c => c.1 == n) = ((cs.find? (fun c => c.1 == n)).map Prod.snd).isSome
    rw [any_eq_isSome_find?]
    rcases hf : cs.find? (fun c => c.1 == n) with _ | c <;> rw [hf] <;> rfl

theorem DF.hasCol_of_getCol {df : DF} {n : String} {v : List Cell}
    (h : df.getCol n = some v) : df.hasCol n = true := by
  rw [DF.hasCol_eq_isSome, h]
  rfl

theorem DF.getCol_of_hasCol {df : DF} {n : String}
    (h : df.hasCol n = true) : ∃ v, df.getCol n = some v := by
  rw [DF.hasCol_eq_isSome] at h
  rcases hg : df.getCol n with _ | v
  · rw [hg] at h
    exact absurd h (by simp)
  · exact ⟨v, rfl⟩

theorem DF.hasCol_false_of_getCol_none {df : DF} {n : String}
    (h : df.getCol n = none) : df.hasCol n = false := by
  rw [DF.hasCol_eq_isSome, h]
  rfl

theorem DF.getCol_none_of_hasCol_false {df : DF} {n : String}
    (h : df.hasCol n = false) : df.getCol n = none := by
  rw [DF.hasCol_eq_isSome] at h
  rcases hg : df.getCol n with _ | v
  · rfl
  · rw [hg] at h
    exact absurd h (by simp)

theorem DF.hasCol_setCol (df : DF) (n m : String) (v : List Cell) :
    (df.setCol n v).hasCol m = (df.hasCol m || (n == m)) := by
  cases df with
  | mk nr cs =>
    unfold DF.setCol
    split
    next h =>
      have h1 : cs.any (fun c => c.1 == n) = true := h
      show (cs.map (fun c => if c.1 == n then (c.1, v) else c)).any (fun c => c.1 == m)
        = (cs.any (fun c => c.1 == m) || (n == m))
      rw [any_name_map_namekeep (by intro c; split <;> rfl) m]
      by_cases hnm : (n == m) = true
      · have h2 : cs.any (fun c => c.1 == m) = true := by
          rw [← eq_of_beq hnm]
          exact h1
        rw [h2, hnm]
        rfl
      · rw [beq_false_of_not_true hnm, Bool.or_false]
    next h =>
      show (cs ++ [(n, v)]).any (fun c => c.1 == m)
        = (cs.any (fun c => c.1 == m) || (n == m))
      rw [List.any_append]
      simp

theorem DF.labels_setCol_present (df : DF) (n : String) (v : List Cell)
    (h : df.hasCol n = true) :
    (df.setCol n v).cols.map Prod.fst = df.cols.map Prod.fst := by
  unfold DF.setCol
  rw [if_pos h]
  show (df.cols.map _).map Prod.fst = _
  rw [List.map_map]
  apply List.map_congr_left
  intro c _
  show ((if c.1 == n then (c.1, v) else c).1) = c.1
  split <;> rfl

theorem DF.colCount_setCol_ne (df : DF) {n m : String} (v : List Cell)
    (h : (n == m) = false) :
    (df.setCol n v).colCount m = df.colCount m := by
  cases df with
  | mk nr cs =>
    unfold DF.setCol
    split
    · show ((cs.map (fun c => if c.1 == n then (c.1, v) else c)).filter
          (fun c => c.1 == m)).length = (cs.filter (fun c => c.1 == m)).length
      rw [count_name_map_namekeep (by intro c; split <;> rfl) m]
    · show ((cs ++ [(n, v)]).filter (fun c => c.1 == m)).length
        = (cs.filter (fun c => c.1 == m)).length
      rw [List.filter_append]
      simp [h]

theorem map_set_id_of_nomatch {t : List (String × List Cell)} {n : String} (v : List Cell)
    (h : ∀ c ∈ t, (c.1 == n) = false) :
    t.map (fun c => if c.1 == n then (c.1, v) else c) = t := by
  induction t with
  | nil => rfl
  | cons c r ih =>
    rw [List.map_cons, if_neg (by simp [h c (List.mem_cons_self c r)]),
      ih (fun x hx => h x (List.mem_cons_of_mem c hx))]

theorem DF.setCol_same (df : DF) {n : String} {v : List Cell}
    (hv : df.getCol n = some v) (hc : df.colCount n ≤ 1) :
    df.setCol n v = df := by
  have hh : df.hasCol n = true := DF.hasCol_of_getCol hv
  cases df with
  | mk nr cs =>
    unfold DF.setCol
    rw [if_pos hh]
    have hv2 : (cs.find? (fun c => c.1 == n)).map Prod.snd = some v := hv
    have hc2 : (cs.filter (fun c => c.1 == n)).length ≤ 1 := hc
    congr 1
    show cs.map (fun c => if c.1 == n then (c.1, v) else c) = cs
    clear hv hc hh
    induction cs with
    | nil => rfl
    | cons c t ih =>
      by_cases hp : (c.1 == n) = true
      · rw [find?_cons_pos hp] at hv2
        have hveq : c.2 = v := by simpa using hv2
        rw [filter_cons_pos hp] at hc2
        have ht0 : (t.filter (fun c => c.1 == n)).length = 0 := by
          simp only [List.length_cons] at hc2
          omega
        have htnil : ∀ x ∈ t, (x.1 == n) = false := by
          intro x hx
          by_contra hb
          have hxt : (x.1 == n) = true := by
            cases hq : x.1 == n
            · exact absurd hq hb
            · rfl
          have hxm : x ∈ t.filter (fun c => c.1 == n) := List.mem_filter.mpr ⟨hx, hxt⟩
          rw [List.length_eq_zero.mp ht0] at hxm
          exact absurd hxm (List.not_mem_nil x)
        rw [List.map_cons, if_pos hp, map_set_id_of_nomatch v htnil, ← hveq]
      · have hpf : (c.1 == n) = false := beq_false_of_not_true hp
        rw [find?_cons_neg hpf] at hv2
        rw [filter_cons_neg hpf] at hc2
        rw [List.map_cons, if_neg (by simp [hpf]), ih hv2 hc2]

theorem injectDefault_present (df : DF) (n : String) (mk : Nat → Cell)
    (h : df.hasCol n = true) : injectDefault df n mk = df := by
  unfold injectDefault
  rw [if_pos h]

theorem DF.getCol_injectDefault_absent (df : DF) (n : String) (mk : Nat → Cell)
    (h : df.hasCol n = false) :
    (injectDefault df n mk).getCol n = some ((List.range df.nrows).map mk) := by
  unfold injectDefault
  rw [if_neg (by simp [h])]
  show ((df.cols ++ [(n, _)]).find? _).map Prod.snd = _
  rw [find?_append_one _ h]
  rfl

theorem DF.getCol_injectDefault_ne (df : DF) {n m : String} (mk : Nat → Cell)
    (h : (n == m) = false) :
    (injectDefault df n mk).getCol m = df.getCol m := by
  unfold injectDefault
  split
  · rfl
  · show ((df.cols ++ [(n, _)]).find? _).map Prod.snd = _
    rw [find?_append_nomatch _ h]
    rfl

theorem DF.hasCol_injectDefault (df : DF) (n : String) (mk : Nat → Cell) (m : String) :
    (injectDefault df n mk).hasCol m = (df.hasCol m || (n == m)) := by
  unfold injectDefault
  split
  next h =>
    by_cases hnm : (n == m) = true
    · have h2 : df.hasCol m = true := by
        rw [← eq_of_beq hnm]
        exact h
      rw [h2, hnm]
      rfl
    · rw [beq_false_of_not_true hnm, Bool.or_false]
  next h =>
    show (df.cols ++ [(n, (List.range df.nrows).map mk)]).any (fun c => c.1 == m)
      = (df.cols.any (fun c => c.1 == m) || (n == m))
    rw [List.any_append]
    simp

theorem DF.labels_rename (df : DF) (m : List (String × String)) :
    (df.rename m).cols.map Prod.fst = df.cols.map (fun c => (m.lookup c.1).getD c.1) := by
  unfold DF.rename
  rw [List.map_map]
  rfl

theorem find?_rename_untouched {m : List (String × String)} {n : String}
    (h1 : m.lookup n = none) :
    ∀ (cs : List (String × List Cell)),
      (∀ c ∈ cs, (m.lookup c.1).getD c.1 = n → c.1 = n) →
      ((cs.map (fun c => ((m.lookup c.1).getD c.1, c.2))).find? (fun c => c.1 == n)).map Prod.snd
        = (cs.find? (fun c => c.1 == n)).map Prod.snd
  | [], _ => rfl
  | c :: t, h2 => by
    rw [List.map_cons]
    by_cases hc : (((m.lookup c.1).getD c.1) == n) = true
    · have he : (m.lookup c.1).getD c.1 = n := eq_of_beq hc
      have hcn : c.1 = n := h2 c (List.mem_cons_self c t) he
      rw [find?_cons_pos hc, find?_cons_pos (show (c.1 == n) = true by simp [hcn])]
      rfl
    · have hcf : (((m.lookup c.1).getD c.1) == n) = false := beq_false_of_not_true hc
      have hcn : (c.1 == n) = false := by
        cases hb : c.1 == n
        · rfl
        · exfalso
          have hc1 : c.1 = n := eq_of_beq hb
          rw [hc1, h1] at hcf
          simp at hcf
      rw [find?_cons_neg hcf, find?_cons_neg hcn]
      exact find?_rename_untouched h1 t (fun x hx => h2 x (List.mem_cons_of_mem c hx))

theorem DF.getCol_rename_untouched (df : DF) (m : List (String × String)) (n : String)
    (h1 : m.lookup n = none)
    (h2 : ∀ c ∈ df.cols, (m.lookup c.1).getD c.1 = n → c.1 = n) :
    (df.rename m).getCol n = df.getCol n :=
  find?_rename_untouched h1 df.cols h2

theorem DF.hasCol_rename_untouched (df : DF) (m : List (String × String)) (n : String)
    (h1 : m.lookup n = none)
    (h2 : ∀ c ∈ df.cols, (m.lookup c.1).getD c.1 = n → c.1 = n) :
    (df.rename m).hasCol n = df.hasCol n := by
  rw [DF.hasCol_eq_isSome, DF.hasCol_eq_isSome, DF.getCol_rename_untouched df m n h1 h2]

theorem count_rename_untouched {m : List (String × String)} {n : String}
    (h1 : m.lookup n = none) :
    ∀ (cs : List (String × List Cell)),
      (∀ c ∈ cs, (m.lookup c.1).getD c.1 = n → c.1 = n) →
      ((cs.map (fun c => ((m.lookup c.1).getD c.1, c.2))).filter (fun c => c.1 == n)).length
        = (cs.filter (fun c => c.1 == n)).length
  | [], _ => rfl
  | c :: t, h2 => by
    rw [List.map_cons]
    by_cases hc : (((m.lookup c.1).getD c.1) == n) = true
    · have he : (m.lookup c.1).getD c.1 = n := eq_of_beq hc
      have hcn : c.1 = n := h2 c (List.mem_cons_self c t) he
      rw [filter_cons_pos hc, filter_cons_pos (show (c.1 == n) = true by simp [hcn])]
      simp only [List.length_cons]
      rw [count_rename_untouched h1 t (fun x hx => h2 x (List.mem_cons_of_mem c hx))]
    · have hcf : (((m.lookup c.1).getD c.1) == n) = false := beq_false_of_not_true hc
      have hcn : (c.1 == n) = false := by
        cases hb : c.1 == n
        · rfl
        · exfalso
          have hc1 : c.1 = n := eq_of_beq hb
          rw [hc1, h1] at hcf
          simp at hcf
      rw [filter_cons_neg hcf, filter_cons_neg hcn]
      exact count_rename_untouched h1 t (fun x hx => h2 x (List.mem_cons_of_mem c hx))

theorem DF.colCount_rename_untouched (df : DF) (m : List (String × String)) (n : String)
    (h1 : m.lookup n = none)
    (h2 : ∀ c ∈ df.cols, (m.lookup c.1).getD c.1 = n → c.1 = n) :
    (df.rename m).colCount n = df.colCount n :=
  count_rename_untouched h1 df.cols h2

theorem stdRenameDict_eq_filterMap (names : List String) :
    stdRenameDict names
      = names.filterMap (fun n => (stdName n).map (fun t => (n, t))) := by
  have key : ∀ (ns : List String) (acc : List (String × String)),
      ns.foldl (fun acc n =>
          match stdName n with
          | some t => acc ++ [(n, t)]
          | none => acc) acc
        = acc ++ ns.filterMap (fun n => (stdName n).map (fun t => (n, t))) := by
    intro ns
    induction ns with
    | nil => intro acc; simp
    | cons n t ih =>
      intro acc
      rw [List.foldl_cons]
      rcases hs : stdName n with _ | tn
      · simp only [hs]
        rw [ih]
        simp [List.filterMap_cons, hs]
      · simp only [hs]
        rw [ih]
        simp [List.filterMap_cons, hs]
  have hk := key names []
  simpa [stdRenameDict] using hk

theorem stdRenameDict_lookup (names : List String) (n : String) :
    (stdRenameDict names).lookup n
      = if names.contains n = true then stdName n else none := by
  rw [stdRenameDict_eq_filterMap]
  induction names with
  | nil => simp [List.lookup]
  | cons h t ih =>
    rw [List.filterMap_cons]
    by_cases hn : (n == h) = true
    · have hne : n = h := eq_of_beq hn
      subst hne
      rcases hs : stdName n with _ | tn
      · simp only [Option.map_none']
        rw [ih]
        simp [hs]
      · simp only [Option.map_some']
        rw [show (((n, tn) :: t.filterMap (fun x => (stdName x).map (fun tt => (x, tt)))).lookup n)
            = some tn by simp [List.lookup]]
        simp [List.contains_cons, hs]
    · have hnf : (n == h) = false := beq_false_of_not_true hn
      have hne : n ≠ h := by simpa using hnf
      rcases hs : stdName h with _ | th
      · simp only [Option.map_none']
        rw [ih]
        simp [List.contains_cons, hne]
      · simp only [Option.map_some']
        rw [show (((h, th) :: t.filterMap (fun x => (stdName x).map (fun tt => (x, tt)))).lookup n)
            = (t.filterMap (fun x => (stdName x).map (fun tt => (x, tt)))).lookup n by
          simp [List.lookup, hnf]]
        rw [ih]
        simp [List.contains_cons, hne]

theorem contains_of_mem {l : List String} {a : String} (h : a ∈ l) : l.contains a = true := by
  induction l with
  | nil => exact absurd h (List.not_mem_nil a)
  | cons x t ih =>
    rcases List.mem_cons.mp h with he | ht
    · subst he
      simp [List.contains_cons]
    · rw [List.contains_cons]
      simp only [ih ht, Bool.or_true]

theorem stdRename_cols (df : DF) :
    (stdRename df).cols = df.cols.map (fun c => ((stdName c.1).getD c.1, c.2)) := by
  unfold stdRename DF.rename
  simp only
  apply List.map_congr_left
  intro c hc
  have hmem : c.1 ∈ df.cols.map Prod.fst := List.mem_map_of_mem Prod.fst hc
  rw [stdRenameDict_lookup, if_pos (contains_of_mem hmem)]

theorem stdName_target {h t : String} (hh : stdName h = some t) :
    t ∈ columnMapping.map Prod.snd :=
  List.mem_map_of_mem Prod.snd (lookup_mem hh)

theorem dateRole_mem {s r : String} (h : dateRole s = some r) :
    r ∈ datePatterns.map Prod.fst := by
  have h2 : (datePatterns.find?
      (fun p => p.2.any (fun k => containsSub (stripChars (lowerStr s) [' ', '#']) k))).map Prod.fst
      = some r := h
  rcases hf : datePatterns.find?
      (fun p => p.2.any (fun k => containsSub (stripChars (lowerStr s) [' ', '#']) k)) with _ | p
  · rw [hf] at h2
    exact absurd h2 (by simp)
  · rw [hf] at h2
    have hp : p ∈ datePatterns := List.mem_of_find?_eq_some hf
    have hr : p.1 = r := by simpa using h2
    rw [← hr]
    exact List.mem_map_of_mem Prod.fst hp

theorem mem_upsert {l : List (String × String)} {k v : String} {q : String × String}
    (h : q ∈ upsert l k v) : q ∈ l ∨ q = (k, v) := by
  unfold upsert at h
  split at h
  · rcases List.mem_map.mp h with ⟨p, hp, he⟩
    by_cases hpk : (p.1 == k) = true
    · right
      rw [← he, if_pos hpk]
    · left
      rw [← he, if_neg (by simp [beq_false_of_not_true hpk])]
      exact hp
  · rcases List.mem_append.mp h with hl | hr
    · left
      exact hl
    · right
      simpa using hr

theorem inferDateColumns_inv (names : List String) :
    ∀ p ∈ inferDateColumns names,
      p.1 ∈ datePatterns.map Prod.fst ∧ dateRole p.2 = some p.1 := by
  have key : ∀ (ns : List String) (acc : List (String × String)),
      (∀ p ∈ acc, p.1 ∈ datePatterns.map Prod.fst ∧ dateRole p.2 = some p.1) →
      ∀ p ∈ ns.foldl (fun acc n =>
          match dateRole n with
          | some role => upsert acc role n
          | none => acc) acc,
        p.1 ∈ datePatterns.map Prod.fst ∧ dateRole p.2 = some p.1 := by
    intro ns
    induction ns with
    | nil => intro acc hacc; simpa using hacc
    | cons n t ih =>
      intro acc hacc
      rw [List.foldl_cons]
      rcases hr : dateRole n with _ | role
      · simp only [hr]
        exact ih acc hacc
      · simp only [hr]
        apply ih
        intro p hp
        rcases mem_upsert hp with hold | hnew
        · exact hacc p hold
        · subst hnew
          exact ⟨dateRole_mem hr, hr⟩
  intro p hp
  exact key names [] (by simp) p hp

theorem inferRenameDict_lookup_role {names : List String} {k r : String}
    (h : (inferRenameDict names).lookup k = some r) : dateRole k = some r := by
  have hm := lookup_mem h
  unfold inferRenameDict at hm
  rcases List.mem_map.mp hm with ⟨p, hp, he⟩
  have hinv := inferDateColumns_inv names p hp
  have h1 : p.2 = k := congrArg Prod.fst he
  have h2 : p.1 = r := congrArg Prod.snd he
  rw [← h1, hinv.2, h2]

theorem inferRenameDict_target {names : List String} {q : String × String}
    (h : q ∈ inferRenameDict names) : q.2 ∈ datePatterns.map Prod.fst := by
  unfold inferRenameDict at h
  rcases List.mem_map.mp h with ⟨p, hp, he⟩
  have hinv := inferDateColumns_inv names p hp
  rw [← he]
  exact hinv.1

theorem inferRenameDict_lookup_none {names : List String} {k : String}
    (h : dateRole k = none) : (inferRenameDict names).lookup k = none := by
  rcases hl : (inferRenameDict names).lookup k with _ | r
  · rfl
  · have := inferRenameDict_lookup_role hl
    rw [h] at this
    exact absurd this (by simp)

theorem getD_prop {P : Cell → Prop} (hp : P Cell.null) {l : List Cell}
    (hs : ∀ c ∈ l, P c) (i : Nat) : P (l.getD i Cell.null) := by
  induction l generalizing i with
  | nil => simpa [List.getD] using hp
  | cons c t ih =>
    cases i with
    | zero => simpa [List.getD] using hs c (List.mem_cons_self c t)
    | succ j =>
      simp only [List.getD_cons_succ]
      exact ih (fun x hx => hs x (List.mem_cons_of_mem c hx)) j

theorem getD_eq_of_get? {l : List Cell} {i : Nat} {c : Cell} (h : l.get? i = some c) :
    l.getD i Cell.null = c := by
  induction l generalizing i with
  | nil => simp at h
  | cons x t ih =>
    cases i with
    | zero =>
      rw [List.getD_cons_zero]
      exact Option.some.inj h
    | succ j =>
      simp only [List.get?] at h
      simp only [List.getD_cons_succ]
      exact ih h

theorem getD_null_of_get?_none {l : List Cell} {i : Nat} (h : l.get? i = none) :
    l.getD i Cell.null = Cell.null := by
  induction l generalizing i with
  | nil => simp [List.getD]
  | cons x t ih =>
    cases i with
    | zero => simp [List.get?] at h
    | succ j =>
      simp only [List.get?] at h
      simp only [List.getD_cons_succ]
      exact ih h

theorem mapExcept_ok_forall {α β : Type} {f : α → Except String β} :
    ∀ {l : List α} {r : List β}, mapExcept f l = Except.ok r →
      ∀ x ∈ l, ∃ y, f x = Except.ok y
  | [], r, _, x, hx => absurd hx (List.not_mem_nil x)
  | a :: t, r, h, x, hx => by
    unfold mapExcept at h
    rcases hf : f a with e | y
    · rw [hf] at h
      simp [bind, Except.bind] at h
    · rw [hf] at h
      simp only [bind, Except.bind] at h
      rcases ht : mapExcept f t with e | ys
      · rw [ht] at h
        simp at h
      · rcases List.mem_cons.mp hx with he | hxt
        · exact he ▸ ⟨y, hf⟩
        · exact mapExcept_ok_forall ht x hxt

theorem daysLateCell_ok (now : Int) {d : Cell} (s : Cell)
    (h : d = Cell.null ∨ ∃ t a, d = Cell.date t a) :
    daysLateCell now d s = Except.ok (dlPure now d s) := by
  rcases h with h | ⟨t, a, h⟩ <;> subst h
  · rfl
  · show (do
        let lt ← cellLtTime (Cell.date t a) now
        pure (if cellNotNull (Cell.date t a) && lt && !(s == Cell.str "Complete") then
            match Cell.date t a with
            | Cell.date t2 _ => Cell.num (Int.fdiv (now - t2) 86400)
            | _ => Cell.num 0
          else Cell.num 0) : Except String Cell) = _
    unfold cellLtTime cellNotNull dlPure
    simp only [bind, Except.bind, pure, Except.pure]
    by_cases hlt : t < now
    · by_cases hs : s = Cell.str "Complete" <;> simp [hlt, hs]
    · simp [hlt]

theorem durationCell_ok {a b : Cell} (old : Cell)
    (ha : a = Cell.null ∨ ∃ t x, a = Cell.date t x)
    (hb : b = Cell.null ∨ ∃ t x, b = Cell.date t x) :
    durationCell a b old = Except.ok (durPure a b old) := by
  rcases ha with ha | ⟨t1, x1, ha⟩ <;> rcases hb with hb | ⟨t2, x2, hb⟩ <;>
    subst ha <;> subst hb <;> rfl

theorem daysLateStep_char (now : Int) (d : DF) {due st : List Cell}
    (hgd : d.getCol "DueDate" = some due) (hgs : d.getCol "Status" = some st)
    (hcd : d.colCount "DueDate" ≤ 1) (hcs : d.colCount "Status" ≤ 1)
    (hshape : ∀ c ∈ due, c = Cell.null ∨ ∃ t a, c = Cell.date t a) :
    daysLateStep now d = Except.ok (d.setCol "DaysLate"
      ((List.range d.nrows).map
        (fun i => dlPure now (due.getD i Cell.null) (st.getD i Cell.null)))) := by
  have hdd := DF.hasCol_of_getCol hgd
  have hst := DF.hasCol_of_getCol hgs
  unfold daysLateStep
  rw [hdd, hst]
  rw [if_pos (show (true && true) = true from rfl)]
  rw [if_neg (by simp only [Bool.or_eq_true, decide_eq_true_eq]; omega)]
  rw [hgd, hgs]
  simp only [Option.getD_some]
  rw [mapExcept_ok (g := fun i => dlPure now (due.getD i Cell.null) (st.getD i Cell.null))
    (fun i _ => daysLateCell_ok now _ (getD_prop (Or.inl rfl)
      (fun c hc => hshape c hc) i))]
  rfl

theorem daysLateStep_skip (now : Int) (d : DF)
    (h : (d.hasCol "DueDate" && d.hasCol "Status") = false) :
    daysLateStep now d
      = Except.ok (d.setCol "DaysLate" (List.replicate d.nrows (Cell.num 0))) := by
  unfold daysLateStep
  rw [h]
  rfl

theorem durationStep_char (d : DF) {sd cd : List Cell}
    (hgs : d.getCol "StartDate" = some sd) (hgc : d.getCol "CustomerRequestDate" = some cd)
    (hcs : d.colCount "StartDate" ≤ 1) (hcc : d.colCount "CustomerRequestDate" ≤ 1)
    (hsh1 : ∀ c ∈ sd, c = Cell.null ∨ ∃ t a, c = Cell.date t a)
    (hsh2 : ∀ c ∈ cd, c = Cell.null ∨ ∃ t a, c = Cell.date t a) :
    durationStep d = Except.ok (d.setCol "DurationDays"
      ((List.range d.nrows).map (fun i => durPure (sd.getD i Cell.null) (cd.getD i Cell.null)
        (match d.getCol "DurationDays" with
         | some oc => oc.getD i Cell.null
         | none => Cell.null)))) := by
  have hds := DF.hasCol_of_getCol hgs
  have hdc := DF.hasCol_of_getCol hgc
  unfold durationStep
  rw [hds, hdc]
  rw [if_pos (show (true && true) = true from rfl)]
  rw [if_neg (by simp only [Bool.or_eq_true, decide_eq_true_eq]; omega)]
  rw [hgs, hgc]
  simp only [Option.getD_some]
  rw [mapExcept_ok (g := fun i => durPure (sd.getD i Cell.null) (cd.getD i Cell.null)
      (match d.getCol "DurationDays" with
       | some oc => oc.getD i Cell.null
       | none => Cell.null))
    (fun i _ => durationCell_ok _ (getD_prop (Or.inl rfl) (fun c hc => hsh1 c hc) i)
      (getD_prop (Or.inl rfl) (fun c hc => hsh2 c hc) i))]
  rfl

theorem durationStep_char_none (d : DF) {sd cd : List Cell}
    (hgs : d.getCol "StartDate" = some sd) (hgc : d.getCol "CustomerRequestDate" = some cd)
    (hcs : d.colCount "StartDate" ≤ 1) (hcc : d.colCount "CustomerRequestDate" ≤ 1)
    (hsh1 : ∀ c ∈ sd, c = Cell.null ∨ ∃ t a, c = Cell.date t a)
    (hsh2 : ∀ c ∈ cd, c = Cell.null ∨ ∃ t a, c = Cell.date t a)
    (hnone : d.getCol "DurationDays" = none) :
    durationStep d = Except.ok (d.setCol "DurationDays"
      ((List.range d.nrows).map (fun i => durPure (sd.getD i Cell.null)
        (cd.getD i Cell.null) Cell.null))) := by
  rw [durationStep_char d hgs hgc hcs hcc hsh1 hsh2, hnone]

theorem durationStep_skip (d : DF)
    (h : (d.hasCol "StartDate" && d.hasCol "CustomerRequestDate") = false) :
    durationStep d = Except.ok d := by
  unfold durationStep
  rw [h]
  rfl

theorem DF.colCount_injectDefault_ne (df : DF) {n m : String} (mk : Nat → Cell)
    (h : (n == m) = false) :
    (injectDefault df n mk).colCount m = df.colCount m := by
  unfold injectDefault
  split
  · rfl
  · show ((df.cols ++ [(n, (List.range df.nrows).map mk)]).filter (fun c => c.1 == m)).length
      = (df.cols.filter (fun c => c.1 == m)).length
    rw [List.filter_append]
    simp [h]

theorem hasCol_setCol_present {d : DF} {n : String} {v : List Cell} (m : String)
    (hn : d.hasCol n = true) : (d.setCol n v).hasCol m = d.hasCol m := by
  unfold DF.setCol
  rw [if_pos hn]
  show (d.cols.map (fun c => if c.1 == n then (c.1, v) else c)).any (fun c => c.1 == m)
    = d.cols.any (fun c => c.1 == m)
  rw [any_name_map_namekeep (by intro c; split <;> rfl) m]

theorem colCount_setCol_present {d : DF} {n : String} {v : List Cell} (m : String)
    (hn : d.hasCol n = true) : (d.setCol n v).colCount m = d.colCount m := by
  unfold DF.setCol
  rw [if_pos hn]
  show ((d.cols.map (fun c => if c.1 == n then (c.1, v) else c)).filter (fun c => c.1 == m)).length
    = (d.cols.filter (fun c => c.1 == m)).length
  rw [count_name_map_namekeep (by intro c; split <;> rfl) m]

theorem DF.getCol_mem {df : DF} {n : String} {v : List Cell}
    (h : df.getCol n = some v) : ∃ c ∈ df.cols, c.1 = n ∧ c.2 = v := by
  rcases hf : df.cols.find? (fun c => c.1 == n) with _ | c
  · have : df.getCol n = none := by
      unfold DF.getCol
      rw [hf]
      rfl
    rw [this] at h
    exact absurd h (by simp)
  · have hcv : c.2 = v := by
      have : df.getCol n = some c.2 := by
        unfold DF.getCol
        rw [hf]
        rfl
      rw [this] at h
      exact Option.some.inj h
    have hcn : c.1 = n := by
      have := List.find?_some hf
      exact eq_of_beq (by simpa using this)
    exact ⟨c, List.mem_of_find?_eq_some hf, hcn, hcv⟩

theorem DF.length_getCol {df : DF} {n : String} {v : List Cell}
    (hs : df.Sized) (h : df.getCol n = some v) : v.length = df.nrows := by
  rcases DF.getCol_mem h with ⟨c, hc, _, hcv⟩
  rw [← hcv]
  exact hs c hc

theorem DF.Sized_setCol {d : DF} {n : String} {v : List Cell}
    (hs : d.Sized) (hv : v.length = d.nrows) : (d.setCol n v).Sized := by
  have hn : (d.setCol n v).nrows = d.nrows := DF.nrows_setCol d n v
  unfold DF.setCol at hn ⊢
  split
  · intro c hc
    rcases List.mem_map.mp hc with ⟨x, hx, he⟩
    rw [← he]
    show (if x.1 == n then (x.1, v) else x).2.length = _
    split
    · exact hv
    · exact hs x hx
  · intro c hc
    rcases List.mem_append.mp hc with hl | hr
    · exact hs c hl
    · have : c = (n, v) := by simpa using hr
      rw [this]
      exact hv

theorem DF.Sized_rename {d : DF} (m : List (String × String)) (hs : d.Sized) :
    (d.rename m).Sized := by
  intro c hc
  rcases List.mem_map.mp hc with ⟨x, hx, he⟩
  rw [← he]
  exact hs x hx

theorem DF.Sized_injectDefault {d : DF} (n : String) (mk : Nat → Cell) (hs : d.Sized) :
    (injectDefault d n mk).Sized := by
  unfold injectDefault
  split
  · exact hs
  · intro c hc
    rcases List.mem_append.mp hc with hl | hr
    · exact hs c hl
    · have : c = (n, (List.range d.nrows).map mk) := by simpa using hr
      rw [this]
      simp

theorem foldInject_nrows : ∀ (L : List (String × (Nat → Cell))) (d : DF),
    (L.foldl (fun d p => injectDefault d p.1 p.2) d).nrows = d.nrows
  | [], _ => rfl
  | p :: t, d => by
    rw [List.foldl_cons, foldInject_nrows t _, DF.nrows_injectDefault]

theorem foldInject_Sized : ∀ (L : List (String × (Nat → Cell))) (d : DF),
    d.Sized → (L.foldl (fun d p => injectDefault d p.1 p.2) d).Sized
  | [], _, hs => hs
  | p :: t, d, hs => by
    rw [List.foldl_cons]
    exact foldInject_Sized t _ (DF.Sized_injectDefault p.1 p.2 hs)

theorem foldInject_getCol_notin : ∀ (L : List (String × (Nat → Cell))) (d : DF) (n : String),
    (∀ p ∈ L, (p.1 == n) = false) →
    (L.foldl (fun d p => injectDefault d p.1 p.2) d).getCol n = d.getCol n
  | [], _, _, _ => rfl
  | p :: t, d, n, h => by
    rw [List.foldl_cons,
      foldInject_getCol_notin t _ n (fun q hq => h q (List.mem_cons_of_mem p hq)),
      DF.getCol_injectDefault_ne d p.2 (h p (List.mem_cons_self p t))]

theorem foldInject_hasCol_true : ∀ (L : List (String × (Nat → Cell))) (d : DF) (n : String),
    d.hasCol n = true →
    (L.foldl (fun d p => injectDefault d p.1 p.2) d).hasCol n = true
  | [], _, _, h => h
  | p :: t, d, n, h => by
    rw [List.foldl_cons]
    exact foldInject_hasCol_true t _ n (by rw [DF.hasCol_injectDefault, h]; rfl)

theorem foldInject_getCol_present : ∀ (L : List (String × (Nat → Cell))) (d : DF) (n : String),
    d.hasCol n = true →
    (L.foldl (fun d p => injectDefault d p.1 p.2) d).getCol n = d.getCol n
  | [], _, _, _ => rfl
  | p :: t, d, n, h => by
    rw [List.foldl_cons]
    by_cases hp : (p.1 == n) = true
    · rw [injectDefault_present d p.1 p.2 (by rw [eq_of_beq hp]; exact h)]
      exact foldInject_getCol_present t d n h
    · have hf := beq_false_of_not_true hp
      rw [foldInject_getCol_present t _ n (by rw [DF.hasCol_injectDefault, h]; rfl),
        DF.getCol_injectDefault_ne d p.2 hf]

theorem foldInject_colCount_present : ∀ (L : List (String × (Nat → Cell))) (d : DF) (n : String),
    d.hasCol n = true →
    (L.foldl (fun d p => injectDefault d p.1 p.2) d).colCount n = d.colCount n
  | [], _, _, _ => rfl
  | p :: t, d, n, h => by
    rw [List.foldl_cons]
    by_cases hp : (p.1 == n) = true
    · rw [injectDefault_present d p.1 p.2 (by rw [eq_of_beq hp]; exact h)]
      exact foldInject_colCount_present t d n h
    · have hf := beq_false_of_not_true hp
      rw [foldInject_colCount_present t _ n (by rw [DF.hasCol_injectDefault, h]; rfl),
        DF.colCount_injectDefault_ne d p.2 hf]

theorem foldInject_hasCol_mem : ∀ (L : List (String × (Nat → Cell))) (d : DF)
    (n : String) (mk : Nat → Cell), (n, mk) ∈ L →
    (L.foldl (fun d p => injectDefault d p.1 p.2) d).hasCol n = true
  | [], _, n, _, h => absurd h (List.not_mem_nil _)
  | p :: t, d, n, mk, h => by
    rw [List.foldl_cons]
    rcases List.mem_cons.mp h with he | ht
    · apply foldInject_hasCol_true
      rw [DF.hasCol_injectDefault]
      have : (p.1 == n) = true := by
        have hp1 : p.1 = n := by rw [← he]
        simp [hp1]
      rw [this, Bool.or_true]
    · exact foldInject_hasCol_mem t _ n mk ht

theorem foldInject_getCol_mem : ∀ (L : List (String × (Nat → Cell))) (d : DF)
    (n : String) (mk : Nat → Cell), (L.map Prod.fst).Nodup → (n, mk) ∈ L →
    d.hasCol n = false →
    (L.foldl (fun d p => injectDefault d p.1 p.2) d).getCol n
      = some ((List.range d.nrows).map mk)
  | [], _, n, _, _, h, _ => absurd h (List.not_mem_nil _)
  | p :: t, d, n, mk, hnd, hmem, habs => by
    rw [List.foldl_cons]
    have hnd2 := List.nodup_cons.mp hnd
    rcases List.mem_cons.mp hmem with he | ht
    · have hp1 : p.1 = n := by rw [← he]
      have hp2 : p.2 = mk := by rw [← he]
      have hne : ∀ q ∈ t, (q.1 == n) = false := by
        intro q hq
        have hqn : q.1 ≠ n := by
          intro hqe
          apply hnd2.1
          rw [hp1, ← hqe]
          exact List.mem_map_of_mem Prod.fst hq
        simp [hqn]
      rw [foldInject_getCol_notin t _ n hne, hp1, hp2,
        DF.getCol_injectDefault_absent d n mk habs]
    · have hpn : (p.1 == n) = false := by
        have : p.1 ≠ n := by
          intro hpe
          apply hnd2.1
          rw [hpe]
          exact List.mem_map_of_mem Prod.fst ht
        simp [this]
      rw [show (List.range d.nrows) = List.range (injectDefault d p.1 p.2).nrows by
        rw [DF.nrows_injectDefault]]
      apply foldInject_getCol_mem t _ n mk hnd2.2 ht
      rw [DF.hasCol_injectDefault, habs, hpn]
      rfl

theorem tzLocalizeCol_ok_eq {p loc : List Cell} (h : tzLocalizeCol p = Except.ok loc) :
    loc = p.map (fun c => match c with | Cell.date t false => Cell.date t true | c0 => c0) := by
  unfold tzLocalizeCol at h
  split at h
  · exact absurd h (by simp)
  · exact (Except.ok.inj h).symm

theorem toDatetimeCell_shape (x : Cell) :
    toDatetimeCell x = Cell.null ∨ ∃ t a, toDatetimeCell x = Cell.date t a := by
  cases x with
  | str s =>
    rcases h : parseDateStr s with _ | t
    · left
      simp [toDatetimeCell, h]
    · right
      exact ⟨t, false, by simp [toDatetimeCell, h]⟩
  | num n => right; exact ⟨n, false, rfl⟩
  | null => left; rfl
  | date t a => right; exact ⟨t, a, rfl⟩

theorem coerceLocalize_length (cells : List Cell) :
    (coerceLocalize cells).length = cells.length := by
  unfold coerceLocalize
  rcases h : tzLocalizeCol (cells.map toDatetimeCell) with e | loc
  · simp
  · rw [tzLocalizeCol_ok_eq h]
    simp

theorem coerceLocalize_shape (cells : List Cell) :
    ∀ c ∈ coerceLocalize cells, c = Cell.null ∨ ∃ t a, c = Cell.date t a := by
  have base : ∀ c ∈ cells.map toDatetimeCell, c = Cell.null ∨ ∃ t a, c = Cell.date t a := by
    intro c hc
    rcases List.mem_map.mp hc with ⟨x, _, he⟩
    rw [← he]
    exact toDatetimeCell_shape x
  unfold coerceLocalize
  rcases h : tzLocalizeCol (cells.map toDatetimeCell) with e | loc
  · exact base
  · intro c hc
    rw [tzLocalizeCol_ok_eq h] at hc
    rcases List.mem_map.mp hc with ⟨y, hy, he⟩
    rcases base y hy with hn | ⟨t, a, hd⟩
    · left
      rw [← he, hn]
    · rw [hd] at he
      rcases a with _ | _
      · right
        exact ⟨t, true, by rw [← he]⟩
      · right
        exact ⟨t, true, by rw [← he]⟩

theorem parseOneDateCol_absent {d : DF} {n : String} (h : d.hasCol n = false) :
    parseOneDateCol d n = (d, []) := by
  unfold parseOneDateCol
  rw [h]
  rfl

theorem parseOneDateCol_char {d : DF} {cells : List Cell} (n : String)
    (hg : d.getCol n = some cells) (hc : d.colCount n ≤ 1) :
    parseOneDateCol d n = (d.setCol n (coerceLocalize cells),
      (if 0 < ((cells.map toDatetimeCell).filter (fun c => c == Cell.null)).length then
        ["Failed to parse "
          ++ toString ((cells.map toDatetimeCell).filter (fun c => c == Cell.null)).length
          ++ " dates in " ++ n]
      else [])
      ++ (match tzLocalizeCol (cells.map toDatetimeCell) with
          | Except.ok _ => []
          | Except.error e => ["Error parsing " ++ n ++ ": " ++ e])) := by
  unfold parseOneDateCol
  rw [DF.hasCol_of_getCol hg, if_pos (show true = true from rfl), if_neg (by omega), hg]
  unfold coerceLocalize
  rcases hl : tzLocalizeCol (cells.map toDatetimeCell) with e | loc <;>
    simp only [hl] <;> simp

theorem parseOneDateCol_getCol_ne {d : DF} {n m : String} (h : (n == m) = false) :
    (parseOneDateCol d n).1.getCol m = d.getCol m := by
  rcases hh : d.hasCol n with _ | _
  · rw [parseOneDateCol_absent hh]
  · unfold parseOneDateCol
    rw [hh, if_pos (show true = true from rfl)]
    split
    · rfl
    · rcases hg : d.getCol n with _ | cells
      · simp only [hg]
      · simp only [hg]
        rcases hl : tzLocalizeCol (cells.map toDatetimeCell) with e | loc <;>
          simp only [hl] <;> exact DF.getCol_setCol_ne d _ h

theorem parseOneDateCol_nrows (d : DF) (n : String) :
    (parseOneDateCol d n).1.nrows = d.nrows := by
  rcases hh : d.hasCol n with _ | _
  · rw [parseOneDateCol_absent hh]
  · unfold parseOneDateCol
    rw [hh, if_pos (show true = true from rfl)]
    split
    · rfl
    · rcases hg : d.getCol n with _ | cells
      · simp only [hg]
      · simp only [hg]
        rcases hl : tzLocalizeCol (cells.map toDatetimeCell) with e | loc <;>
          simp only [hl] <;> exact DF.nrows_setCol d _ _

theorem parseOneDateCol_hasCol (d : DF) (n m : String) :
    (parseOneDateCol d n).1.hasCol m = d.hasCol m := by
  rcases hh : d.hasCol n with _ | _
  · rw [parseOneDateCol_absent hh]
  · unfold parseOneDateCol
    rw [hh, if_pos (show true = true from rfl)]
    split
    · rfl
    · rcases hg : d.getCol n with _ | cells
      · simp only [hg]
      · simp only [hg]
        rcases hl : tzLocalizeCol (cells.map toDatetimeCell) with e | loc <;>
          simp only [hl] <;> exact hasCol_setCol_present m hh

theorem parseOneDateCol_colCount (d : DF) (n m : String) :
    (parseOneDateCol d n).1.colCount m = d.colCount m := by
  rcases hh : d.hasCol n with _ | _
  · rw [parseOneDateCol_absent hh]
  · unfold parseOneDateCol
    rw [hh, if_pos (show true = true from rfl)]
    split
    · rfl
    · rcases hg : d.getCol n with _ | cells
      · simp only [hg]
      · simp only [hg]
        rcases hl : tzLocalizeCol (cells.map toDatetimeCell) with e | loc <;>
          simp only [hl] <;> exact colCount_setCol_present m hh

theorem parseOneDateCol_Sized {d : DF} (n : String) (hs : d.Sized) :
    (parseOneDateCol d n).1.Sized := by
  rcases hh : d.hasCol n with _ | _
  · rw [parseOneDateCol_absent hh]
    exact hs
  · unfold parseOneDateCol
    rw [hh, if_pos (show true = true from rfl)]
    split
    · exact hs
    · rcases hg : d.getCol n with _ | cells
      · simp only [hg]
        exact hs
      · simp only [hg]
        have hlen : (coerceLocalize cells).length = d.nrows := by
          rw [coerceLocalize_length]
          exact DF.length_getCol hs hg
        rcases hl : tzLocalizeCol (cells.map toDatetimeCell) with e | loc <;> simp only [hl]
        · apply DF.Sized_setCol hs
          have : cells.map toDatetimeCell = coerceLocalize cells := by
            unfold coerceLocalize
            rw [hl]
          rw [this]
          exact hlen
        · apply DF.Sized_setCol hs
          have : loc = coerceLocalize cells := by
            unfold coerceLocalize
            rw [hl]
          rw [this]
          exact hlen

theorem normalizeStatus_char {d : DF} {cells : List Cell}
    (hg : d.getCol "Status" = some cells) :
    normalizeStatus d = d.setCol "Status" (cells.map normalizeStatusValue) := by
  unfold normalizeStatus
  rw [DF.hasCol_of_getCol hg, if_pos (show true = true from rfl), hg]

theorem get?_eq_some_getD {l : List Cell} {i : Nat} (h : i < l.length) :
    l.get? i = some (l.getD i Cell.null) := by
  induction l generalizing i with
  | nil => simp at h
  | cons c t ih =>
    cases i with
    | zero => simp [List.get?, List.getD_cons_zero]
    | succ j =>
      simp only [List.get?, List.getD_cons_succ]
      exact ih (by simpa using h)

theorem colCount_le_one_of_nodup {df : DF} (h : (df.cols.map Prod.fst).Nodup) (n : String) :
    df.colCount n ≤ 1 := by
  cases df with
  | mk nr cs =>
    show (cs.filter (fun c => c.1 == n)).length ≤ 1
    simp only [List.map] at h
    induction cs with
    | nil => simp
    | cons c t ih =>
      rw [List.map_cons, List.nodup_cons] at h
      by_cases hc : (c.1 == n) = true
      · rw [filter_cons_pos hc]
        have htnil : t.filter (fun c => c.1 == n) = [] := by
          rw [List.filter_eq_nil]
          intro x hx
          intro hxb
          apply h.1
          have : x.1 = n := eq_of_beq (by simpa using hxb)
          rw [← eq_of_beq hc] at this
          rw [← this]
          exact List.mem_map_of_mem Prod.fst hx
        rw [htnil]
        simp
      · rw [filter_cons_neg (beq_false_of_not_true hc)]
        exact ih h.2

theorem parseDates_eq (df : DF) :
    parseDates df =
      ((parseOneDateCol (parseOneDateCol (parseOneDateCol (parseOneDateCol
          (df.rename (inferRenameDict (df.cols.map Prod.fst)))
          "StartDate").1 "CustomerRequestDate").1 "ShipDate").1 "DueDate").1,
        (([] ++ (parseOneDateCol
            (df.rename (inferRenameDict (df.cols.map Prod.fst))) "StartDate").2)
          ++ (parseOneDateCol (parseOneDateCol
            (df.rename (inferRenameDict (df.cols.map Prod.fst)))
            "StartDate").1 "CustomerRequestDate").2
          ++ (parseOneDateCol (parseOneDateCol (parseOneDateCol
            (df.rename (inferRenameDict (df.cols.map Prod.fst)))
            "StartDate").1 "CustomerRequestDate").1 "ShipDate").2)
          ++ (parseOneDateCol (parseOneDateCol (parseOneDateCol (parseOneDateCol
            (df.rename (inferRenameDict (df.cols.map Prod.fst)))
            "StartDate").1 "CustomerRequestDate").1 "ShipDate").1 "DueDate").2) := rfl

theorem parseDates_getCol_nondate (d : DF) (n : String)
    (h1 : ("StartDate" == n) = false) (h2 : ("CustomerRequestDate" == n) = false)
    (h3 : ("ShipDate" == n) = false) (h4 : ("DueDate" == n) = false) :
    (parseDates d).1.getCol n
      = (d.rename (inferRenameDict (d.cols.map Prod.fst))).getCol n := by
  rw [parseDates_eq]
  rw [parseOneDateCol_getCol_ne h4, parseOneDateCol_getCol_ne h3,
    parseOneDateCol_getCol_ne h2, parseOneDateCol_getCol_ne h1]

theorem parseDates_hasCol (d : DF) (n : String) :
    (parseDates d).1.hasCol n
      = (d.rename (inferRenameDict (d.cols.map Prod.fst))).hasCol n := by
  rw [parseDates_eq]
  rw [parseOneDateCol_hasCol, parseOneDateCol_hasCol,
    parseOneDateCol_hasCol, parseOneDateCol_hasCol]

theorem parseDates_colCount (d : DF) (n : String) :
    (parseDates d).1.colCount n
      = (d.rename (inferRenameDict (d.cols.map Prod.fst))).colCount n := by
  rw [parseDates_eq]
  rw [parseOneDateCol_colCount, parseOneDateCol_colCount,
    parseOneDateCol_colCount, parseOneDateCol_colCount]

theorem parseDates_nrows (d : DF) : (parseDates d).1.nrows = d.nrows := by
  rw [parseDates_eq]
  rw [parseOneDateCol_nrows, parseOneDateCol_nrows,
    parseOneDateCol_nrows, parseOneDateCol_nrows]
  rfl

theorem parseDates_Sized (d : DF) (hs : d.Sized) : (parseDates d).1.Sized := by
  rw [parseDates_eq]
  exact parseOneDateCol_Sized _ (parseOneDateCol_Sized _ (parseOneDateCol_Sized _
    (parseOneDateCol_Sized _ (DF.Sized_rename _ hs))))

theorem addCalc_ok_split {now : Int} {d out : DF}
    (h : addCalculatedFields now d = Except.ok out) :
    ∃ d1, daysLateStep now d = Except.ok d1 ∧ durationStep d1 = Except.ok out := by
  unfold addCalculatedFields at h
  rcases hd : daysLateStep now d with e | d1
  · rw [hd] at h
    simp [bind, Except.bind] at h
  · rw [hd] at h
    simp only [bind, Except.bind] at h
    exact ⟨d1, rfl, h⟩

theorem daysLateStep_ok_nodup {now : Int} {d r : DF}
    (hok : daysLateStep now d = Except.ok r)
    (hdd : d.hasCol "DueDate" = true) (hst : d.hasCol "Status" = true) :
    d.colCount "DueDate" ≤ 1 ∧ d.colCount "Status" ≤ 1 := by
  unfold daysLateStep at hok
  rw [hdd, hst, if_pos (show (true && true) = true from rfl)] at hok
  by_cases hdup : (2 ≤ d.colCount "DueDate" ∨ 2 ≤ d.colCount "Status")
  · rw [if_pos (by simpa using hdup)] at hok
    exact absurd hok (by simp [throw, throwThe, MonadExceptOf.throw])
  · push_neg at hdup
    omega

theorem durationStep_ok_nodup {d r : DF}
    (hok : durationStep d = Except.ok r)
    (hds : d.hasCol "StartDate" = true) (hdc : d.hasCol "CustomerRequestDate" = true) :
    d.colCount "StartDate" ≤ 1 ∧ d.colCount "CustomerRequestDate" ≤ 1 := by
  unfold durationStep at hok
  rw [hds, hdc, if_pos (show (true && true) = true from rfl)] at hok
  by_cases hdup : (2 ≤ d.colCount "StartDate" ∨ 2 ≤ d.colCount "CustomerRequestDate")
  · rw [if_pos (by simpa using hdup)] at hok
    exact absurd hok (by simp [throw, throwThe, MonadExceptOf.throw])
  · push_neg at hdup
    omega

theorem daysLateStep_ok_cases {now : Int} {d out : DF}
    (h : daysLateStep now d = Except.ok out) :
    ∃ dl, out = d.setCol "DaysLate" dl := by
  unfold daysLateStep at h
  split at h
  · split at h
    · exact absurd h (by simp [throw, throwThe, MonadExceptOf.throw])
    · rcases hm : mapExcept (fun i => daysLateCell now
          (((d.getCol "DueDate").getD []).getD i Cell.null)
          (((d.getCol "Status").getD []).getD i Cell.null)) (List.range d.nrows) with e | dl
      · simp only [hm, bind, Except.bind] at h
        exact absurd h (by simp)
      · simp only [hm, bind, Except.bind, pure, Except.pure] at h
        exact ⟨dl, (Except.ok.inj h).symm⟩
  · exact ⟨List.replicate d.nrows (Cell.num 0), (Except.ok.inj h).symm⟩

theorem durationStep_ok_cases {d out : DF} (h : durationStep d = Except.ok out) :
    (∃ dur, out = d.setCol "DurationDays" dur) ∨ out = d := by
  unfold durationStep at h
  split at h
  · split at h
    · exact absurd h (by simp [throw, throwThe, MonadExceptOf.throw])
    · rcases hm : mapExcept (fun i => durationCell
          (((d.getCol "StartDate").getD []).getD i Cell.null)
          (((d.getCol "CustomerRequestDate").getD []).getD i Cell.null)
          (match d.getCol "DurationDays" with
           | some oc => oc.getD i Cell.null
           | none => Cell.null)) (List.range d.nrows) with e | dur
      · simp only [hm, bind, Except.bind] at h
        exact absurd h (by simp)
      · simp only [hm, bind, Except.bind, pure, Except.pure] at h
        exact Or.inl ⟨dur, (Except.ok.inj h).symm⟩
  · exact Or.inr (Except.ok.inj h).symm

theorem processDataframe_ok_iff {now : Int} {df out : DF} {ws : List String}
    (h : df.isEmpty = false) :
    processDataframe now df = Except.ok (out, ws) ↔
      addCalculatedFields now (normalizeStatus (parseDates (standardizeColumns df)).1)
          = Except.ok out
        ∧ ws = (parseDates (standardizeColumns df)).2 := by
  unfold processDataframe
  rw [h]
  simp only [Bool.false_eq_true, if_false]
  rcases ha : addCalculatedFields now (normalizeStatus (parseDates (standardizeColumns df)).1)
      with e | o
  · simp only [ha, bind, Except.bind]
    simp
  · simp only [ha, bind, Except.bind, pure, Except.pure]
    constructor
    · intro hh
      have hinj := Except.ok.inj hh
      have h1 : o = out := congrArg Prod.fst hinj
      have h2 : (parseDates (standardizeColumns df)).2 = ws := congrArg Prod.snd hinj
      exact ⟨by rw [h1], h2.symm⟩
    · rintro ⟨h1, h2⟩
      rw [Except.ok.injEq] at h1
      rw [h1, h2]

theorem stdRenameDict_lookup_some {names : List String} {k t : String}
    (h : (stdRenameDict names).lookup k = some t) : stdName k = some t := by
  rw [stdRenameDict_lookup] at h
  split at h
  · exact h
  · exact absurd h (by simp)

theorem stdRename_untouched (df : DF) (n : String)
    (hstd : stdName n = none)
    (htgt : n ∉ columnMapping.map Prod.snd) :
    (stdRename df).getCol n = df.getCol n
      ∧ (stdRename df).hasCol n = df.hasCol n
      ∧ (stdRename df).colCount n = df.colCount n := by
  have h1 : (stdRenameDict (df.cols.map Prod.fst)).lookup n = none := by
    rw [stdRenameDict_lookup]
    split
    · exact hstd
    · rfl
  have h2 : ∀ c ∈ df.cols,
      ((stdRenameDict (df.cols.map Prod.fst)).lookup c.1).getD c.1 = n → c.1 = n := by
    intro c hc he
    rcases hl : (stdRenameDict (df.cols.map Prod.fst)).lookup c.1 with _ | t
    · rw [hl] at he
      exact he
    · exfalso
      rw [hl] at he
      simp only [Option.getD_some] at he
      apply htgt
      rw [← he]
      exact stdName_target (stdRenameDict_lookup_some hl)
  exact ⟨DF.getCol_rename_untouched df _ n h1 h2,
    DF.hasCol_rename_untouched df _ n h1 h2,
    DF.colCount_rename_untouched df _ n h1 h2⟩

theorem dateRename_untouched (d : DF) (n : String)
    (hrole : dateRole n = none)
    (htgt : n ∉ datePatterns.map Prod.fst) :
    (d.rename (inferRenameDict (d.cols.map Prod.fst))).getCol n = d.getCol n
      ∧ (d.rename (inferRenameDict (d.cols.map Prod.fst))).hasCol n = d.hasCol n
      ∧ (d.rename (inferRenameDict (d.cols.map Prod.fst))).colCount n = d.colCount n := by
  have h1 : (inferRenameDict (d.cols.map Prod.fst)).lookup n = none :=
    inferRenameDict_lookup_none hrole
  have h2 : ∀ c ∈ d.cols,
      ((inferRenameDict (d.cols.map Prod.fst)).lookup c.1).getD c.1 = n → c.1 = n := by
    intro c hc he
    rcases hl : (inferRenameDict (d.cols.map Prod.fst)).lookup c.1 with _ | r
    · rw [hl] at he
      exact he
    · exfalso
      rw [hl] at he
      simp only [Option.getD_some] at he
      apply htgt
      rw [← he]
      exact dateRole_mem (inferRenameDict_lookup_role hl)
  exact ⟨DF.getCol_rename_untouched d _ n h1 h2,
    DF.hasCol_rename_untouched d _ n h1 h2,
    DF.colCount_rename_untouched d _ n h1 h2⟩

theorem parseDates_getCol_date (d : DF) (n : String) (hn : n ∈ dateColNames)
    {cells : List Cell}
    (hg : (d.rename (inferRenameDict (d.cols.map Prod.fst))).getCol n = some cells)
    (hc : (d.rename (inferRenameDict (d.cols.map Prod.fst))).colCount n ≤ 1) :
    (parseDates d).1.getCol n = some (coerceLocalize cells) := by
  rw [parseDates_eq]
  have hstart : ∀ dd : DF, dd.getCol n = some cells → dd.colCount n ≤ 1 →
      (parseOneDateCol dd n).1.getCol n = some (coerceLocalize cells) := by
    intro dd hgg hcc
    rw [parseOneDateCol_char n hgg hcc]
    exact DF.getCol_setCol_self dd n (coerceLocalize cells)
  rcases show n = "StartDate" ∨ n = "CustomerRequestDate" ∨ n = "ShipDate" ∨ n = "DueDate" by
      simpa [dateColNames] using hn with h | h | h | h
  · subst h
    rw [parseOneDateCol_getCol_ne (by decide), parseOneDateCol_getCol_ne (by decide),
      parseOneDateCol_getCol_ne (by decide)]
    exact hstart _ hg hc
  · subst h
    rw [parseOneDateCol_getCol_ne (by decide), parseOneDateCol_getCol_ne (by decide)]
    apply hstart
    · rw [parseOneDateCol_getCol_ne (by decide)]
      exact hg
    · rw [parseOneDateCol_colCount]
      exact hc
  · subst h
    rw [parseOneDateCol_getCol_ne (by decide)]
    apply hstart
    · rw [parseOneDateCol_getCol_ne (by decide), parseOneDateCol_getCol_ne (by decide)]
      exact hg
    · rw [parseOneDateCol_colCount, parseOneDateCol_colCount]
      exact hc
  · subst h
    apply hstart
    · rw [parseOneDateCol_getCol_ne (by decide), parseOneDateCol_getCol_ne (by decide),
        parseOneDateCol_getCol_ne (by decide)]
      exact hg
    · rw [parseOneDateCol_colCount, parseOneDateCol_colCount, parseOneDateCol_colCount]
      exact hc

theorem foldInject_mem : ∀ (L : List (String × (Nat → Cell))) (d : DF)
    (x : String × List Cell), x ∈ d.cols →
    x ∈ (L.foldl (fun d p => injectDefault d p.1 p.2) d).cols
  | [], _, _, h => h
  | p :: t, d, x, h => by
    rw [List.foldl_cons]
    apply foldInject_mem t
    unfold injectDefault
    split
    · exact h
    · exact List.mem_append_left _ h

theorem lookup_upsert_self (l : List (String × String)) (k v : String) :
    (upsert l k v).lookup k = some v := by
  unfold upsert
  split
  next h =>
    induction l with
    | nil => simp at h
    | cons p t ih =>
      by_cases hp : (p.1 == k) = true
      · rw [List.map_cons, if_pos hp]
        simp [List.lookup]
      · have hpf := beq_false_of_not_true hp
        have hkp : (k == p.1) = false := by
          simp only [beq_eq_false_iff_ne] at hpf ⊢
          exact fun he => hpf he.symm
        rw [List.map_cons, if_neg (by simp [hpf])]
        rw [show ((p :: t.map (fun q => if q.1 == k then (k, v) else q)).lookup k)
            = (t.map (fun q => if q.1 == k then (k, v) else q)).lookup k by
          simp [List.lookup, hkp]]
        simp only [List.any_cons, hpf, Bool.false_or] at h
        exact ih h
  next h =>
    induction l with
    | nil => simp [List.lookup]
    | cons p t ih =>
      have hpf : (p.1 == k) = false := by
        cases hb : p.1 == k
        · rfl
        · exact absurd (by rw [List.any_cons, hb]; rfl) h
      have hkp : (k == p.1) = false := by
        simp only [beq_eq_false_iff_ne] at hpf ⊢
        exact fun he => hpf he.symm
      rw [List.cons_append]
      rw [show (((p :: (t ++ [(k, v)]))).lookup k) = ((t ++ [(k, v)]).lookup k) by
        simp [List.lookup, hkp]]
      apply ih
      intro hany
      apply h
      rw [List.any_cons, hpf]
      simpa using hany

theorem lookup_map_upsert_ne {t : List (String × String)} {k k' : String} (v : String)
    (h : (k' == k) = false) :
    (t.map (fun q => if q.1 == k then (k, v) else q)).lookup k' = t.lookup k' := by
  induction t with
  | nil => rfl
  | cons p r ih =>
    rw [List.map_cons]
    by_cases hp : (p.1 == k) = true
    · have hpk : p.1 = k := eq_of_beq hp
      have hk'p : (k' == p.1) = false := by
        rw [hpk]
        exact h
      rw [if_pos hp]
      rw [show (((k, v) :: r.map (fun q => if q.1 == k then (k, v) else q)).lookup k')
          = (r.map (fun q => if q.1 == k then (k, v) else q)).lookup k' by
        simp [List.lookup, h]]
      rw [show ((p :: r).lookup k') = r.lookup k' by simp [List.lookup, hk'p]]
      exact ih
    · rw [if_neg hp]
      by_cases hk'p : (k' == p.1) = true
      · rw [show ((p :: r.map (fun q => if q.1 == k then (k, v) else q)).lookup k')
            = some p.2 by simp [List.lookup, hk'p]]
        rw [show ((p :: r).lookup k') = some p.2 by simp [List.lookup, hk'p]]
      · have hf := beq_false_of_not_true hk'p
        rw [show ((p :: r.map (fun q => if q.1 == k then (k, v) else q)).lookup k')
            = (r.map (fun q => if q.1 == k then (k, v) else q)).lookup k' by
          simp [List.lookup, hf]]
        rw [show ((p :: r).lookup k') = r.lookup k' by simp [List.lookup, hf]]
        exact ih

theorem lookup_append_one_ne {t : List (String × String)} {k k' : String} (v : String)
    (h : (k' == k) = false) :
    (t ++ [(k, v)]).lookup k' = t.lookup k' := by
  induction t with
  | nil => simp [List.lookup, h]
  | cons p r ih =>
    rw [List.cons_append]
    by_cases hk'p : (k' == p.1) = true
    · rw [show ((p :: (r ++ [(k, v)])).lookup k') = some p.2 by simp [List.lookup, hk'p]]
      rw [show ((p :: r).lookup k') = some p.2 by simp [List.lookup, hk'p]]
    · have hf := beq_false_of_not_true hk'p
      rw [show ((p :: (r ++ [(k, v)])).lookup k') = ((r ++ [(k, v)]).lookup k') by
        simp [List.lookup, hf]]
      rw [show ((p :: r).lookup k') = r.lookup k' by simp [List.lookup, hf]]
      exact ih

theorem lookup_upsert_ne (l : List (String × String)) {k k' : String} (v : String)
    (h : (k' == k) = false) :
    (upsert l k v).lookup k' = l.lookup k' := by
  unfold upsert
  split
  · exact lookup_map_upsert_ne v h
  · exact lookup_append_one_ne v h

theorem inferDateColumns_lookup_or :
    ∀ (names : List String) (acc : List (String × String)) (role : String),
    (names.foldl (fun acc n =>
        match dateRole n with
        | some r => upsert acc r n
        | none => acc) acc).lookup role
      = ((names.filter (fun n => dateRole n == some role)).getLast?).or (acc.lookup role)
  | [], acc, role => by simp
  | n :: t, acc, role => by
    rw [List.foldl_cons]
    rcases hr : dateRole n with _ | r
    · simp only [hr]
      rw [inferDateColumns_lookup_or t acc role]
      rw [List.filter_cons_of_neg (by simp [hr])]
    · simp only [hr]
      by_cases hrr : r = role
      · subst hrr
        rw [inferDateColumns_lookup_or t _ r]
        rw [List.filter_cons_of_pos (by simp [hr])]
        rw [lookup_upsert_self]
        rw [List.getLast?_cons]
        rcases (t.filter (fun x => dateRole x == some r)).getLast? with _ | c <;>
          simp [Option.or]
      · have hne : (role == r) = false := by
          simp only [beq_eq_false_iff_ne]
          exact fun he => hrr he.symm
        rw [inferDateColumns_lookup_or t _ role]
        rw [lookup_upsert_ne _ _ hne]
        rw [List.filter_cons_of_neg (by simp [hr]; intro he; exact hrr he)]

theorem map_const_range (n : Nat) (c : Cell) :
    (List.range n).map (fun _ => c) = List.replicate n c := by
  induction n with
  | zero => rfl
  | succ m ih =>
    rw [List.range_succ, List.map_append, ih]
    rw [List.replicate_succ']
    rfl

theorem normalizeStatusValue_enum (c : Cell) : normalizeStatusValue c ∈ statusEnum := by
  unfold normalizeStatusValue statusEnum
  rcases h : statusMapping.lookup (lowerStr (trimStr (cellToPyStr c))) with _ | v
  · simp
  · have hv : v ∈ statusMapping.map Prod.snd := List.mem_map_of_mem Prod.snd (lookup_mem h)
    have hv2 : v = "Planned" ∨ v = "In-Progress" ∨ v = "Complete" ∨ v = "Hold"
        ∨ v = "Planned" := by
      simpa [statusMapping] using hv
    simp only [Option.getD_some]
    rcases hv2 with h2 | h2 | h2 | h2 | h2 <;> rw [h2] <;> simp

theorem DF.hasCol_setCol_ne {d : DF} {n m : String} (v : List Cell)
    (h : (n == m) = false) : (d.setCol n v).hasCol m = d.hasCol m := by
  rw [DF.hasCol_setCol, h, Bool.or_false]

theorem DF.hasCol_setCol_self (d : DF) (n : String) (v : List Cell) :
    (d.setCol n v).hasCol n = true := by
  rw [DF.hasCol_setCol]
  simp

theorem hasCol_of_cellAt {df : DF} {n : String} {i : Nat} {c : Cell}
    (h : df.cellAt n i = some c) : df.hasCol n = true := by
  unfold DF.cellAt at h
  rcases hg : df.getCol n with _ | l
  · rw [hg] at h
    simp at h
  · exact DF.hasCol_of_getCol hg

theorem cellAt_none_of_getCol_none {df : DF} {n : String} (i : Nat)
    (h : df.getCol n = none) : df.cellAt n i = none := by
  unfold DF.cellAt
  rw [h]
  rfl

theorem cellAt_eq {df : DF} {n : String} {l : List Cell} (i : Nat)
    (h : df.getCol n = some l) : df.cellAt n i = l.get? i := by
  unfold DF.cellAt
  rw [h]
  rfl

theorem standardizeColumns_nrows (df : DF) : (standardizeColumns df).nrows = df.nrows := by
  show (requiredDefaults.foldl (fun d p => injectDefault d p.1 p.2) (stdRename df)).nrows
    = df.nrows
  rw [foldInject_nrows]
  rfl

theorem stdRename_Sized (df : DF) (hs : df.Sized) : (stdRename df).Sized :=
  DF.Sized_rename (stdRenameDict (df.cols.map Prod.fst)) hs

theorem standardizeColumns_Sized (df : DF) (hs : df.Sized) : (standardizeColumns df).Sized := by
  unfold standardizeColumns stdInject
  exact foldInject_Sized _ _ (stdRename_Sized df hs)

/-- Claim C8: processing an input with zero rows returns the frame unchanged
together with an empty warning list, raising no exception and running no
stage (confirmed: the orchestrator short-circuits on `df.empty`). -/
theorem claim_C8_theorem (now : Int) (df : DF) (h : df.nrows = 0) :
    processDataframe now df = Except.ok (df, []) := by
  unfold processDataframe
  rw [show df.isEmpty = true by simp [DF.isEmpty, h]]
  rfl

/-- Witness for C8 at a concrete zero-row frame. -/
theorem claim_C8_witness :
    (⟨0, [("X", [])]⟩ : DF).nrows = 0
      ∧ processDataframe 0 ⟨0, [("X", [])]⟩ = Except.ok ((⟨0, [("X", [])]⟩ : DF), []) :=
  ⟨rfl, claim_C8_theorem 0 _ rfl⟩

/-- Claim C2 (code bug): the pipeline is meant never to raise on tabular
input, but when two well-formed headers both match the DueDate role (one
already canonical), the date rename duplicates the DueDate label,
`pd.to_datetime` on the resulting two-column selection raises inside the
guarded block leaving the raw strings in place, and the DaysLate mask
comparison `df['DueDate'] < today` then raises an uncaught TypeError in
`add_calculated_fields`.  Removing the colliding header makes the same data
process cleanly, isolating the collision as the trigger. -/
theorem claim_C2_theorem :
    isErr (processDataframe 0
        ⟨1, [("DueDate", [Cell.str "2024-01-01"]), ("Due Date", [Cell.str "2024-01-02"])]⟩)
      = true
    ∧ isErr (processDataframe 0 ⟨1, [("DueDate", [Cell.str "2024-01-01"])]⟩) = false
    ∧ (⟨1, [("DueDate", [Cell.str "2024-01-01"]), ("Due Date", [Cell.str "2024-01-02"])]⟩
        : DF).WF := by
  decide

/-- Claim C10 counterexample: headers id and job both map to JobID through
the field-alias pass; after `standardize_columns` BOTH renamed columns
survive, so the earlier header's data is still present under the canonical
name, contradicting the claim that no data from the earlier header survives
under it. -/
theorem claim_C10_counterexample :
    ("JobID", [Cell.str "a"]) ∈
        (standardizeColumns ⟨1, [("id", [Cell.str "a"]), ("job", [Cell.str "b"])]⟩).cols
      ∧ ("JobID", [Cell.str "b"]) ∈
        (standardizeColumns ⟨1, [("id", [Cell.str "a"]), ("job", [Cell.str "b"])]⟩).cols
      ∧ (⟨1, [("id", [Cell.str "a"]), ("job", [Cell.str "b"])]⟩ : DF).WF := by
  decide

/-- Claim C10 (amended): duplicate-target behavior is last-write-wins only in
the date-role pass — the dict entry for a role is the last matching header
in column order, the earlier matching headers keeping their raw names —
while in the field-alias pass every colliding header is renamed, so the
canonical name is duplicated in the output and each colliding header's
values (the earlier one's included) survive under it; neither pass raises a
conflict error. -/
theorem claim_C10_theorem (names : List String) (role : String) (df : DF)
    (c1 c2 : String × List Cell) (t : String)
    (hm1 : c1 ∈ df.cols) (hm2 : c2 ∈ df.cols)
    (ht1 : stdName c1.1 = some t) (ht2 : stdName c2.1 = some t) :
    (inferDateColumns names).lookup role
        = (names.filter (fun n => dateRole n == some role)).getLast?
      ∧ (t, c1.2) ∈ (standardizeColumns df).cols
      ∧ (t, c2.2) ∈ (standardizeColumns df).cols := by
  refine ⟨?_, ?_, ?_⟩
  · have hor := inferDateColumns_lookup_or names [] role
    unfold inferDateColumns
    rw [hor]
    rw [show (List.lookup role ([] : List (String × String))) = none from rfl]
    exact Option.or_none
  · show (t, c1.2) ∈ (stdInject (stdRename df)).cols
    apply foldInject_mem
    rw [stdRename_cols]
    have he : ((stdName c1.1).getD c1.1, c1.2) = (t, c1.2) := by
      rw [ht1]
      rfl
    rw [← he]
    exact List.mem_map_of_mem _ hm1
  · show (t, c2.2) ∈ (stdInject (stdRename df)).cols
    apply foldInject_mem
    rw [stdRename_cols]
    have he : ((stdName c2.1).getD c2.1, c2.2) = (t, c2.2) := by
      rw [ht2]
      rfl
    rw [← he]
    exact List.mem_map_of_mem _ hm2

/-- Witness for C10 at concrete colliding headers. -/
theorem claim_C10_witness :
    ("id", [Cell.str "a"]) ∈ (⟨1, [("id", [Cell.str "a"]), ("job", [Cell.str "b"])]⟩ : DF).cols
  ∧ ("job", [Cell.str "b"]) ∈ (⟨1, [("id", [Cell.str "a"]), ("job", [Cell.str "b"])]⟩ : DF).cols
  ∧ stdName "id" = some "JobID"
  ∧ stdName "job" = some "JobID"
  ∧ ((inferDateColumns ["DueDate", "Due Date"]).lookup "DueDate"
        = (["DueDate", "Due Date"].filter (fun n => dateRole n == some "DueDate")).getLast?
      ∧ ("JobID", [Cell.str "a"]) ∈
          (standardizeColumns ⟨1, [("id", [Cell.str "a"]), ("job", [Cell.str "b"])]⟩).cols
      ∧ ("JobID", [Cell.str "b"]) ∈
          (standardizeColumns ⟨1, [("id", [Cell.str "a"]), ("job", [Cell.str "b"])]⟩).cols) :=
  ⟨by decide, by decide, by decide, by decide,
    claim_C10_theorem ["DueDate", "Due Date"] "DueDate" _ ("id", [Cell.str "a"])
      ("job", [Cell.str "b"]) "JobID" (by decide) (by decide) (by decide) (by decide)⟩

/-- Claim C1 counterexample: with the header Job Status (status-like, not
exactly Status) holding the value Complete, the full pipeline outputs
Status = Planned — neither the claimed renamed-and-canonicalized value
(Complete) nor Unknown; and with no status-like header at all the output
Status is Planned, not the claimed Unknown. -/
theorem claim_C1_counterexample :
    (processDataframe 0 ⟨1, [("Job Status", [Cell.str "Complete"])]⟩).toOption.map
        (fun p => p.1.getCol "Status") = some (some [Cell.str "Planned"])
  ∧ (processDataframe 0 ⟨1, [("X", [Cell.str "a"])]⟩).toOption.map
        (fun p => p.1.getCol "Status") = some (some [Cell.str "Planned"])
  ∧ normalizeStatusValue (Cell.str "Complete") = Cell.str "Complete"
  ∧ Cell.str "Planned" ≠ Cell.str "Unknown"
  ∧ Cell.str "Planned" ≠ Cell.str "Complete" := by
  decide

/-- Claim C1 (amended): in the full pipeline `standardize_columns` injects
Status = Planned whenever no column is named exactly Status, so
`normalize_status` never renames a status-like header and never applies the
Unknown fallback: for every such input every output Status value is the
literal Planned, the status-like header's values being ignored.  The
behavior the claim describes holds only for `normalize_status` run in
isolation. -/
theorem claim_C1_theorem (now : Int) (df out : DF) (ws : List String)
    (hwf : df.WF) (hne : df.isEmpty = false)
    (hnoStatus : df.hasCol "Status" = false)
    (hok : processDataframe now df = Except.ok (out, ws)) :
    out.getCol "Status" = some (List.replicate df.nrows (Cell.str "Planned")) := by
  have haddok := ((processDataframe_ok_iff hne).mp hok).1
  have hsr := stdRename_untouched df "Status" (by decide) (by decide)
  have h1 : (standardizeColumns df).getCol "Status"
      = some (List.replicate df.nrows (Cell.str "Planned")) := by
    show (requiredDefaults.foldl (fun d p => injectDefault d p.1 p.2) (stdRename df)).getCol
      "Status" = _
    rw [foldInject_getCol_mem requiredDefaults (stdRename df) "Status"
      (fun _ => Cell.str "Planned") (by decide) (by simp [requiredDefaults])
      (by rw [hsr.2.1]; exact hnoStatus)]
    rw [show (stdRename df).nrows = df.nrows from rfl]
    rw [map_const_range]
  have hd := dateRename_untouched (standardizeColumns df) "Status" (by decide) (by decide)
  have h2 : (parseDates (standardizeColumns df)).1.getCol "Status"
      = some (List.replicate df.nrows (Cell.str "Planned")) := by
    rw [parseDates_getCol_nondate _ _ (by decide) (by decide) (by decide) (by decide),
      hd.1, h1]
  have h3 : (normalizeStatus (parseDates (standardizeColumns df)).1).getCol "Status"
      = some (List.replicate df.nrows (Cell.str "Planned")) := by
    rw [normalizeStatus_char h2, DF.getCol_setCol_self, List.map_replicate]
    rw [show normalizeStatusValue (Cell.str "Planned") = Cell.str "Planned" from by decide]
  rcases addCalc_ok_split haddok with ⟨d4, hdl, hdur⟩
  rcases daysLateStep_ok_cases hdl with ⟨dl, hd4⟩
  have h4 : d4.getCol "Status" = some (List.replicate df.nrows (Cell.str "Planned")) := by
    rw [hd4, DF.getCol_setCol_ne _ _ (by decide)]
    exact h3
  rcases durationStep_ok_cases hdur with ⟨dur, hout⟩ | hout
  · rw [hout, DF.getCol_setCol_ne _ _ (by decide)]
    exact h4
  · rw [hout]
    exact h4

/-- Witness for C1 at a concrete input with no Status header. -/
theorem claim_C1_witness :
    (⟨1, [("X", [Cell.str "a"])]⟩ : DF).WF
  ∧ (⟨1, [("X", [Cell.str "a"])]⟩ : DF).isEmpty = false
  ∧ (⟨1, [("X", [Cell.str "a"])]⟩ : DF).hasCol "Status" = false
  ∧ processDataframe 0 ⟨1, [("X", [Cell.str "a"])]⟩
      = Except.ok ((⟨1, [("X", [Cell.str "a"]), ("JobID", [Cell.str "0"]),
          ("JobName", [Cell.str ""]), ("Branch", [Cell.str "Unassigned"]),
          ("CustomerName", [Cell.str "Unassigned"]), ("Priority", [Cell.str "Medium"]),
          ("Status", [Cell.str "Planned"]), ("Quantity", [Cell.num 1]),
          ("ShipDate", [Cell.null]), ("Notes", [Cell.str ""]),
          ("DaysLate", [Cell.num 0])]⟩ : DF),
        ["Failed to parse 1 dates in ShipDate"])
  ∧ (⟨1, [("X", [Cell.str "a"]), ("JobID", [Cell.str "0"]),
        ("JobName", [Cell.str ""]), ("Branch", [Cell.str "Unassigned"]),
        ("CustomerName", [Cell.str "Unassigned"]), ("Priority", [Cell.str "Medium"]),
        ("Status", [Cell.str "Planned"]), ("Quantity", [Cell.num 1]),
        ("ShipDate", [Cell.null]), ("Notes", [Cell.str ""]),
        ("DaysLate", [Cell.num 0])]⟩ : DF).getCol "Status"
      = some (List.replicate 1 (Cell.str "Planned")) :=
  ⟨by decide, rfl, by decide, by decide,
    claim_C1_theorem 0 ⟨1, [("X", [Cell.str "a"])]⟩
      ⟨1, [("X", [Cell.str "a"]), ("JobID", [Cell.str "0"]),
        ("JobName", [Cell.str ""]), ("Branch", [Cell.str "Unassigned"]),
        ("CustomerName", [Cell.str "Unassigned"]), ("Priority", [Cell.str "Medium"]),
        ("Status", [Cell.str "Planned"]), ("Quantity", [Cell.num 1]),
        ("ShipDate", [Cell.null]), ("Notes", [Cell.str ""]),
        ("DaysLate", [Cell.num 0])]⟩
      ["Failed to parse 1 dates in ShipDate"]
      (by decide) rfl (by decide) (by decide)⟩

/-- Claim C6: for every non-empty input with a status-like header, every
output Status value is one of the four exact enum strings Planned,
In-Progress, Complete, Hold — every value of the Status column is trimmed,
lowercased and mapped through the fixed alias table with per-value fallback
Planned — and when the input's status column is literally named Status, the
output Status values are exactly its values canonicalized. -/
theorem claim_C6_theorem (now : Int) (df out : DF) (ws : List String)
    (hwf : df.WF) (hne : df.isEmpty = false)
    (hlike : ∃ c ∈ df.cols, containsSub (lowerStr c.1) "status" = true)
    (hok : processDataframe now df = Except.ok (out, ws)) :
    (∃ cells, out.getCol "Status" = some cells ∧ ∀ c ∈ cells, c ∈ statusEnum)
    ∧ (∀ vs, df.getCol "Status" = some vs →
        out.getCol "Status" = some (vs.map normalizeStatusValue)) := by
  have haddok := ((processDataframe_ok_iff hne).mp hok).1
  have hsr := stdRename_untouched df "Status" (by decide) (by decide)
  have hhs : (standardizeColumns df).hasCol "Status" = true :=
    foldInject_hasCol_mem requiredDefaults (stdRename df) "Status"
      (fun _ => Cell.str "Planned") (by simp [requiredDefaults])
  have hd := dateRename_untouched (standardizeColumns df) "Status" (by decide) (by decide)
  have hhp : (parseDates (standardizeColumns df)).1.hasCol "Status" = true := by
    rw [parseDates_hasCol, hd.2.1]
    exact hhs
  rcases DF.getCol_of_hasCol hhp with ⟨cells3, hc3⟩
  have hnorm : (normalizeStatus (parseDates (standardizeColumns df)).1).getCol "Status"
      = some (cells3.map normalizeStatusValue) := by
    rw [normalizeStatus_char hc3, DF.getCol_setCol_self]
  rcases addCalc_ok_split haddok with ⟨d4, hdl, hdur⟩
  rcases daysLateStep_ok_cases hdl with ⟨dl, hd4⟩
  have h4 : d4.getCol "Status" = some (cells3.map normalizeStatusValue) := by
    rw [hd4, DF.getCol_setCol_ne _ _ (by decide)]
    exact hnorm
  have hout : out.getCol "Status" = some (cells3.map normalizeStatusValue) := by
    rcases durationStep_ok_cases hdur with ⟨dur, ho⟩ | ho
    · rw [ho, DF.getCol_setCol_ne _ _ (by decide)]
      exact h4
    · rw [ho]
      exact h4
  constructor
  · refine ⟨cells3.map normalizeStatusValue, hout, ?_⟩
    intro c hc
    rcases List.mem_map.mp hc with ⟨x, _, he⟩
    rw [← he]
    exact normalizeStatusValue_enum x
  · intro vs hvs
    have h1 : (standardizeColumns df).getCol "Status" = some vs := by
      show (requiredDefaults.foldl (fun d p => injectDefault d p.1 p.2) (stdRename df)).getCol
        "Status" = _
      rw [foldInject_getCol_present requiredDefaults (stdRename df) "Status"
        (by rw [hsr.2.1]; exact DF.hasCol_of_getCol hvs)]
      rw [hsr.1]
      exact hvs
    have h2 : (parseDates (standardizeColumns df)).1.getCol "Status" = some vs := by
      rw [parseDates_getCol_nondate _ _ (by decide) (by decide) (by decide) (by decide),
        hd.1, h1]
    have hcv : cells3 = vs := by
      rw [h2] at hc3
      exact (Option.some.inj hc3).symm
    rw [hout, hcv]

/-- Witness for C6 at a concrete input whose Status column needs trimming,
lowercasing and the per-value fallback. -/
theorem claim_C6_witness :
    (⟨2, [("Status", [Cell.str "  IN PROGRESS ", Cell.num 3])]⟩ : DF).WF
  ∧ (⟨2, [("Status", [Cell.str "  IN PROGRESS ", Cell.num 3])]⟩ : DF).isEmpty = false
  ∧ (("Status", [Cell.str "  IN PROGRESS ", Cell.num 3])
      ∈ (⟨2, [("Status", [Cell.str "  IN PROGRESS ", Cell.num 3])]⟩ : DF).cols
      ∧ containsSub (lowerStr "Status") "status" = true)
  ∧ processDataframe 0 ⟨2, [("Status", [Cell.str "  IN PROGRESS ", Cell.num 3])]⟩
      = Except.ok ((⟨2, [("Status", [Cell.str "In-Progress", Cell.str "Planned"]),
          ("JobID", [Cell.str "0", Cell.str "1"]),
          ("JobName", [Cell.str "", Cell.str ""]),
          ("Branch", [Cell.str "Unassigned", Cell.str "Unassigned"]),
          ("CustomerName", [Cell.str "Unassigned", Cell.str "Unassigned"]),
          ("Priority", [Cell.str "Medium", Cell.str "Medium"]),
          ("Quantity", [Cell.num 1, Cell.num 1]),
          ("ShipDate", [Cell.null, Cell.null]),
          ("Notes", [Cell.str "", Cell.str ""]),
          ("DaysLate", [Cell.num 0, Cell.num 0])]⟩ : DF),
        ["Failed to parse 2 dates in ShipDate"])
  ∧ ((∃ cells, (⟨2, [("Status", [Cell.str "In-Progress", Cell.str "Planned"]),
          ("JobID", [Cell.str "0", Cell.str "1"]),
          ("JobName", [Cell.str "", Cell.str ""]),
          ("Branch", [Cell.str "Unassigned", Cell.str "Unassigned"]),
          ("CustomerName", [Cell.str "Unassigned", Cell.str "Unassigned"]),
          ("Priority", [Cell.str "Medium", Cell.str "Medium"]),
          ("Quantity", [Cell.num 1, Cell.num 1]),
          ("ShipDate", [Cell.null, Cell.null]),
          ("Notes", [Cell.str "", Cell.str ""]),
          ("DaysLate", [Cell.num 0, Cell.num 0])]⟩ : DF).getCol "Status" = some cells
        ∧ ∀ c ∈ cells, c ∈ statusEnum)
      ∧ (∀ vs, (⟨2, [("Status", [Cell.str "  IN PROGRESS ", Cell.num 3])]⟩ : DF).getCol
            "Status" = some vs →
          (⟨2, [("Status", [Cell.str "In-Progress", Cell.str "Planned"]),
            ("JobID", [Cell.str "0", Cell.str "1"]),
            ("JobName", [Cell.str "", Cell.str ""]),
            ("Branch", [Cell.str "Unassigned", Cell.str "Unassigned"]),
            ("CustomerName", [Cell.str "Unassigned", Cell.str "Unassigned"]),
            ("Priority", [Cell.str "Medium", Cell.str "Medium"]),
            ("Quantity", [Cell.num 1, Cell.num 1]),
            ("ShipDate", [Cell.null, Cell.null]),
            ("Notes", [Cell.str "", Cell.str ""]),
            ("DaysLate", [Cell.num 0, Cell.num 0])]⟩ : DF).getCol "Status"
            = some (vs.map normalizeStatusValue))) :=
  ⟨by decide, rfl, ⟨by decide, by decide⟩, by decide,
    claim_C6_theorem 0 ⟨2, [("Status", [Cell.str "  IN PROGRESS ", Cell.num 3])]⟩
      ⟨2, [("Status", [Cell.str "In-Progress", Cell.str "Planned"]),
        ("JobID", [Cell.str "0", Cell.str "1"]),
        ("JobName", [Cell.str "", Cell.str ""]),
        ("Branch", [Cell.str "Unassigned", Cell.str "Unassigned"]),
        ("CustomerName", [Cell.str "Unassigned", Cell.str "Unassigned"]),
        ("Priority", [Cell.str "Medium", Cell.str "Medium"]),
        ("Quantity", [Cell.num 1, Cell.num 1]),
        ("ShipDate", [Cell.null, Cell.null]),
        ("Notes", [Cell.str "", Cell.str ""]),
        ("DaysLate", [Cell.num 0, Cell.num 0])]⟩
      ["Failed to parse 2 dates in ShipDate"]
      (by decide) rfl ⟨("Status", [Cell.str "  IN PROGRESS ", Cell.num 3]), by decide, by decide⟩
      (by decide)⟩

/-- Claim C5 counterexample: an input that already carries a DurationDays
column keeps its values through the pipeline even though both date columns
are absent, so a row can have DurationDays set with no StartDate and no
CustomerRequestDate, contradicting the claimed iff. -/
theorem claim_C5_counterexample :
    (processDataframe 0 ⟨1, [("DurationDays", [Cell.num 7])]⟩).toOption.map
        (fun p => (p.1.cellAt "DurationDays" 0, p.1.hasCol "StartDate",
          p.1.hasCol "CustomerRequestDate"))
      = some (some (Cell.num 7), false, false)
  ∧ Cell.num 7 ≠ Cell.null
  ∧ (⟨1, [("DurationDays", [Cell.num 7])]⟩ : DF).WF := by
  decide

/-- Claim C5 (amended): provided the source has no DurationDays column of
its own, DurationDays is set on exactly the rows where both StartDate and
CustomerRequestDate hold datetime values, equal there to the floored
whole-day difference CustomerRequestDate minus StartDate (possibly
negative, not clamped); other rows leave the field unset (absent column or
null), and the column exists iff both date columns exist.  A pre-existing
DurationDays column is preserved on rows outside the mask, which falsifies
the unrestricted claim. -/
theorem claim_C5_theorem (now : Int) (df out : DF) (ws : List String)
    (hwf : df.WF) (hne : df.isEmpty = false)
    (hnoDur : df.hasCol "DurationDays" = false)
    (hok : processDataframe now df = Except.ok (out, ws)) :
    out.hasCol "DurationDays" = (out.hasCol "StartDate" && out.hasCol "CustomerRequestDate")
    ∧ ∀ i, i < df.nrows →
        ((∀ t1 a1 t2 a2, out.cellAt "StartDate" i = some (Cell.date t1 a1) →
            out.cellAt "CustomerRequestDate" i = some (Cell.date t2 a2) →
            out.cellAt "DurationDays" i = some (Cell.num (Int.fdiv (t2 - t1) 86400)))
          ∧ (∀ c, out.cellAt "DurationDays" i = some c → c ≠ Cell.null →
              ∃ t1 a1 t2 a2, out.cellAt "StartDate" i = some (Cell.date t1 a1)
                ∧ out.cellAt "CustomerRequestDate" i = some (Cell.date t2 a2)
                ∧ c = Cell.num (Int.fdiv (t2 - t1) 86400))) := by
  have haddok := ((processDataframe_ok_iff hne).mp hok).1
  rcases addCalc_ok_split haddok with ⟨d4, hdl, hdur⟩
  have hhs1 : (standardizeColumns df).hasCol "Status" = true :=
    foldInject_hasCol_mem requiredDefaults (stdRename df) "Status"
      (fun _ => Cell.str "Planned") (by simp [requiredDefaults])
  have hdS := dateRename_untouched (standardizeColumns df) "Status" (by decide) (by decide)
  have hhsp : (parseDates (standardizeColumns df)).1.hasCol "Status" = true := by
    rw [parseDates_hasCol, hdS.2.1]
    exact hhs1
  rcases DF.getCol_of_hasCol hhsp with ⟨stc, hstc⟩
  have hnorm := normalizeStatus_char hstc
  have hsrD := stdRename_untouched df "DurationDays" (by decide) (by decide)
  have hDd1 : (standardizeColumns df).getCol "DurationDays" = none := by
    show (requiredDefaults.foldl (fun d p => injectDefault d p.1 p.2) (stdRename df)).getCol
      "DurationDays" = none
    rw [foldInject_getCol_notin requiredDefaults _ "DurationDays" (by decide), hsrD.1]
    exact DF.getCol_none_of_hasCol_false hnoDur
  have hdD := dateRename_untouched (standardizeColumns df) "DurationDays" (by decide) (by decide)
  have hDp : (parseDates (standardizeColumns df)).1.getCol "DurationDays" = none := by
    rw [parseDates_getCol_nondate _ _ (by decide) (by decide) (by decide) (by decide),
      hdD.1, hDd1]
  have hDd3 : (normalizeStatus (parseDates (standardizeColumns df)).1).getCol "DurationDays"
      = none := by
    rw [hnorm, DF.getCol_setCol_ne _ _ (by decide)]
    exact hDp
  rcases daysLateStep_ok_cases hdl with ⟨dl, hd4⟩
  have hDd4 : d4.getCol "DurationDays" = none := by
    rw [hd4, DF.getCol_setCol_ne _ _ (by decide)]
    exact hDd3
  have hnrp : (parseDates (standardizeColumns df)).1.nrows = df.nrows := by
    rw [parseDates_nrows, standardizeColumns_nrows]
  have hnr4 : d4.nrows = df.nrows := by
    rw [hd4, DF.nrows_setCol, hnorm, DF.nrows_setCol, hnrp]
  have hS4p : d4.getCol "StartDate"
      = (parseDates (standardizeColumns df)).1.getCol "StartDate" := by
    rw [hd4, DF.getCol_setCol_ne _ _ (by decide), hnorm, DF.getCol_setCol_ne _ _ (by decide)]
  have hC4p : d4.getCol "CustomerRequestDate"
      = (parseDates (standardizeColumns df)).1.getCol "CustomerRequestDate" := by
    rw [hd4, DF.getCol_setCol_ne _ _ (by decide), hnorm, DF.getCol_setCol_ne _ _ (by decide)]
  rcases hsb : (d4.hasCol "StartDate" && d4.hasCol "CustomerRequestDate") with _ | _
  · have hout : d4 = out := by
      rw [durationStep_skip d4 hsb] at hdur
      exact Except.ok.inj hdur
    rw [← hout]
    constructor
    · rw [DF.hasCol_false_of_getCol_none hDd4, hsb]
    · intro i hi
      constructor
      · intro t1 a1 t2 a2 h1 h2
        exfalso
        rw [hasCol_of_cellAt h1, hasCol_of_cellAt h2] at hsb
        simp at hsb
      · intro c hc hcn
        exfalso
        rw [cellAt_none_of_getCol_none i hDd4] at hc
        simp at hc
  · have hb := hsb
    rw [Bool.and_eq_true] at hb
    have hb1 : d4.hasCol "StartDate" = true := hb.1
    have hb2 : d4.hasCol "CustomerRequestDate" = true := hb.2
    have hcnts := durationStep_ok_nodup hdur hb1 hb2
    have hcntSeq : d4.colCount "StartDate"
        = ((standardizeColumns df).rename
            (inferRenameDict ((standardizeColumns df).cols.map Prod.fst))).colCount
            "StartDate" := by
      rw [hd4, DF.colCount_setCol_ne _ _ (by decide), hnorm,
        DF.colCount_setCol_ne _ _ (by decide), parseDates_colCount]
    have hcntCeq : d4.colCount "CustomerRequestDate"
        = ((standardizeColumns df).rename
            (inferRenameDict ((standardizeColumns df).cols.map Prod.fst))).colCount
            "CustomerRequestDate" := by
      rw [hd4, DF.colCount_setCol_ne _ _ (by decide), hnorm,
        DF.colCount_setCol_ne _ _ (by decide), parseDates_colCount]
    have hhSp : (parseDates (standardizeColumns df)).1.hasCol "StartDate" = true := by
      rw [DF.hasCol_eq_isSome, ← hS4p, ← DF.hasCol_eq_isSome]
      exact hb1
    have hhCp : (parseDates (standardizeColumns df)).1.hasCol "CustomerRequestDate" = true := by
      rw [DF.hasCol_eq_isSome, ← hC4p, ← DF.hasCol_eq_isSome]
      exact hb2
    have hhSdfr : ((standardizeColumns df).rename
        (inferRenameDict ((standardizeColumns df).cols.map Prod.fst))).hasCol
        "StartDate" = true := by
      rw [← parseDates_hasCol]
      exact hhSp
    have hhCdfr : ((standardizeColumns df).rename
        (inferRenameDict ((standardizeColumns df).cols.map Prod.fst))).hasCol
        "CustomerRequestDate" = true := by
      rw [← parseDates_hasCol]
      exact hhCp
    rcases DF.getCol_of_hasCol hhSdfr with ⟨s0, hs0⟩
    rcases DF.getCol_of_hasCol hhCdfr with ⟨c0, hc0⟩
    have hpS : (parseDates (standardizeColumns df)).1.getCol "StartDate"
        = some (coerceLocalize s0) :=
      parseDates_getCol_date _ _ (by decide) hs0 (by rw [← hcntSeq]; exact hcnts.1)
    have hpC : (parseDates (standardizeColumns df)).1.getCol "CustomerRequestDate"
        = some (coerceLocalize c0) :=
      parseDates_getCol_date _ _ (by decide) hc0 (by rw [← hcntCeq]; exact hcnts.2)
    have hgd4S : d4.getCol "StartDate" = some (coerceLocalize s0) := by
      rw [hS4p]
      exact hpS
    have hgd4C : d4.getCol "CustomerRequestDate" = some (coerceLocalize c0) := by
      rw [hC4p]
      exact hpC
    have hSzdfr : ((standardizeColumns df).rename
        (inferRenameDict ((standardizeColumns df).cols.map Prod.fst))).Sized :=
      DF.Sized_rename _ (standardizeColumns_Sized df hwf.1)
    have hlenS : (coerceLocalize s0).length = df.nrows := by
      rw [coerceLocalize_length]
      have hl := DF.length_getCol hSzdfr hs0
      rw [hl, DF.nrows_rename]
      exact standardizeColumns_nrows df
    have hlenC : (coerceLocalize c0).length = df.nrows := by
      rw [coerceLocalize_length]
      have hl := DF.length_getCol hSzdfr hc0
      rw [hl, DF.nrows_rename]
      exact standardizeColumns_nrows df
    have hchar := durationStep_char_none d4 hgd4S hgd4C hcnts.1 hcnts.2
      (coerceLocalize_shape s0) (coerceLocalize_shape c0) hDd4
    rw [hchar] at hdur
    have hout : d4.setCol "DurationDays"
        ((List.range d4.nrows).map (fun i => durPure ((coerceLocalize s0).getD i Cell.null)
          ((coerceLocalize c0).getD i Cell.null) Cell.null)) = out := Except.ok.inj hdur
    have hcoS : out.getCol "StartDate" = some (coerceLocalize s0) := by
      rw [← hout, DF.getCol_setCol_ne _ _ (by decide)]
      exact hgd4S
    have hcoC : out.getCol "CustomerRequestDate" = some (coerceLocalize c0) := by
      rw [← hout, DF.getCol_setCol_ne _ _ (by decide)]
      exact hgd4C
    have hcoD : out.getCol "DurationDays" = some ((List.range d4.nrows).map
        (fun i => durPure ((coerceLocalize s0).getD i Cell.null)
          ((coerceLocalize c0).getD i Cell.null) Cell.null)) := by
      rw [← hout]
      exact DF.getCol_setCol_self _ _ _
    constructor
    · rw [← hout, DF.hasCol_setCol_self, DF.hasCol_setCol_ne _ (by decide),
        DF.hasCol_setCol_ne _ (by decide), hsb]
    · intro i hi
      have hgetD : ((List.range d4.nrows).map
          (fun i => durPure ((coerceLocalize s0).getD i Cell.null)
            ((coerceLocalize c0).getD i Cell.null) Cell.null)).get? i
          = some (durPure ((coerceLocalize s0).getD i Cell.null)
            ((coerceLocalize c0).getD i Cell.null) Cell.null) := by
        rw [List.get?_map, List.get?_range (by rw [hnr4]; exact hi)]
        rfl
      have hcaD : out.cellAt "DurationDays" i = some (durPure
          ((coerceLocalize s0).getD i Cell.null)
          ((coerceLocalize c0).getD i Cell.null) Cell.null) := by
        rw [cellAt_eq i hcoD, hgetD]
      have hcaS : out.cellAt "StartDate" i = (coerceLocalize s0).get? i := cellAt_eq i hcoS
      have hcaC : out.cellAt "CustomerRequestDate" i = (coerceLocalize c0).get? i :=
        cellAt_eq i hcoC
      constructor
      · intro t1 a1 t2 a2 h1 h2
        rw [hcaS] at h1
        rw [hcaC] at h2
        rw [hcaD, getD_eq_of_get? h1, getD_eq_of_get? h2]
        rfl
      · intro c hc hcn
        rw [hcaD] at hc
        have hceq := Option.some.inj hc
        rcases getD_prop (P := fun x => x = Cell.null ∨ ∃ t a, x = Cell.date t a)
            (Or.inl rfl) (coerceLocalize_shape s0) i with hAn | ⟨t1, a1, hA⟩
        · exfalso
          apply hcn
          rw [← hceq, hAn]
          rfl
        · rcases getD_prop (P := fun x => x = Cell.null ∨ ∃ t a, x = Cell.date t a)
              (Or.inl rfl) (coerceLocalize_shape c0) i with hBn | ⟨t2, a2, hB⟩
          · exfalso
            apply hcn
            rw [← hceq, hA, hBn]
            rfl
          · refine ⟨t1, a1, t2, a2, ?_, ?_, ?_⟩
            · rw [hcaS, get?_eq_some_getD (by rw [hlenS]; exact hi), hA]
            · rw [hcaC, get?_eq_some_getD (by rw [hlenC]; exact hi), hB]
            · rw [← hceq, hA, hB]
              rfl

/-- Witness for C5 at a concrete input with both date columns present:
DurationDays comes out as the floored whole-day difference 9. -/
theorem claim_C5_witness :
    (⟨1, [("StartDate", [Cell.str "2024-01-01"]),
        ("CustomerRequestDate", [Cell.str "2024-01-10"])]⟩ : DF).WF
  ∧ (⟨1, [("StartDate", [Cell.str "2024-01-01"]),
        ("CustomerRequestDate", [Cell.str "2024-01-10"])]⟩ : DF).isEmpty = false
  ∧ (⟨1, [("StartDate", [Cell.str "2024-01-01"]),
        ("CustomerRequestDate", [Cell.str "2024-01-10"])]⟩ : DF).hasCol "DurationDays" = false
  ∧ processDataframe 0 ⟨1, [("StartDate", [Cell.str "2024-01-01"]),
        ("CustomerRequestDate", [Cell.str "2024-01-10"])]⟩
      = Except.ok ((⟨1, [("StartDate", [Cell.date 1704067200 true]),
          ("CustomerRequestDate", [Cell.date 1704844800 true]),
          ("JobID", [Cell.str "0"]),
          ("JobName", [Cell.str ""]),
          ("Branch", [Cell.str "Unassigned"]),
          ("CustomerName", [Cell.str "Unassigned"]),
          ("Priority", [Cell.str "Medium"]),
          ("Status", [Cell.str "Planned"]),
          ("Quantity", [Cell.num 1]),
          ("ShipDate", [Cell.null]),
          ("Notes", [Cell.str ""]),
          ("DaysLate", [Cell.num 0]),
          ("DurationDays", [Cell.num 9])]⟩ : DF),
        ["Failed to parse 1 dates in ShipDate"])
  ∧ ((⟨1, [("StartDate", [Cell.date 1704067200 true]),
          ("CustomerRequestDate", [Cell.date 1704844800 true]),
          ("JobID", [Cell.str "0"]),
          ("JobName", [Cell.str ""]),
          ("Branch", [Cell.str "Unassigned"]),
          ("CustomerName", [Cell.str "Unassigned"]),
          ("Priority", [Cell.str "Medium"]),
          ("Status", [Cell.str "Planned"]),
          ("Quantity", [Cell.num 1]),
          ("ShipDate", [Cell.null]),
          ("Notes", [Cell.str ""]),
          ("DaysLate", [Cell.num 0]),
          ("DurationDays", [Cell.num 9])]⟩ : DF).hasCol "DurationDays"
        = ((⟨1, [("StartDate", [Cell.date 1704067200 true]),
          ("CustomerRequestDate", [Cell.date 1704844800 true]),
          ("JobID", [Cell.str "0"]),
          ("JobName", [Cell.str ""]),
          ("Branch", [Cell.str "Unassigned"]),
          ("CustomerName", [Cell.str "Unassigned"]),
          ("Priority", [Cell.str "Medium"]),
          ("Status", [Cell.str "Planned"]),
          ("Quantity", [Cell.num 1]),
          ("ShipDate", [Cell.null]),
          ("Notes", [Cell.str ""]),
          ("DaysLate", [Cell.num 0]),
          ("DurationDays", [Cell.num 9])]⟩ : DF).hasCol "StartDate"
          && (⟨1, [("StartDate", [Cell.date 1704067200 true]),
          ("CustomerRequestDate", [Cell.date 1704844800 true]),
          ("JobID", [Cell.str "0"]),
          ("JobName", [Cell.str ""]),
          ("Branch", [Cell.str "Unassigned"]),
          ("CustomerName", [Cell.str "Unassigned"]),
          ("Priority", [Cell.str "Medium"]),
          ("Status", [Cell.str "Planned"]),
          ("Quantity", [Cell.num 1]),
          ("ShipDate", [Cell.null]),
          ("Notes", [Cell.str ""]),
          ("DaysLate", [Cell.num 0]),
          ("DurationDays", [Cell.num 9])]⟩ : DF).hasCol "CustomerRequestDate")
      ∧ ∀ i, i < (⟨1, [("StartDate", [Cell.str "2024-01-01"]),
            ("CustomerRequestDate", [Cell.str "2024-01-10"])]⟩ : DF).nrows →
          ((∀ t1 a1 t2 a2, (⟨1, [("StartDate", [Cell.date 1704067200 true]),
              ("CustomerRequestDate", [Cell.date 1704844800 true]),
              ("JobID", [Cell.str "0"]),
              ("JobName", [Cell.str ""]),
              ("Branch", [Cell.str "Unassigned"]),
              ("CustomerName", [Cell.str "Unassigned"]),
              ("Priority", [Cell.str "Medium"]),
              ("Status", [Cell.str "Planned"]),
              ("Quantity", [Cell.num 1]),
              ("ShipDate", [Cell.null]),
              ("Notes", [Cell.str ""]),
              ("DaysLate", [Cell.num 0]),
              ("DurationDays", [Cell.num 9])]⟩ : DF).cellAt "StartDate" i
                = some (Cell.date t1 a1) →
              (⟨1, [("StartDate", [Cell.date 1704067200 true]),
              ("CustomerRequestDate", [Cell.date 1704844800 true]),
              ("JobID", [Cell.str "0"]),
              ("JobName", [Cell.str ""]),
              ("Branch", [Cell.str "Unassigned"]),
              ("CustomerName", [Cell.str "Unassigned"]),
              ("Priority", [Cell.str "Medium"]),
              ("Status", [Cell.str "Planned"]),
              ("Quantity", [Cell.num 1]),
              ("ShipDate", [Cell.null]),
              ("Notes", [Cell.str ""]),
              ("DaysLate", [Cell.num 0]),
              ("DurationDays", [Cell.num 9])]⟩ : DF).cellAt "CustomerRequestDate" i
                = some (Cell.date t2 a2) →
              (⟨1, [("StartDate", [Cell.date 1704067200 true]),
              ("CustomerRequestDate", [Cell.date 1704844800 true]),
              ("JobID", [Cell.str "0"]),
              ("JobName", [Cell.str ""]),
              ("Branch", [Cell.str "Unassigned"]),
              ("CustomerName", [Cell.str "Unassigned"]),
              ("Priority", [Cell.str "Medium"]),
              ("Status", [Cell.str "Planned"]),
              ("Quantity", [Cell.num 1]),
              ("ShipDate", [Cell.null]),
              ("Notes", [Cell.str ""]),
              ("DaysLate", [Cell.num 0]),
              ("DurationDays", [Cell.num 9])]⟩ : DF).cellAt "DurationDays" i
                = some (Cell.num (Int.fdiv (t2 - t1) 86400)))
            ∧ (∀ c, (⟨1, [("StartDate", [Cell.date 1704067200 true]),
              ("CustomerRequestDate", [Cell.date 1704844800 true]),
              ("JobID", [Cell.str "0"]),
              ("JobName", [Cell.str ""]),
              ("Branch", [Cell.str "Unassigned"]),
              ("CustomerName", [Cell.str "Unassigned"]),
              ("Priority", [Cell.str "Medium"]),
              ("Status", [Cell.str "Planned"]),
              ("Quantity", [Cell.num 1]),
              ("ShipDate", [Cell.null]),
              ("Notes", [Cell.str ""]),
              ("DaysLate", [Cell.num 0]),
              ("DurationDays", [Cell.num 9])]⟩ : DF).cellAt "DurationDays" i = some c →
                c ≠ Cell.null →
                ∃ t1 a1 t2 a2, (⟨1, [("StartDate", [Cell.date 1704067200 true]),
                  ("CustomerRequestDate", [Cell.date 1704844800 true]),
                  ("JobID", [Cell.str "0"]),
                  ("JobName", [Cell.str ""]),
                  ("Branch", [Cell.str "Unassigned"]),
                  ("CustomerName", [Cell.str "Unassigned"]),
                  ("Priority", [Cell.str "Medium"]),
                  ("Status", [Cell.str "Planned"]),
                  ("Quantity", [Cell.num 1]),
                  ("ShipDate", [Cell.null]),
                  ("Notes", [Cell.str ""]),
                  ("DaysLate", [Cell.num 0]),
                  ("DurationDays", [Cell.num 9])]⟩ : DF).cellAt "StartDate" i
                    = some (Cell.date t1 a1)
                  ∧ (⟨1, [("StartDate", [Cell.date 1704067200 true]),
                  ("CustomerRequestDate", [Cell.date 1704844800 true]),
                  ("JobID", [Cell.str "0"]),
                  ("JobName", [Cell.str ""]),
                  ("Branch", [Cell.str "Unassigned"]),
                  ("CustomerName", [Cell.str "Unassigned"]),
                  ("Priority", [Cell.str "Medium"]),
                  ("Status", [Cell.str "Planned"]),
                  ("Quantity", [Cell.num 1]),
                  ("ShipDate", [Cell.null]),
                  ("Notes", [Cell.str ""]),
                  ("DaysLate", [Cell.num 0]),
                  ("DurationDays", [Cell.num 9])]⟩ : DF).cellAt "CustomerRequestDate" i
                    = some (Cell.date t2 a2)
                  ∧ c = Cell.num (Int.fdiv (t2 - t1) 86400)))) :=
  ⟨by decide, by decide, by decide, by decide,
    claim_C5_theorem 0
      ⟨1, [("StartDate", [Cell.str "2024-01-01"]),
        ("CustomerRequestDate", [Cell.str "2024-01-10"])]⟩
      ⟨1, [("StartDate", [Cell.date 1704067200 true]),
          ("CustomerRequestDate", [Cell.date 1704844800 true]),
          ("JobID", [Cell.str "0"]),
          ("JobName", [Cell.str ""]),
          ("Branch", [Cell.str "Unassigned"]),
          ("CustomerName", [Cell.str "Unassigned"]),
          ("Priority", [Cell.str "Medium"]),
          ("Status", [Cell.str "Planned"]),
          ("Quantity", [Cell.num 1]),
          ("ShipDate", [Cell.null]),
          ("Notes", [Cell.str ""]),
          ("DaysLate", [Cell.num 0]),
          ("DurationDays", [Cell.num 9])]⟩
      ["Failed to parse 1 dates in ShipDate"]
      (by decide) (by decide) (by decide) (by decide)⟩

theorem get?_replicate {c : Cell} : ∀ {n i : Nat}, i < n →
    (List.replicate n c).get? i = some c
  | 0, _, h => absurd h (by omega)
  | _ + 1, 0, _ => rfl
  | m + 1, j + 1, h => by
    rw [List.replicate_succ]
    exact get?_replicate (by omega)

/-- Claim C4: in every successful full-pipeline run, every row's DueDate is
a datetime or null, and DaysLate is 0 whenever Status is 'Complete', or
DueDate is absent or null, or DueDate is not strictly before the captured
'now'; otherwise DaysLate is the floored whole-day difference now − DueDate
and is non-negative. -/
theorem claim_C4_theorem (now : Int) (df out : DF) (ws : List String)
    (hwf : df.WF) (hne : df.isEmpty = false)
    (hok : processDataframe now df = Except.ok (out, ws)) :
    ∀ i, i < df.nrows →
      ((∀ c, out.cellAt "DueDate" i = some c → c = Cell.null ∨ ∃ t a, c = Cell.date t a)
        ∧ (out.cellAt "Status" i = some (Cell.str "Complete") →
            out.cellAt "DaysLate" i = some (Cell.num 0))
        ∧ ((out.cellAt "DueDate" i = none ∨ out.cellAt "DueDate" i = some Cell.null) →
            out.cellAt "DaysLate" i = some (Cell.num 0))
        ∧ (∀ t a, out.cellAt "DueDate" i = some (Cell.date t a) → ¬ t < now →
            out.cellAt "DaysLate" i = some (Cell.num 0))
        ∧ (∀ t a s, out.cellAt "DueDate" i = some (Cell.date t a) → t < now →
            out.cellAt "Status" i = some s → s ≠ Cell.str "Complete" →
            out.cellAt "DaysLate" i = some (Cell.num (Int.fdiv (now - t) 86400))
              ∧ 0 ≤ Int.fdiv (now - t) 86400)) := by
  have haddok := ((processDataframe_ok_iff hne).mp hok).1
  rcases addCalc_ok_split haddok with ⟨d4, hdl, hdur⟩
  have hhs1 : (standardizeColumns df).hasCol "Status" = true :=
    foldInject_hasCol_mem requiredDefaults (stdRename df) "Status"
      (fun _ => Cell.str "Planned") (by simp [requiredDefaults])
  have hdS := dateRename_untouched (standardizeColumns df) "Status" (by decide) (by decide)
  have hhsp : (parseDates (standardizeColumns df)).1.hasCol "Status" = true := by
    rw [parseDates_hasCol, hdS.2.1]
    exact hhs1
  rcases DF.getCol_of_hasCol hhsp with ⟨stc, hstc⟩
  have hnorm := normalizeStatus_char hstc
  have hst3 : (normalizeStatus (parseDates (standardizeColumns df)).1).getCol "Status"
      = some (stc.map normalizeStatusValue) := by
    rw [hnorm]
    exact DF.getCol_setCol_self _ _ _
  have hhs3 : (normalizeStatus (parseDates (standardizeColumns df)).1).hasCol "Status"
      = true := DF.hasCol_of_getCol hst3
  have hnrp : (parseDates (standardizeColumns df)).1.nrows = df.nrows := by
    rw [parseDates_nrows, standardizeColumns_nrows]
  have hnr3 : (normalizeStatus (parseDates (standardizeColumns df)).1).nrows = df.nrows := by
    rw [hnorm, DF.nrows_setCol, hnrp]
  have hSzp : (parseDates (standardizeColumns df)).1.Sized :=
    parseDates_Sized _ (standardizeColumns_Sized df hwf.1)
  have hlenSt : (stc.map normalizeStatusValue).length = df.nrows := by
    rw [List.length_map, DF.length_getCol hSzp hstc, hnrp]
  rcases hdd : (normalizeStatus (parseDates (standardizeColumns df)).1).hasCol "DueDate"
    with _ | _
  · have hskipc : ((normalizeStatus (parseDates (standardizeColumns df)).1).hasCol "DueDate"
        && (normalizeStatus (parseDates (standardizeColumns df)).1).hasCol "Status")
        = false := by
      rw [hdd]
      rfl
    rw [daysLateStep_skip now _ hskipc] at hdl
    have hd4 := Except.ok.inj hdl
    have hoDue : out.getCol "DueDate" = none := by
      have h4 : d4.getCol "DueDate" = none := by
        rw [← hd4, DF.getCol_setCol_ne _ _ (by decide)]
        exact DF.getCol_none_of_hasCol_false hdd
      rcases durationStep_ok_cases hdur with ⟨dur, ho⟩ | ho
      · rw [ho, DF.getCol_setCol_ne _ _ (by decide)]
        exact h4
      · rw [ho]
        exact h4
    have hoDL : out.getCol "DaysLate" = some (List.replicate
        (normalizeStatus (parseDates (standardizeColumns df)).1).nrows (Cell.num 0)) := by
      have h4 : d4.getCol "DaysLate" = some (List.replicate
          (normalizeStatus (parseDates (standardizeColumns df)).1).nrows (Cell.num 0)) := by
        rw [← hd4]
        exact DF.getCol_setCol_self _ _ _
      rcases durationStep_ok_cases hdur with ⟨dur, ho⟩ | ho
      · rw [ho, DF.getCol_setCol_ne _ _ (by decide)]
        exact h4
      · rw [ho]
        exact h4
    intro i hi
    have hcaDue : out.cellAt "DueDate" i = none := cellAt_none_of_getCol_none i hoDue
    have hcaDL : out.cellAt "DaysLate" i = some (Cell.num 0) := by
      rw [cellAt_eq i hoDL, get?_replicate (by rw [hnr3]; exact hi)]
    refine ⟨?_, ?_, ?_, ?_, ?_⟩
    · intro c hc
      rw [hcaDue] at hc
      simp at hc
    · intro _
      exact hcaDL
    · intro _
      exact hcaDL
    · intro t a hda _
      rw [hcaDue] at hda
      simp at hda
    · intro t a s hda _ _ _
      rw [hcaDue] at hda
      simp at hda
  · have hcnt := daysLateStep_ok_nodup hdl hdd hhs3
    have hd3p : (normalizeStatus (parseDates (standardizeColumns df)).1).getCol "DueDate"
        = (parseDates (standardizeColumns df)).1.getCol "DueDate" := by
      rw [hnorm, DF.getCol_setCol_ne _ _ (by decide)]
    have hhpD : (parseDates (standardizeColumns df)).1.hasCol "DueDate" = true := by
      rw [DF.hasCol_eq_isSome, ← hd3p, ← DF.hasCol_eq_isSome]
      exact hdd
    have hhdfrD : ((standardizeColumns df).rename
        (inferRenameDict ((standardizeColumns df).cols.map Prod.fst))).hasCol
        "DueDate" = true := by
      rw [← parseDates_hasCol]
      exact hhpD
    rcases DF.getCol_of_hasCol hhdfrD with ⟨dd0, hdd0⟩
    have hcntd3p : (normalizeStatus (parseDates (standardizeColumns df)).1).colCount "DueDate"
        = (parseDates (standardizeColumns df)).1.colCount "DueDate" := by
      rw [hnorm, DF.colCount_setCol_ne _ _ (by decide)]
    have hcntdfr : ((standardizeColumns df).rename
        (inferRenameDict ((standardizeColumns df).cols.map Prod.fst))).colCount
        "DueDate" ≤ 1 := by
      rw [← parseDates_colCount, ← hcntd3p]
      exact hcnt.1
    have hpD : (parseDates (standardizeColumns df)).1.getCol "DueDate"
        = some (coerceLocalize dd0) :=
      parseDates_getCol_date _ _ (by decide) hdd0 hcntdfr
    have hd3D : (normalizeStatus (parseDates (standardizeColumns df)).1).getCol "DueDate"
        = some (coerceLocalize dd0) := by
      rw [hd3p]
      exact hpD
    have hlenD : (coerceLocalize dd0).length = df.nrows := by
      rw [coerceLocalize_length]
      have hl := DF.length_getCol (DF.Sized_rename _ (standardizeColumns_Sized df hwf.1)) hdd0
      rw [hl, DF.nrows_rename]
      exact standardizeColumns_nrows df
    have hchar := daysLateStep_char now _ hd3D hst3 hcnt.1 hcnt.2 (coerceLocalize_shape dd0)
    rw [hchar] at hdl
    have hd4 := Except.ok.inj hdl
    have hoDue : out.getCol "DueDate" = some (coerceLocalize dd0) := by
      have h4 : d4.getCol "DueDate" = some (coerceLocalize dd0) := by
        rw [← hd4, DF.getCol_setCol_ne _ _ (by decide)]
        exact hd3D
      rcases durationStep_ok_cases hdur with ⟨dur, ho⟩ | ho
      · rw [ho, DF.getCol_setCol_ne _ _ (by decide)]
        exact h4
      · rw [ho]
        exact h4
    have hoSt : out.getCol "Status" = some (stc.map normalizeStatusValue) := by
      have h4 : d4.getCol "Status" = some (stc.map normalizeStatusValue) := by
        rw [← hd4, DF.getCol_setCol_ne _ _ (by decide)]
        exact hst3
      rcases durationStep_ok_cases hdur with ⟨dur, ho⟩ | ho
      · rw [ho, DF.getCol_setCol_ne _ _ (by decide)]
        exact h4
      · rw [ho]
        exact h4
    have hoDL : out.getCol "DaysLate" = some ((List.range
        (normalizeStatus (parseDates (standardizeColumns df)).1).nrows).map
          (fun i => dlPure now ((coerceLocalize dd0).getD i Cell.null)
            ((stc.map normalizeStatusValue).getD i Cell.null))) := by
      have h4 : d4.getCol "DaysLate" = some ((List.range
          (normalizeStatus (parseDates (standardizeColumns df)).1).nrows).map
            (fun i => dlPure now ((coerceLocalize dd0).getD i Cell.null)
              ((stc.map normalizeStatusValue).getD i Cell.null))) := by
        rw [← hd4]
        exact DF.getCol_setCol_self _ _ _
      rcases durationStep_ok_cases hdur with ⟨dur, ho⟩ | ho
      · rw [ho, DF.getCol_setCol_ne _ _ (by decide)]
        exact h4
      · rw [ho]
        exact h4
    intro i hi
    have hcaDue : out.cellAt "DueDate" i = some ((coerceLocalize dd0).getD i Cell.null) := by
      rw [cellAt_eq i hoDue, get?_eq_some_getD (by rw [hlenD]; exact hi)]
    have hcaSt : out.cellAt "Status" i
        = some ((stc.map normalizeStatusValue).getD i Cell.null) := by
      rw [cellAt_eq i hoSt, get?_eq_some_getD (by rw [hlenSt]; exact hi)]
    have hcaDL : out.cellAt "DaysLate" i = some (dlPure now
        ((coerceLocalize dd0).getD i Cell.null)
        ((stc.map normalizeStatusValue).getD i Cell.null)) := by
      rw [cellAt_eq i hoDL, List.get?_map, List.get?_range (by rw [hnr3]; exact hi)]
      rfl
    refine ⟨?_, ?_, ?_, ?_, ?_⟩
    · intro c hc
      rw [hcaDue] at hc
      have hce := Option.some.inj hc
      have hp := getD_prop (P := fun x => x = Cell.null ∨ ∃ t a, x = Cell.date t a)
        (Or.inl rfl) (coerceLocalize_shape dd0) i
      rw [hce] at hp
      exact hp
    · intro hsc
      rw [hcaSt] at hsc
      have hse := Option.some.inj hsc
      rw [hse] at hcaDL
      rcases getD_prop (P := fun x => x = Cell.null ∨ ∃ t a, x = Cell.date t a)
          (Or.inl rfl) (coerceLocalize_shape dd0) i with hn | ⟨t, a, hA⟩
      · rw [hcaDL, hn]
        rfl
      · rw [hcaDL, hA]
        simp only [dlPure]
        rw [if_neg (fun hcon => hcon.2 rfl)]
    · intro hdn
      rcases hdn with hn | hn
      · rw [hcaDue] at hn
        simp at hn
      · rw [hcaDue] at hn
        have hce := Option.some.inj hn
        rw [hcaDL, hce]
        rfl
    · intro t a hda hnl
      rw [hcaDue] at hda
      have hA := Option.some.inj hda
      rw [hcaDL, hA]
      simp only [dlPure]
      rw [if_neg (fun hcon => hnl hcon.1)]
    · intro t a s hda hlt hss hsne
      rw [hcaDue] at hda
      have hA := Option.some.inj hda
      rw [hcaSt] at hss
      have hS := Option.some.inj hss
      constructor
      · rw [hcaDL, hA, hS]
        simp only [dlPure]
        rw [if_pos ⟨hlt, hsne⟩]
      · exact Int.fdiv_nonneg (by omega) (by norm_num)

/-- Witness for C4 at a concrete one-row input whose DueDate is 9 days
before the captured now and whose Status falls back to Planned. -/
theorem claim_C4_witness :
    dfC4W.WF
  ∧ dfC4W.isEmpty = false
  ∧ processDataframe 1704844800 dfC4W
      = Except.ok (outC4W, ["Failed to parse 1 dates in ShipDate"])
  ∧ ∀ i, i < dfC4W.nrows →
      ((∀ c, outC4W.cellAt "DueDate" i = some c → c = Cell.null ∨ ∃ t a, c = Cell.date t a)
        ∧ (outC4W.cellAt "Status" i = some (Cell.str "Complete") →
            outC4W.cellAt "DaysLate" i = some (Cell.num 0))
        ∧ ((outC4W.cellAt "DueDate" i = none ∨ outC4W.cellAt "DueDate" i = some Cell.null) →
            outC4W.cellAt "DaysLate" i = some (Cell.num 0))
        ∧ (∀ t a, outC4W.cellAt "DueDate" i = some (Cell.date t a) → ¬ t < 1704844800 →
            outC4W.cellAt "DaysLate" i = some (Cell.num 0))
        ∧ (∀ t a s, outC4W.cellAt "DueDate" i = some (Cell.date t a) → t < 1704844800 →
            outC4W.cellAt "Status" i = some s → s ≠ Cell.str "Complete" →
            outC4W.cellAt "DaysLate" i = some (Cell.num (Int.fdiv (1704844800 - t) 86400))
              ∧ 0 ≤ Int.fdiv (1704844800 - t) 86400)) :=
  ⟨by decide, by decide, by decide,
    claim_C4_theorem 1704844800 dfC4W outC4W ["Failed to parse 1 dates in ShipDate"]
      (by decide) (by decide) (by decide)⟩

theorem DF.hasCol_false_of_labels (d : DF) (n : String)
    (h : ∀ c ∈ d.cols, c.1 ≠ n) : d.hasCol n = false := by
  cases hb : d.hasCol n
  · rfl
  · exfalso
    have hb2 : d.cols.any (fun c => c.1 == n) = true := hb
    rcases List.any_eq_true.mp hb2 with ⟨c, hc, he⟩
    exact h c hc (eq_of_beq (by simpa using he))

theorem DF.hasCol_rename_false (d : DF) (m : List (String × String)) (n : String)
    (h : ∀ c ∈ d.cols, ((m.lookup c.1).getD c.1) ≠ n) :
    (d.rename m).hasCol n = false := by
  cases hb : (d.rename m).hasCol n
  · rfl
  · exfalso
    have hb2 : ((d.cols.map (fun c => ((m.lookup c.1).getD c.1, c.2))).any
        (fun c => c.1 == n)) = true := hb
    rcases List.any_eq_true.mp hb2 with ⟨c', hc', he⟩
    rcases List.mem_map.mp hc' with ⟨c, hc, hfc⟩
    apply h c hc
    have he2 : c'.1 = n := eq_of_beq (by simpa using he)
    rw [← hfc] at he2
    exact he2

theorem find?_rename_fixed {m : List (String × String)} {n : String}
    (h1 : (m.lookup n).getD n = n) :
    ∀ (cs : List (String × List Cell)),
      (∀ c ∈ cs, (m.lookup c.1).getD c.1 = n → c.1 = n) →
      ((cs.map (fun c => ((m.lookup c.1).getD c.1, c.2))).find?
          (fun c => c.1 == n)).map Prod.snd
        = (cs.find? (fun c => c.1 == n)).map Prod.snd
  | [], _ => rfl
  | c :: t, h2 => by
    rw [List.map_cons]
    by_cases hc : (((m.lookup c.1).getD c.1) == n) = true
    · have he : (m.lookup c.1).getD c.1 = n := eq_of_beq hc
      have hcn : c.1 = n := h2 c (List.mem_cons_self c t) he
      rw [find?_cons_pos hc, find?_cons_pos (show (c.1 == n) = true by simp [hcn])]
      rfl
    · have hcf : (((m.lookup c.1).getD c.1) == n) = false := beq_false_of_not_true hc
      have hcn : (c.1 == n) = false := by
        cases hb : c.1 == n
        · rfl
        · exfalso
          have hc1 : c.1 = n := eq_of_beq hb
          rw [hc1, h1] at hcf
          simp at hcf
      rw [find?_cons_neg hcf, find?_cons_neg hcn]
      exact find?_rename_fixed h1 t (fun x hx => h2 x (List.mem_cons_of_mem c hx))

theorem DF.getCol_rename_fixed (df : DF) (m : List (String × String)) (n : String)
    (h1 : (m.lookup n).getD n = n)
    (h2 : ∀ c ∈ df.cols, (m.lookup c.1).getD c.1 = n → c.1 = n) :
    (df.rename m).getCol n = df.getCol n :=
  find?_rename_fixed h1 df.cols h2

theorem count_rename_fixed {m : List (String × String)} {n : String}
    (h1 : (m.lookup n).getD n = n) :
    ∀ (cs : List (String × List Cell)),
      (∀ c ∈ cs, (m.lookup c.1).getD c.1 = n → c.1 = n) →
      ((cs.map (fun c => ((m.lookup c.1).getD c.1, c.2))).filter
          (fun c => c.1 == n)).length
        = (cs.filter (fun c => c.1 == n)).length
  | [], _ => rfl
  | c :: t, h2 => by
    rw [List.map_cons]
    by_cases hc : (((m.lookup c.1).getD c.1) == n) = true
    · have he : (m.lookup c.1).getD c.1 = n := eq_of_beq hc
      have hcn : c.1 = n := h2 c (List.mem_cons_self c t) he
      rw [filter_cons_pos hc, filter_cons_pos (show (c.1 == n) = true by simp [hcn])]
      simp only [List.length_cons]
      rw [count_rename_fixed h1 t (fun x hx => h2 x (List.mem_cons_of_mem c hx))]
    · have hcf : (((m.lookup c.1).getD c.1) == n) = false := beq_false_of_not_true hc
      have hcn : (c.1 == n) = false := by
        cases hb : c.1 == n
        · rfl
        · exfalso
          have hc1 : c.1 = n := eq_of_beq hb
          rw [hc1, h1] at hcf
          simp at hcf
      rw [filter_cons_neg hcf, filter_cons_neg hcn]
      exact count_rename_fixed h1 t (fun x hx => h2 x (List.mem_cons_of_mem c hx))

theorem DF.colCount_rename_fixed (df : DF) (m : List (String × String)) (n : String)
    (h1 : (m.lookup n).getD n = n)
    (h2 : ∀ c ∈ df.cols, (m.lookup c.1).getD c.1 = n → c.1 = n) :
    (df.rename m).colCount n = df.colCount n :=
  count_rename_fixed h1 df.cols h2

theorem filterMap_std_nil : ∀ (L : List String), (∀ x ∈ L, stdName x = none) →
    L.filterMap (fun x => (stdName x).map (fun t => (x, t))) = []
  | [], _ => rfl
  | a :: t, h => by
    have ha : ((stdName a).map (fun t0 => (a, t0))) = none := by
      rw [h a (List.mem_cons_self a t)]
      rfl
    rw [List.filterMap_cons, ha]
    exact filterMap_std_nil t (fun x hx => h x (List.mem_cons_of_mem a hx))

theorem map_lookup_nil_id : ∀ (cs : List (String × List Cell)),
    cs.map (fun c => ((([] : List (String × String)).lookup c.1).getD c.1, c.2)) = cs
  | [] => rfl
  | c :: t => by
    rw [List.map_cons, map_lookup_nil_id t]
    rfl

theorem stdRename_id_of_none (df : DF)
    (hs : ∀ c ∈ df.cols, stdName c.1 = none) : stdRename df = df := by
  unfold stdRename
  have hd : stdRenameDict (df.cols.map Prod.fst) = [] := by
    rw [stdRenameDict_eq_filterMap]
    apply filterMap_std_nil
    intro x hx
    rcases List.mem_map.mp hx with ⟨c, hc, he⟩
    rw [← he]
    exact hs c hc
  rw [hd]
  cases df with
  | mk nr cs =>
    show DF.mk nr (cs.map (fun c =>
      ((([] : List (String × String)).lookup c.1).getD c.1, c.2))) = DF.mk nr cs
    rw [map_lookup_nil_id cs]

theorem foldInject_mem_inv : ∀ (L : List (String × (Nat → Cell))) (d : DF)
    (x : String × List Cell),
    x ∈ (L.foldl (fun d p => injectDefault d p.1 p.2) d).cols →
    x ∈ d.cols ∨ x.1 ∈ L.map Prod.fst
  | [], _, _, h => Or.inl h
  | p :: t, d, x, h => by
    rw [List.foldl_cons] at h
    rcases foldInject_mem_inv t _ x h with hm | hm
    · unfold injectDefault at hm
      split at hm
      · exact Or.inl hm
      · rcases List.mem_append.mp hm with h1 | h1
        · exact Or.inl h1
        · have hx1 : x.1 = p.1 := congrArg Prod.fst (List.mem_singleton.mp h1)
          right
          rw [List.map_cons]
          exact List.mem_cons.mpr (Or.inl hx1)
    · right
      rw [List.map_cons]
      exact List.mem_cons_of_mem _ hm

theorem DF.colCount_zero_of_hasCol_false {d : DF} {n : String}
    (h : d.hasCol n = false) : d.colCount n = 0 := by
  have hnil : d.cols.filter (fun c => c.1 == n) = [] := by
    apply List.filter_eq_nil_iff.mpr
    intro c hc
    intro hp
    have : d.cols.any (fun c => c.1 == n) = true :=
      List.any_eq_true.mpr ⟨c, hc, by simpa using hp⟩
    have hh : d.hasCol n = true := this
    rw [h] at hh
    simp at hh
  show (d.cols.filter (fun c => c.1 == n)).length = 0
  rw [hnil]
  rfl

theorem DF.colCount_injectDefault_absent (d : DF) (n : String) (mk : Nat → Cell)
    (h : d.hasCol n = false) : (injectDefault d n mk).colCount n = 1 := by
  unfold injectDefault
  rw [if_neg (by simp [h])]
  have hnil : d.cols.filter (fun c => c.1 == n) = [] :=
    List.length_eq_zero.mp (DF.colCount_zero_of_hasCol_false h)
  show ((d.cols ++ [(n, (List.range d.nrows).map mk)]).filter
      (fun c => c.1 == n)).length = 1
  rw [List.filter_append, hnil]
  simp

theorem foldInject_colCount_notin : ∀ (L : List (String × (Nat → Cell))) (d : DF)
    (n : String), (∀ p ∈ L, (p.1 == n) = false) →
    (L.foldl (fun d p => injectDefault d p.1 p.2) d).colCount n = d.colCount n
  | [], _, _, _ => rfl
  | p :: t, d, n, h => by
    rw [List.foldl_cons,
      foldInject_colCount_notin t _ n (fun q hq => h q (List.mem_cons_of_mem p hq)),
      DF.colCount_injectDefault_ne d p.2 (h p (List.mem_cons_self p t))]

theorem foldInject_colCount_mem : ∀ (L : List (String × (Nat → Cell))) (d : DF)
    (n : String), (L.map Prod.fst).Nodup → n ∈ L.map Prod.fst →
    d.hasCol n = false →
    (L.foldl (fun d p => injectDefault d p.1 p.2) d).colCount n = 1
  | [], _, n, _, h, _ => absurd h (List.not_mem_nil _)
  | p :: t, d, n, hnd, hmem, habs => by
    rw [List.foldl_cons]
    have hnd2 := List.nodup_cons.mp hnd
    rw [List.map_cons] at hmem
    rcases List.mem_cons.mp hmem with he | ht
    · have hp1 : p.1 = n := he.symm
      have hne : ∀ q ∈ t, (q.1 == n) = false := by
        intro q hq
        have hqn : q.1 ≠ n := by
          intro hqe
          apply hnd2.1
          rw [hp1, ← hqe]
          exact List.mem_map_of_mem Prod.fst hq
        simp [hqn]
      rw [foldInject_colCount_notin t _ n hne, hp1,
        DF.colCount_injectDefault_absent d n p.2 habs]
    · have hpn : p.1 ≠ n := by
        intro hpe
        apply hnd2.1
        rw [hpe]
        exact ht
      apply foldInject_colCount_mem t _ n hnd2.2 ht
      rw [DF.hasCol_injectDefault, habs]
      simp [hpn]

theorem coerceLocalize_const_empty (n : Nat) :
    coerceLocalize ((List.range n).map (fun _ => Cell.str ""))
      = (List.range n).map (fun _ => Cell.null) := by
  have h1 : ((List.range n).map (fun _ => Cell.str "")).map toDatetimeCell
      = (List.range n).map (fun _ => Cell.null) := by
    rw [List.map_map]
    apply List.map_congr_left
    intro i _
    rfl
  have h2 : tzLocalizeCol ((List.range n).map (fun _ => Cell.null))
      = Except.ok ((List.range n).map (fun _ => Cell.null)) := by
    unfold tzLocalizeCol
    rw [if_neg]
    · congr 1
      rw [List.map_map]
      apply List.map_congr_left
      intro i _
      rfl
    · intro hc
      rcases List.any_eq_true.mp hc with ⟨c, hcm, hcp⟩
      rcases List.mem_map.mp hcm with ⟨i, _, he⟩
      rw [← he] at hcp
      exact Bool.noConfusion hcp
  unfold coerceLocalize
  rw [h1, h2]

/-- Claim C3 counterexample: a one-column source with no canonical or
alias header produces an output with no DueDate, StartDate,
CustomerRequestDate or DurationDays column at all, so the output does not
carry all the canonical fields of the §3 table. -/
theorem claim_C3_counterexample :
    (processDataframe 0 ⟨1, [("X", [Cell.str "a"])]⟩).toOption.map
        (fun p => (p.1.hasCol "DueDate", p.1.hasCol "StartDate",
          p.1.hasCol "CustomerRequestDate", p.1.hasCol "DurationDays"))
      = some (false, false, false, false)
  ∧ (⟨1, [("X", [Cell.str "a"])]⟩ : DF).WF
  ∧ (⟨1, [("X", [Cell.str "a"])]⟩ : DF).isEmpty = false := by
  decide

/-- Claim C3 (amended): for a non-empty source none of whose headers is
canonical, alias-mapped, or date-role-matched, the pipeline injects exactly
the nine required defaults — JobID as the positional row index rendered as
a string, JobName and Notes as empty strings, Branch and CustomerName as
'Unassigned', Priority as 'Medium', Status as 'Planned', Quantity as 1,
ShipDate as an empty string that date-coercion turns to null — and a
DaysLate column of zeros; StartDate, CustomerRequestDate, DueDate and
DurationDays are NOT injected and stay absent, so the output does not have
all the fields of the §3 table. -/
theorem claim_C3_theorem (now : Int) (df out : DF) (ws : List String)
    (hwf : df.WF) (hne : df.isEmpty = false)
    (hno : ∀ c ∈ df.cols, c.1 ∉ canonicalNames ∧ stdName c.1 = none ∧ dateRole c.1 = none)
    (hok : processDataframe now df = Except.ok (out, ws)) :
    out.getCol "JobID" = some ((List.range df.nrows).map (fun i => Cell.str (toString i)))
    ∧ out.getCol "JobName" = some ((List.range df.nrows).map (fun _ => Cell.str ""))
    ∧ out.getCol "Branch" = some ((List.range df.nrows).map (fun _ => Cell.str "Unassigned"))
    ∧ out.getCol "CustomerName"
        = some ((List.range df.nrows).map (fun _ => Cell.str "Unassigned"))
    ∧ out.getCol "Priority" = some ((List.range df.nrows).map (fun _ => Cell.str "Medium"))
    ∧ out.getCol "Status" = some ((List.range df.nrows).map (fun _ => Cell.str "Planned"))
    ∧ out.getCol "Quantity" = some ((List.range df.nrows).map (fun _ => Cell.num 1))
    ∧ out.getCol "ShipDate" = some ((List.range df.nrows).map (fun _ => Cell.null))
    ∧ out.getCol "Notes" = some ((List.range df.nrows).map (fun _ => Cell.str ""))
    ∧ out.getCol "DaysLate" = some (List.replicate df.nrows (Cell.num 0))
    ∧ out.hasCol "StartDate" = false
    ∧ out.hasCol "CustomerRequestDate" = false
    ∧ out.hasCol "DueDate" = false
    ∧ out.hasCol "DurationDays" = false := by
  have haddok := ((processDataframe_ok_iff hne).mp hok).1
  have hid : stdRename df = df := stdRename_id_of_none df (fun c hc => (hno c hc).2.1)
  have hstd : standardizeColumns df = stdInject df := by
    unfold standardizeColumns
    rw [hid]
  rw [hstd] at haddok
  have hmemS : ∀ c ∈ (stdInject df).cols, c ∈ df.cols ∨ c.1 ∈ requiredDefaults.map Prod.fst :=
    fun c hc => foldInject_mem_inv requiredDefaults df c hc
  have habsn : ∀ n, n ∈ canonicalNames → df.hasCol n = false := by
    intro n hn
    apply DF.hasCol_false_of_labels
    intro c hc hcn
    exact (hno c hc).1 (by rw [hcn]; exact hn)
  have hnodup9 : (requiredDefaults.map Prod.fst).Nodup := by decide
  have hJ : (stdInject df).getCol "JobID"
      = some ((List.range df.nrows).map (fun i => Cell.str (toString i))) :=
    foldInject_getCol_mem requiredDefaults df "JobID" (fun i => Cell.str (toString i))
      hnodup9 (by simp [requiredDefaults]) (habsn _ (by decide))
  have hJN : (stdInject df).getCol "JobName"
      = some ((List.range df.nrows).map (fun _ => Cell.str "")) :=
    foldInject_getCol_mem requiredDefaults df "JobName" (fun _ => Cell.str "")
      hnodup9 (by simp [requiredDefaults]) (habsn _ (by decide))
  have hB : (stdInject df).getCol "Branch"
      = some ((List.range df.nrows).map (fun _ => Cell.str "Unassigned")) :=
    foldInject_getCol_mem requiredDefaults df "Branch" (fun _ => Cell.str "Unassigned")
      hnodup9 (by simp [requiredDefaults]) (habsn _ (by decide))
  have hCN : (stdInject df).getCol "CustomerName"
      = some ((List.range df.nrows).map (fun _ => Cell.str "Unassigned")) :=
    foldInject_getCol_mem requiredDefaults df "CustomerName" (fun _ => Cell.str "Unassigned")
      hnodup9 (by simp [requiredDefaults]) (habsn _ (by decide))
  have hP : (stdInject df).getCol "Priority"
      = some ((List.range df.nrows).map (fun _ => Cell.str "Medium")) :=
    foldInject_getCol_mem requiredDefaults df "Priority" (fun _ => Cell.str "Medium")
      hnodup9 (by simp [requiredDefaults]) (habsn _ (by decide))
  have hS : (stdInject df).getCol "Status"
      = some ((List.range df.nrows).map (fun _ => Cell.str "Planned")) :=
    foldInject_getCol_mem requiredDefaults df "Status" (fun _ => Cell.str "Planned")
      hnodup9 (by simp [requiredDefaults]) (habsn _ (by decide))
  have hQ : (stdInject df).getCol "Quantity"
      = some ((List.range df.nrows).map (fun _ => Cell.num 1)) :=
    foldInject_getCol_mem requiredDefaults df "Quantity" (fun _ => Cell.num 1)
      hnodup9 (by simp [requiredDefaults]) (habsn _ (by decide))
  have hSh : (stdInject df).getCol "ShipDate"
      = some ((List.range df.nrows).map (fun _ => Cell.str "")) :=
    foldInject_getCol_mem requiredDefaults df "ShipDate" (fun _ => Cell.str "")
      hnodup9 (by simp [requiredDefaults]) (habsn _ (by decide))
  have hN : (stdInject df).getCol "Notes"
      = some ((List.range df.nrows).map (fun _ => Cell.str "")) :=
    foldInject_getCol_mem requiredDefaults df "Notes" (fun _ => Cell.str "")
      hnodup9 (by simp [requiredDefaults]) (habsn _ (by decide))
  have h1fix : ((inferRenameDict ((stdInject df).cols.map Prod.fst)).lookup
      "ShipDate").getD "ShipDate" = "ShipDate" := by
    rcases hl : (inferRenameDict ((stdInject df).cols.map Prod.fst)).lookup "ShipDate"
      with _ | r
    · rfl
    · have hr := inferRenameDict_lookup_role hl
      have hds : dateRole "ShipDate" = some "ShipDate" := by decide
      rw [hds] at hr
      have hre : r = "ShipDate" := (Option.some.inj hr).symm
      rw [hre]
      rfl
  have h2ship : ∀ c ∈ (stdInject df).cols,
      ((inferRenameDict ((stdInject df).cols.map Prod.fst)).lookup c.1).getD c.1
        = "ShipDate" → c.1 = "ShipDate" := by
    intro c hc he
    rcases hl : (inferRenameDict ((stdInject df).cols.map Prod.fst)).lookup c.1 with _ | r
    · rw [hl] at he
      exact he
    · have hr := inferRenameDict_lookup_role hl
      rw [hl] at he
      have hre : r = "ShipDate" := he
      rcases hmemS c hc with hcd | hc9
      · rw [(hno c hcd).2.2] at hr
        exact Option.noConfusion hr
      · rw [hre] at hr
        have hfact : ∀ x ∈ requiredDefaults.map Prod.fst,
            dateRole x = some "ShipDate" → x = "ShipDate" := by decide
        exact hfact c.1 hc9 hr
  have hdfrShip : ((stdInject df).rename
      (inferRenameDict ((stdInject df).cols.map Prod.fst))).getCol "ShipDate"
        = (stdInject df).getCol "ShipDate" :=
    DF.getCol_rename_fixed _ _ _ h1fix h2ship
  have hcntdfrShip : ((stdInject df).rename
      (inferRenameDict ((stdInject df).cols.map Prod.fst))).colCount "ShipDate"
        = (stdInject df).colCount "ShipDate" :=
    DF.colCount_rename_fixed _ _ _ h1fix h2ship
  have hcntSship : (stdInject df).colCount "ShipDate" = 1 :=
    foldInject_colCount_mem requiredDefaults df "ShipDate" hnodup9 (by decide)
      (habsn _ (by decide))
  have hpShip : (parseDates (stdInject df)).1.getCol "ShipDate"
      = some (coerceLocalize ((List.range df.nrows).map (fun _ => Cell.str ""))) :=
    parseDates_getCol_date _ _ (by decide) (by rw [hdfrShip]; exact hSh)
      (by rw [hcntdfrShip, hcntSship])
  rw [coerceLocalize_const_empty df.nrows] at hpShip
  have habsX : ∀ X, X ∈ canonicalNames → X ∉ requiredDefaults.map Prod.fst →
      X ≠ "ShipDate" →
      ((stdInject df).rename
        (inferRenameDict ((stdInject df).cols.map Prod.fst))).hasCol X = false := by
    intro X hXc hX9 hXs
    apply DF.hasCol_rename_false
    intro c hc he
    rcases hl : (inferRenameDict ((stdInject df).cols.map Prod.fst)).lookup c.1 with _ | r
    · rw [hl] at he
      have hce : c.1 = X := he
      rcases hmemS c hc with hcd | hc9
      · exact (hno c hcd).1 (by rw [hce]; exact hXc)
      · rw [hce] at hc9
        exact hX9 hc9
    · have hr := inferRenameDict_lookup_role hl
      rw [hl] at he
      have hre : r = X := he
      rcases hmemS c hc with hcd | hc9
      · rw [(hno c hcd).2.2] at hr
        exact Option.noConfusion hr
      · have hfact : ∀ x ∈ requiredDefaults.map Prod.fst, ∀ y, dateRole x = some y →
            y = "ShipDate" := by decide
        have hys := hfact c.1 hc9 r hr
        rw [hre] at hys
        exact hXs hys
  have hpStart : (parseDates (stdInject df)).1.hasCol "StartDate" = false := by
    rw [parseDates_hasCol]
    exact habsX "StartDate" (by decide) (by decide) (by decide)
  have hpCRD : (parseDates (stdInject df)).1.hasCol "CustomerRequestDate" = false := by
    rw [parseDates_hasCol]
    exact habsX "CustomerRequestDate" (by decide) (by decide) (by decide)
  have hpDue : (parseDates (stdInject df)).1.hasCol "DueDate" = false := by
    rw [parseDates_hasCol]
    exact habsX "DueDate" (by decide) (by decide) (by decide)
  have hpDur : (parseDates (stdInject df)).1.hasCol "DurationDays" = false := by
    rw [parseDates_hasCol]
    exact habsX "DurationDays" (by decide) (by decide) (by decide)
  have hpJ : (parseDates (stdInject df)).1.getCol "JobID"
      = some ((List.range df.nrows).map (fun i => Cell.str (toString i))) := by
    rw [parseDates_getCol_nondate _ _ (by decide) (by decide) (by decide) (by decide),
      (dateRename_untouched (stdInject df) "JobID" (by decide) (by decide)).1]
    exact hJ
  have hpJN : (parseDates (stdInject df)).1.getCol "JobName"
      = some ((List.range df.nrows).map (fun _ => Cell.str "")) := by
    rw [parseDates_getCol_nondate _ _ (by decide) (by decide) (by decide) (by decide),
      (dateRename_untouched (stdInject df) "JobName" (by decide) (by decide)).1]
    exact hJN
  have hpB : (parseDates (stdInject df)).1.getCol "Branch"
      = some ((List.range df.nrows).map (fun _ => Cell.str "Unassigned")) := by
    rw [parseDates_getCol_nondate _ _ (by decide) (by decide) (by decide) (by decide),
      (dateRename_untouched (stdInject df) "Branch" (by decide) (by decide)).1]
    exact hB
  have hpCN : (parseDates (stdInject df)).1.getCol "CustomerName"
      = some ((List.range df.nrows).map (fun _ => Cell.str "Unassigned")) := by
    rw [parseDates_getCol_nondate _ _ (by decide) (by decide) (by decide) (by decide),
      (dateRename_untouched (stdInject df) "CustomerName" (by decide) (by decide)).1]
    exact hCN
  have hpP : (parseDates (stdInject df)).1.getCol "Priority"
      = some ((List.range df.nrows).map (fun _ => Cell.str "Medium")) := by
    rw [parseDates_getCol_nondate _ _ (by decide) (by decide) (by decide) (by decide),
      (dateRename_untouched (stdInject df) "Priority" (by decide) (by decide)).1]
    exact hP
  have hpS : (parseDates (stdInject df)).1.getCol "Status"
      = some ((List.range df.nrows).map (fun _ => Cell.str "Planned")) := by
    rw [parseDates_getCol_nondate _ _ (by decide) (by decide) (by decide) (by decide),
      (dateRename_untouched (stdInject df) "Status" (by decide) (by decide)).1]
    exact hS
  have hpQ : (parseDates (stdInject df)).1.getCol "Quantity"
      = some ((List.range df.nrows).map (fun _ => Cell.num 1)) := by
    rw [parseDates_getCol_nondate _ _ (by decide) (by decide) (by decide) (by decide),
      (dateRename_untouched (stdInject df) "Quantity" (by decide) (by decide)).1]
    exact hQ
  have hpN : (parseDates (stdInject df)).1.getCol "Notes"
      = some ((List.range df.nrows).map (fun _ => Cell.str "")) := by
    rw [parseDates_getCol_nondate _ _ (by decide) (by decide) (by decide) (by decide),
      (dateRename_untouched (stdInject df) "Notes" (by decide) (by decide)).1]
    exact hN
  have hplanned : ((List.range df.nrows).map (fun _ => Cell.str "Planned")).map
      normalizeStatusValue = (List.range df.nrows).map (fun _ => Cell.str "Planned") := by
    rw [List.map_map]
    apply List.map_congr_left
    intro i _
    rfl
  have hnorm := normalizeStatus_char hpS
  rcases addCalc_ok_split haddok with ⟨d4, hdl, hdur⟩
  rw [hnorm] at hdl
  have hdd3 : ((parseDates (stdInject df)).1.setCol "Status"
      (((List.range df.nrows).map (fun _ => Cell.str "Planned")).map
        normalizeStatusValue)).hasCol "DueDate" = false := by
    rw [DF.hasCol_setCol_ne _ (by decide)]
    exact hpDue
  rw [daysLateStep_skip now _ (by rw [hdd3]; rfl)] at hdl
  have hd4 := Except.ok.inj hdl
  have hS4 : d4.hasCol "StartDate" = false := by
    rw [← hd4, DF.hasCol_setCol_ne _ (by decide), DF.hasCol_setCol_ne _ (by decide)]
    exact hpStart
  rw [durationStep_skip d4 (by rw [hS4]; rfl)] at hdur
  have hout := Except.ok.inj hdur
  have hnrpS : ((parseDates (stdInject df)).1.setCol "Status"
      (((List.range df.nrows).map (fun _ => Cell.str "Planned")).map
        normalizeStatusValue)).nrows = df.nrows := by
    rw [DF.nrows_setCol, parseDates_nrows]
    show (requiredDefaults.foldl (fun d p => injectDefault d p.1 p.2) df).nrows = df.nrows
    rw [foldInject_nrows]
  refine ⟨?_, ?_, ?_, ?_, ?_, ?_, ?_, ?_, ?_, ?_, ?_, ?_, ?_, ?_⟩
  · rw [← hout, ← hd4, DF.getCol_setCol_ne _ _ (by decide),
      DF.getCol_setCol_ne _ _ (by decide)]
    exact hpJ
  · rw [← hout, ← hd4, DF.getCol_setCol_ne _ _ (by decide),
      DF.getCol_setCol_ne _ _ (by decide)]
    exact hpJN
  · rw [← hout, ← hd4, DF.getCol_setCol_ne _ _ (by decide),
      DF.getCol_setCol_ne _ _ (by decide)]
    exact hpB
  · rw [← hout, ← hd4, DF.getCol_setCol_ne _ _ (by decide),
      DF.getCol_setCol_ne _ _ (by decide)]
    exact hpCN
  · rw [← hout, ← hd4, DF.getCol_setCol_ne _ _ (by decide),
      DF.getCol_setCol_ne _ _ (by decide)]
    exact hpP
  · rw [← hout, ← hd4, DF.getCol_setCol_ne _ _ (by decide), DF.getCol_setCol_self,
      hplanned]
  · rw [← hout, ← hd4, DF.getCol_setCol_ne _ _ (by decide),
      DF.getCol_setCol_ne _ _ (by decide)]
    exact hpQ
  · rw [← hout, ← hd4, DF.getCol_setCol_ne _ _ (by decide),
      DF.getCol_setCol_ne _ _ (by decide)]
    exact hpShip
  · rw [← hout, ← hd4, DF.getCol_setCol_ne _ _ (by decide),
      DF.getCol_setCol_ne _ _ (by decide)]
    exact hpN
  · rw [← hout, ← hd4, DF.getCol_setCol_self, hnrpS]
  · rw [← hout, ← hd4, DF.hasCol_setCol_ne _ (by decide), DF.hasCol_setCol_ne _ (by decide)]
    exact hpStart
  · rw [← hout, ← hd4, DF.hasCol_setCol_ne _ (by decide), DF.hasCol_setCol_ne _ (by decide)]
    exact hpCRD
  · rw [← hout, ← hd4, DF.hasCol_setCol_ne _ (by decide), DF.hasCol_setCol_ne _ (by decide)]
    exact hpDue
  · rw [← hout, ← hd4, DF.hasCol_setCol_ne _ (by decide), DF.hasCol_setCol_ne _ (by decide)]
    exact hpDur

/-- Witness for C3 at a concrete two-row input with one unrecognized
header: all nine defaults are injected, JobID positionally, and the four
non-injected fields stay absent. -/
theorem claim_C3_witness :
    dfC3W.WF
  ∧ dfC3W.isEmpty = false
  ∧ (∀ c ∈ dfC3W.cols, c.1 ∉ canonicalNames ∧ stdName c.1 = none ∧ dateRole c.1 = none)
  ∧ processDataframe 5 dfC3W = Except.ok (outC3W, ["Failed to parse 2 dates in ShipDate"])
  ∧ (outC3W.getCol "JobID"
        = some ((List.range dfC3W.nrows).map (fun i => Cell.str (toString i)))
      ∧ outC3W.getCol "JobName"
        = some ((List.range dfC3W.nrows).map (fun _ => Cell.str ""))
      ∧ outC3W.getCol "Branch"
        = some ((List.range dfC3W.nrows).map (fun _ => Cell.str "Unassigned"))
      ∧ outC3W.getCol "CustomerName"
        = some ((List.range dfC3W.nrows).map (fun _ => Cell.str "Unassigned"))
      ∧ outC3W.getCol "Priority"
        = some ((List.range dfC3W.nrows).map (fun _ => Cell.str "Medium"))
      ∧ outC3W.getCol "Status"
        = some ((List.range dfC3W.nrows).map (fun _ => Cell.str "Planned"))
      ∧ outC3W.getCol "Quantity"
        = some ((List.range dfC3W.nrows).map (fun _ => Cell.num 1))
      ∧ outC3W.getCol "ShipDate"
        = some ((List.range dfC3W.nrows).map (fun _ => Cell.null))
      ∧ outC3W.getCol "Notes"
        = some ((List.range dfC3W.nrows).map (fun _ => Cell.str ""))
      ∧ outC3W.getCol "DaysLate" = some (List.replicate dfC3W.nrows (Cell.num 0))
      ∧ outC3W.hasCol "StartDate" = false
      ∧ outC3W.hasCol "CustomerRequestDate" = false
      ∧ outC3W.hasCol "DueDate" = false
      ∧ outC3W.hasCol "DurationDays" = false) :=
  ⟨by decide, by decide, by decide, by decide,
    claim_C3_theorem 5 dfC3W outC3W ["Failed to parse 2 dates in ShipDate"]
      (by decide) (by decide) (by decide) (by decide)⟩

theorem toDatetimeCell_noaware {x : Cell} (hx : ∀ t, x ≠ Cell.date t true) :
    ∀ t, toDatetimeCell x ≠ Cell.date t true := by
  intro t ht
  cases x with
  | str s =>
    rcases hp : parseDateStr s with _ | u
    · have ht2 : toDatetimeCell (Cell.str s) = Cell.null := by
        show (match parseDateStr s with
          | some t => Cell.date t false
          | none => Cell.null) = Cell.null
        rw [hp]
      rw [ht2] at ht
      exact Cell.noConfusion ht
    · have ht2 : toDatetimeCell (Cell.str s) = Cell.date u false := by
        show (match parseDateStr s with
          | some t => Cell.date t false
          | none => Cell.null) = Cell.date u false
        rw [hp]
      rw [ht2] at ht
      exact Bool.noConfusion (Cell.date.inj ht).2
  | num n => exact Bool.noConfusion (Cell.date.inj ht).2
  | null => exact Cell.noConfusion ht
  | date u a =>
    have he := Cell.date.inj ht
    exact hx t (by rw [he.1, he.2])

theorem tzLocalizeCol_ok_of_noaware {cells : List Cell}
    (h : ∀ c ∈ cells, ∀ t, c ≠ Cell.date t true) :
    tzLocalizeCol (cells.map toDatetimeCell)
      = Except.ok ((cells.map toDatetimeCell).map
          (fun c => match c with | Cell.date t false => Cell.date t true | c0 => c0)) := by
  have hcond : ¬ ((cells.map toDatetimeCell).any
      (fun c => match c with | Cell.date _ true => true | _ => false) = true) := by
    intro hc
    rcases List.any_eq_true.mp hc with ⟨c', hc', hp⟩
    rcases List.mem_map.mp hc' with ⟨x, hx, he⟩
    cases c' with
    | str s => exact Bool.noConfusion hp
    | num n => exact Bool.noConfusion hp
    | null => exact Bool.noConfusion hp
    | date u a =>
      cases a with
      | false => exact Bool.noConfusion hp
      | true => exact toDatetimeCell_noaware (h x hx) u he
  unfold tzLocalizeCol
  rw [if_neg hcond]

theorem parseOneDateCol_warn (d : DF) (n : String)
    (hcnt : d.colCount n ≤ 1)
    (hnaw : ∀ cells, d.getCol n = some cells → ∀ c ∈ cells, ∀ t, c ≠ Cell.date t true) :
    (parseOneDateCol d n).2 = (parseWarn d n).toList := by
  rcases hh : d.hasCol n with _ | _
  · rw [parseOneDateCol_absent hh]
    unfold parseWarn
    rw [DF.getCol_none_of_hasCol_false hh]
    rfl
  · rcases DF.getCol_of_hasCol hh with ⟨cells, hg⟩
    have hpw : parseWarn d n = (if 0 <
        ((cells.map toDatetimeCell).filter (fun c => c == Cell.null)).length then
        some ("Failed to parse "
          ++ toString ((cells.map toDatetimeCell).filter (fun c => c == Cell.null)).length
          ++ " dates in " ++ n)
      else none) := by
      unfold parseWarn
      rw [hg]
    rw [parseOneDateCol_char n hg hcnt, tzLocalizeCol_ok_of_noaware (hnaw cells hg), hpw]
    by_cases hk : 0 < ((cells.map toDatetimeCell).filter (fun c => c == Cell.null)).length
    · rw [if_pos hk, if_pos hk]
      rfl
    · rw [if_neg hk, if_neg hk]
      rfl

theorem parseWarn_congr {d d' : DF} {n : String} (h : d.getCol n = d'.getCol n) :
    parseWarn d n = parseWarn d' n := by
  unfold parseWarn
  rw [h]

theorem noaware_of_all {d : DF} {n : String} {cells : List Cell}
    (h : ((d.getCol n).getD []).all
      (fun c => match c with | Cell.date _ true => false | _ => true) = true)
    (hg : d.getCol n = some cells) :
    ∀ c ∈ cells, ∀ t, c ≠ Cell.date t true := by
  rw [hg] at h
  intro c hc t hce
  have hcp := List.all_eq_true.mp h c hc
  rw [hce] at hcp
  exact Bool.noConfusion hcp

theorem filterMap_cons_toList {α β : Type} (f : α → Option β) (a : α) (l : List α) :
    List.filterMap f (a :: l) = (f a).toList ++ List.filterMap f l := by
  rw [List.filterMap_cons]
  rcases h : f a with _ | b
  · rfl
  · rfl

/-- Claim C7 counterexample: a DueDate column holding a single pre-existing
null yields the warning 'Failed to parse 1 dates in DueDate' even though no
value of the column became null during parsing, because the count is taken
on the column after coercion and includes pre-existing nulls; the injected
ShipDate default likewise warns. -/
theorem claim_C7_counterexample :
    (processDataframe 0 ⟨1, [("DueDate", [Cell.null])]⟩).toOption.map (fun p => p.2)
      = some ["Failed to parse 1 dates in ShipDate", "Failed to parse 1 dates in DueDate"]
  ∧ becameNullCount [Cell.null] = 0
  ∧ (⟨1, [("DueDate", [Cell.null])]⟩ : DF).WF := by
  decide

/-- Claim C7 (amended): for each recognized date column, parse_dates emits
'Failed to parse \x7bcount\x7d dates in \x7bfield\x7d' iff the column holds count > 0
nulls AFTER coercion — counting pre-existing nulls as well as values that
became null — provided no column label is duplicated and no cell is already
timezone-aware; the warning list is exactly the in-order concatenation of
these per-column warnings.  The spec's concrete scenario (one unparseable
DueDate among four valid date columns) does produce exactly the single
warning 'Failed to parse 1 dates in DueDate'. -/
theorem claim_C7_theorem (df : DF)
    (hcnt : ∀ n ∈ dateColNames,
      (df.rename (inferRenameDict (df.cols.map Prod.fst))).colCount n ≤ 1)
    (hnaw : ∀ n ∈ dateColNames,
      (((df.rename (inferRenameDict (df.cols.map Prod.fst))).getCol n).getD []).all
        (fun c => match c with | Cell.date _ true => false | _ => true) = true) :
    (parseDates df).2 = dateColNames.filterMap
      (fun n => parseWarn (df.rename (inferRenameDict (df.cols.map Prod.fst))) n)
    ∧ (processDataframe 0 ⟨2,
        [("StartDate", [Cell.str "2024-01-01", Cell.str "2024-01-02"]),
         ("CustomerRequestDate", [Cell.str "2024-01-05", Cell.str "2024-01-06"]),
         ("ShipDate", [Cell.str "2024-01-07", Cell.str "2024-01-08"]),
         ("DueDate", [Cell.str "2024-01-03", Cell.str "N/A"])]⟩).toOption.map (fun p => p.2)
      = some ["Failed to parse 1 dates in DueDate"] := by
  constructor
  · have h1w : (parseOneDateCol (df.rename (inferRenameDict (df.cols.map Prod.fst)))
        "StartDate").2
        = (parseWarn (df.rename (inferRenameDict (df.cols.map Prod.fst)))
            "StartDate").toList :=
      parseOneDateCol_warn _ "StartDate" (hcnt "StartDate" (by decide))
        (fun cells hg => noaware_of_all (hnaw "StartDate" (by decide)) hg)
    have hg2 : (parseOneDateCol (df.rename (inferRenameDict (df.cols.map Prod.fst)))
        "StartDate").1.getCol "CustomerRequestDate"
        = (df.rename (inferRenameDict (df.cols.map Prod.fst))).getCol
            "CustomerRequestDate" :=
      parseOneDateCol_getCol_ne (by decide)
    have hc2 : (parseOneDateCol (df.rename (inferRenameDict (df.cols.map Prod.fst)))
        "StartDate").1.colCount "CustomerRequestDate"
        = (df.rename (inferRenameDict (df.cols.map Prod.fst))).colCount
            "CustomerRequestDate" :=
      parseOneDateCol_colCount _ _ _
    have h2w : (parseOneDateCol (parseOneDateCol
        (df.rename (inferRenameDict (df.cols.map Prod.fst)))
        "StartDate").1 "CustomerRequestDate").2
        = (parseWarn (df.rename (inferRenameDict (df.cols.map Prod.fst)))
            "CustomerRequestDate").toList := by
      rw [parseOneDateCol_warn _ "CustomerRequestDate" (by rw [hc2]; exact hcnt "CustomerRequestDate" (by decide))
          (fun cells hg => noaware_of_all (hnaw "CustomerRequestDate" (by decide)) (by rw [← hg2]; exact hg)),
        parseWarn_congr hg2]
    have hg3 : (parseOneDateCol (parseOneDateCol
        (df.rename (inferRenameDict (df.cols.map Prod.fst)))
        "StartDate").1 "CustomerRequestDate").1.getCol "ShipDate"
        = (df.rename (inferRenameDict (df.cols.map Prod.fst))).getCol "ShipDate" := by
      rw [parseOneDateCol_getCol_ne (by decide), parseOneDateCol_getCol_ne (by decide)]
    have hc3 : (parseOneDateCol (parseOneDateCol
        (df.rename (inferRenameDict (df.cols.map Prod.fst)))
        "StartDate").1 "CustomerRequestDate").1.colCount "ShipDate"
        = (df.rename (inferRenameDict (df.cols.map Prod.fst))).colCount "ShipDate" := by
      rw [parseOneDateCol_colCount, parseOneDateCol_colCount]
    have h3w : (parseOneDateCol (parseOneDateCol (parseOneDateCol
        (df.rename (inferRenameDict (df.cols.map Prod.fst)))
        "StartDate").1 "CustomerRequestDate").1 "ShipDate").2
        = (parseWarn (df.rename (inferRenameDict (df.cols.map Prod.fst)))
            "ShipDate").toList := by
      rw [parseOneDateCol_warn _ "ShipDate" (by rw [hc3]; exact hcnt "ShipDate" (by decide))
          (fun cells hg => noaware_of_all (hnaw "ShipDate" (by decide)) (by rw [← hg3]; exact hg)),
        parseWarn_congr hg3]
    have hg4 : (parseOneDateCol (parseOneDateCol (parseOneDateCol
        (df.rename (inferRenameDict (df.cols.map Prod.fst)))
        "StartDate").1 "CustomerRequestDate").1 "ShipDate").1.getCol "DueDate"
        = (df.rename (inferRenameDict (df.cols.map Prod.fst))).getCol "DueDate" := by
      rw [parseOneDateCol_getCol_ne (by decide), parseOneDateCol_getCol_ne (by decide),
        parseOneDateCol_getCol_ne (by decide)]
    have hc4 : (parseOneDateCol (parseOneDateCol (parseOneDateCol
        (df.rename (inferRenameDict (df.cols.map Prod.fst)))
        "StartDate").1 "CustomerRequestDate").1 "ShipDate").1.colCount "DueDate"
        = (df.rename (inferRenameDict (df.cols.map Prod.fst))).colCount "DueDate" := by
      rw [parseOneDateCol_colCount, parseOneDateCol_colCount, parseOneDateCol_colCount]
    have h4w : (parseOneDateCol (parseOneDateCol (parseOneDateCol (parseOneDateCol
        (df.rename (inferRenameDict (df.cols.map Prod.fst)))
        "StartDate").1 "CustomerRequestDate").1 "ShipDate").1 "DueDate").2
        = (parseWarn (df.rename (inferRenameDict (df.cols.map Prod.fst)))
            "DueDate").toList := by
      rw [parseOneDateCol_warn _ "DueDate" (by rw [hc4]; exact hcnt "DueDate" (by decide))
          (fun cells hg => noaware_of_all (hnaw "DueDate" (by decide)) (by rw [← hg4]; exact hg)),
        parseWarn_congr hg4]
    rw [parseDates_eq]
    show ((([] ++ (parseOneDateCol
        (df.rename (inferRenameDict (df.cols.map Prod.fst))) "StartDate").2)
      ++ (parseOneDateCol (parseOneDateCol
        (df.rename (inferRenameDict (df.cols.map Prod.fst)))
        "StartDate").1 "CustomerRequestDate").2
      ++ (parseOneDateCol (parseOneDateCol (parseOneDateCol
        (df.rename (inferRenameDict (df.cols.map Prod.fst)))
        "StartDate").1 "CustomerRequestDate").1 "ShipDate").2)
      ++ (parseOneDateCol (parseOneDateCol (parseOneDateCol (parseOneDateCol
        (df.rename (inferRenameDict (df.cols.map Prod.fst)))
        "StartDate").1 "CustomerRequestDate").1 "ShipDate").1 "DueDate").2) = _
    rw [h1w, h2w, h3w, h4w]
    show _ = List.filterMap _ ("StartDate" :: "CustomerRequestDate" :: "ShipDate"
      :: "DueDate" :: [])
    rw [filterMap_cons_toList, filterMap_cons_toList, filterMap_cons_toList,
      filterMap_cons_toList]
    simp [List.append_assoc]
  · decide

/-- Witness for C7 at a concrete input whose DueDate column has one
unparseable string and one pre-existing null: the emitted count is 2, the
number of nulls after coercion. -/
theorem claim_C7_witness :
    (∀ n ∈ dateColNames,
      ((⟨2, [("DueDate", [Cell.str "N/A", Cell.null])]⟩ : DF).rename
        (inferRenameDict ((⟨2, [("DueDate", [Cell.str "N/A", Cell.null])]⟩ : DF).cols.map
          Prod.fst))).colCount n ≤ 1)
  ∧ (∀ n ∈ dateColNames,
      ((((⟨2, [("DueDate", [Cell.str "N/A", Cell.null])]⟩ : DF).rename
        (inferRenameDict ((⟨2, [("DueDate", [Cell.str "N/A", Cell.null])]⟩ : DF).cols.map
          Prod.fst))).getCol n).getD []).all
        (fun c => match c with | Cell.date _ true => false | _ => true) = true)
  ∧ ((parseDates ⟨2, [("DueDate", [Cell.str "N/A", Cell.null])]⟩).2
      = dateColNames.filterMap
          (fun n => parseWarn ((⟨2, [("DueDate", [Cell.str "N/A", Cell.null])]⟩ : DF).rename
            (inferRenameDict ((⟨2, [("DueDate",
              [Cell.str "N/A", Cell.null])]⟩ : DF).cols.map Prod.fst))) n)
      ∧ (processDataframe 0 ⟨2,
          [("StartDate", [Cell.str "2024-01-01", Cell.str "2024-01-02"]),
           ("CustomerRequestDate", [Cell.str "2024-01-05", Cell.str "2024-01-06"]),
           ("ShipDate", [Cell.str "2024-01-07", Cell.str "2024-01-08"]),
           ("DueDate", [Cell.str "2024-01-03", Cell.str "N/A"])]⟩).toOption.map
            (fun p => p.2)
        = some ["Failed to parse 1 dates in DueDate"])
  ∧ (parseDates ⟨2, [("DueDate", [Cell.str "N/A", Cell.null])]⟩).2
      = ["Failed to parse 2 dates in DueDate"] :=
  ⟨by decide, by decide,
    claim_C7_theorem ⟨2, [("DueDate", [Cell.str "N/A", Cell.null])]⟩ (by decide) (by decide),
    by decide⟩

theorem map_id_of_fixed {α : Type} (f : α → α) : ∀ (l : List α),
    (∀ c ∈ l, f c = c) → l.map f = l
  | [], _ => rfl
  | c :: t, h => by
    rw [List.map_cons, h c (List.mem_cons_self c t),
      map_id_of_fixed f t (fun x hx => h x (List.mem_cons_of_mem c hx))]

theorem rename_id_of_fixed (d : DF) (m : List (String × String))
    (h : ∀ c ∈ d.cols, (m.lookup c.1).getD c.1 = c.1) : d.rename m = d := by
  cases d with
  | mk nr cs =>
    show DF.mk nr (cs.map (fun c => ((m.lookup c.1).getD c.1, c.2))) = DF.mk nr cs
    congr 1
    apply map_id_of_fixed
    intro c hc
    rw [h c hc]

theorem foldInject_id_of_present : ∀ (L : List (String × (Nat → Cell))) (d : DF),
    (∀ p ∈ L, d.hasCol p.1 = true) →
    L.foldl (fun d p => injectDefault d p.1 p.2) d = d
  | [], _, _ => rfl
  | p :: t, d, h => by
    rw [List.foldl_cons, injectDefault_present d p.1 p.2 (h p (List.mem_cons_self p t))]
    exact foldInject_id_of_present t d (fun q hq => h q (List.mem_cons_of_mem p hq))

theorem DF.hasCol_of_label_mem {d : DF} {n : String} (h : n ∈ d.cols.map Prod.fst) :
    d.hasCol n = true := by
  rcases List.mem_map.mp h with ⟨c, hc, he⟩
  show d.cols.any (fun c => c.1 == n) = true
  exact List.any_eq_true.mpr ⟨c, hc, by simp [he]⟩

theorem parseOneDateCol_keep {d : DF} {n : String} {cells : List Cell}
    (hg : d.getCol n = some cells) (hc : d.colCount n ≤ 1)
    (hsh : ∀ c ∈ cells, c = Cell.null ∨ ∃ t, c = Cell.date t true) :
    (parseOneDateCol d n).1 = d.setCol n cells := by
  have hparsed : cells.map toDatetimeCell = cells := by
    apply map_id_of_fixed
    intro c hcm
    rcases hsh c hcm with h | ⟨t, h⟩
    · subst h
      rfl
    · subst h
      rfl
  have hcoe : coerceLocalize cells = cells := by
    unfold coerceLocalize
    rw [hparsed]
    rcases htz : tzLocalizeCol cells with e | loc
    · rfl
    · show loc = cells
      rw [tzLocalizeCol_ok_eq htz]
      apply map_id_of_fixed
      intro c hcm
      rcases hsh c hcm with h | ⟨t, h⟩
      · subst h
        rfl
      · subst h
        rfl
  rw [parseOneDateCol_char n hg hc]
  show d.setCol n (coerceLocalize cells) = d.setCol n cells
  rw [hcoe]

/-- Claim C9 counterexample: an already-canonical one-row table with
DurationDays 999 but a 9-day gap between StartDate and CustomerRequestDate
comes out of the pipeline with DurationDays recomputed to 9 — an existing
non-DaysLate field value changed. -/
theorem claim_C9_counterexample :
    (processDataframe 0 ⟨1, [("JobID", [Cell.str "1"]), ("JobName", [Cell.str "j"]),
        ("Branch", [Cell.str "b"]), ("CustomerName", [Cell.str "c"]),
        ("Priority", [Cell.str "High"]), ("Status", [Cell.str "Planned"]),
        ("Quantity", [Cell.num 2]), ("StartDate", [Cell.date 0 true]),
        ("CustomerRequestDate", [Cell.date 777600 true]), ("ShipDate", [Cell.null]),
        ("DueDate", [Cell.null]), ("Notes", [Cell.str ""]), ("DaysLate", [Cell.num 0]),
        ("DurationDays", [Cell.num 999])]⟩).toOption.map
      (fun p => p.1.getCol "DurationDays") = some (some [Cell.num 9])
  ∧ Cell.num 9 ≠ Cell.num 999
  ∧ (⟨1, [("JobID", [Cell.str "1"]), ("JobName", [Cell.str "j"]),
        ("Branch", [Cell.str "b"]), ("CustomerName", [Cell.str "c"]),
        ("Priority", [Cell.str "High"]), ("Status", [Cell.str "Planned"]),
        ("Quantity", [Cell.num 2]), ("StartDate", [Cell.date 0 true]),
        ("CustomerRequestDate", [Cell.date 777600 true]), ("ShipDate", [Cell.null]),
        ("DueDate", [Cell.null]), ("Notes", [Cell.str ""]), ("DaysLate", [Cell.num 0]),
        ("DurationDays", [Cell.num 999])]⟩ : DF).cols.map Prod.fst = canonicalNames
  ∧ (⟨1, [("JobID", [Cell.str "1"]), ("JobName", [Cell.str "j"]),
        ("Branch", [Cell.str "b"]), ("CustomerName", [Cell.str "c"]),
        ("Priority", [Cell.str "High"]), ("Status", [Cell.str "Planned"]),
        ("Quantity", [Cell.num 2]), ("StartDate", [Cell.date 0 true]),
        ("CustomerRequestDate", [Cell.date 777600 true]), ("ShipDate", [Cell.null]),
        ("DueDate", [Cell.null]), ("Notes", [Cell.str ""]), ("DaysLate", [Cell.num 0]),
        ("DurationDays", [Cell.num 999])]⟩ : DF).WF := by
  decide

/-- Claim C9 (amended): on an already-canonical non-empty table — canonical
field names in order, Status values in the 4-value enum, date cells
timezone-aware or null — the pipeline preserves all field names (and their
order) and all field values EXCEPT the two derived columns: DaysLate is
recomputed against the run's now, and DurationDays is also recomputed on
every row where both StartDate and CustomerRequestDate are set, so a stale
stored DurationDays does not survive; the spec's 'except possibly
recomputing DaysLate' clause must also cover DurationDays. -/
theorem claim_C9_theorem (now : Int) (df out : DF) (ws : List String)
    (hne : df.isEmpty = false)
    (hnames : df.cols.map Prod.fst = canonicalNames)
    (hst : ∀ c ∈ (df.getCol "Status").getD [], c ∈ statusEnum)
    (hdc : ∀ n ∈ dateColNames, ((df.getCol n).getD []).all
      (fun c => match c with
        | Cell.null => true
        | Cell.date _ true => true
        | _ => false) = true)
    (hok : processDataframe now df = Except.ok (out, ws)) :
    out.cols.map Prod.fst = canonicalNames
    ∧ (∀ n ∈ canonicalNames, n ≠ "DaysLate" → n ≠ "DurationDays" →
        out.getCol n = df.getCol n)
    ∧ (∀ i, i < df.nrows → ∀ t1 t2,
        df.cellAt "StartDate" i = some (Cell.date t1 true) →
        df.cellAt "CustomerRequestDate" i = some (Cell.date t2 true) →
        out.cellAt "DurationDays" i = some (Cell.num (Int.fdiv (t2 - t1) 86400))) := by
  have hnodup : (df.cols.map Prod.fst).Nodup := by
    rw [hnames]
    decide
  have hcnt1 : ∀ n, df.colCount n ≤ 1 := colCount_le_one_of_nodup hnodup
  have hmem : ∀ n, n ∈ canonicalNames → df.hasCol n = true := by
    intro n hn
    apply DF.hasCol_of_label_mem
    rw [hnames]
    exact hn
  have hsr : stdRename df = df := by
    unfold stdRename
    apply rename_id_of_fixed
    intro c hc
    have hcn : c.1 ∈ canonicalNames := by
      rw [← hnames]
      exact List.mem_map_of_mem Prod.fst hc
    rw [stdRenameDict_lookup]
    have hfact : ∀ x ∈ canonicalNames, (stdName x = none ∨ stdName x = some x) := by decide
    by_cases hcont : ((df.cols.map Prod.fst).contains c.1) = true
    · rw [if_pos hcont]
      rcases hfact c.1 hcn with hs | hs
      · rw [hs]
        rfl
      · rw [hs]
        rfl
    · rw [if_neg hcont]
      rfl
  have hstd : standardizeColumns df = df := by
    unfold standardizeColumns
    rw [hsr]
    show requiredDefaults.foldl (fun d p => injectDefault d p.1 p.2) df = df
    apply foldInject_id_of_present
    intro p hp
    apply hmem
    have hfact : ∀ x ∈ requiredDefaults.map Prod.fst, x ∈ canonicalNames := by decide
    exact hfact p.1 (List.mem_map_of_mem Prod.fst hp)
  have hren : df.rename (inferRenameDict (df.cols.map Prod.fst)) = df := by
    apply rename_id_of_fixed
    intro c hc
    have hcn : c.1 ∈ canonicalNames := by
      rw [← hnames]
      exact List.mem_map_of_mem Prod.fst hc
    rcases hl : (inferRenameDict (df.cols.map Prod.fst)).lookup c.1 with _ | r
    · rfl
    · have hr := inferRenameDict_lookup_role hl
      have hfact : ∀ x ∈ canonicalNames, ∀ y, dateRole x = some y → y = x := by decide
      rw [hfact c.1 hcn r hr]
      rfl
  have hkeep : ∀ n, n ∈ dateColNames → (parseOneDateCol df n).1 = df := by
    intro n hn
    have hdn : n ∈ canonicalNames := by
      have hsub : ∀ x ∈ dateColNames, x ∈ canonicalNames := by decide
      exact hsub n hn
    rcases DF.getCol_of_hasCol (hmem n hdn) with ⟨cells, hg⟩
    have hsh : ∀ c ∈ cells, c = Cell.null ∨ ∃ t, c = Cell.date t true := by
      have hall := hdc n hn
      rw [hg] at hall
      intro c hcm
      have hcp := List.all_eq_true.mp hall c hcm
      cases c with
      | null => exact Or.inl rfl
      | date t a =>
        cases a with
        | true => exact Or.inr ⟨t, rfl⟩
        | false => exact Bool.noConfusion hcp
      | str s => exact Bool.noConfusion hcp
      | num m => exact Bool.noConfusion hcp
    rw [parseOneDateCol_keep hg (hcnt1 n) hsh]
    exact DF.setCol_same df hg (hcnt1 n)
  have hp : (parseDates df).1 = df := by
    rw [parseDates_eq]
    show (parseOneDateCol (parseOneDateCol (parseOneDateCol (parseOneDateCol
      (df.rename (inferRenameDict (df.cols.map Prod.fst))) "StartDate").1
      "CustomerRequestDate").1 "ShipDate").1 "DueDate").1 = df
    rw [hren, hkeep "StartDate" (by decide)]
    rw [hkeep "CustomerRequestDate" (by decide)]
    rw [hkeep "ShipDate" (by decide)]
    exact hkeep "DueDate" (by decide)
  rcases DF.getCol_of_hasCol (hmem "Status" (by decide)) with ⟨stc, hstc⟩
  have hstfix : stc.map normalizeStatusValue = stc := by
    apply map_id_of_fixed
    intro c hcm
    have hcin : c ∈ statusEnum := hst c (by rw [hstc]; exact hcm)
    have hfix : ∀ v ∈ statusEnum, normalizeStatusValue v = v := by decide
    exact hfix c hcin
  have hns : normalizeStatus df = df := by
    rw [normalizeStatus_char hstc, hstfix]
    exact DF.setCol_same df hstc (hcnt1 "Status")
  have haddok := ((processDataframe_ok_iff hne).mp hok).1
  rw [hstd, hp, hns] at haddok
  rcases addCalc_ok_split haddok with ⟨d4, hdl, hdur⟩
  rcases DF.getCol_of_hasCol (hmem "DueDate" (by decide)) with ⟨ddc, hddc⟩
  have hshD : ∀ c ∈ ddc, c = Cell.null ∨ ∃ t a, c = Cell.date t a := by
    have hall := hdc "DueDate" (by decide)
    rw [hddc] at hall
    intro c hcm
    have hcp := List.all_eq_true.mp hall c hcm
    cases c with
    | null => exact Or.inl rfl
    | date t a => exact Or.inr ⟨t, a, rfl⟩
    | str s => exact Bool.noConfusion hcp
    | num m => exact Bool.noConfusion hcp
  have hchar := daysLateStep_char now df hddc hstc (hcnt1 "DueDate") (hcnt1 "Status") hshD
  rw [hchar] at hdl
  have hd4 := Except.ok.inj hdl
  rcases DF.getCol_of_hasCol (hmem "StartDate" (by decide)) with ⟨sc, hsc⟩
  rcases DF.getCol_of_hasCol (hmem "CustomerRequestDate" (by decide)) with ⟨cc, hcc⟩
  have hshS : ∀ c ∈ sc, c = Cell.null ∨ ∃ t a, c = Cell.date t a := by
    have hall := hdc "StartDate" (by decide)
    rw [hsc] at hall
    intro c hcm
    have hcp := List.all_eq_true.mp hall c hcm
    cases c with
    | null => exact Or.inl rfl
    | date t a => exact Or.inr ⟨t, a, rfl⟩
    | str s => exact Bool.noConfusion hcp
    | num m => exact Bool.noConfusion hcp
  have hshC : ∀ c ∈ cc, c = Cell.null ∨ ∃ t a, c = Cell.date t a := by
    have hall := hdc "CustomerRequestDate" (by decide)
    rw [hcc] at hall
    intro c hcm
    have hcp := List.all_eq_true.mp hall c hcm
    cases c with
    | null => exact Or.inl rfl
    | date t a => exact Or.inr ⟨t, a, rfl⟩
    | str s => exact Bool.noConfusion hcp
    | num m => exact Bool.noConfusion hcp
  have hg4S : d4.getCol "StartDate" = some sc := by
    rw [← hd4, DF.getCol_setCol_ne _ _ (by decide)]
    exact hsc
  have hg4C : d4.getCol "CustomerRequestDate" = some cc := by
    rw [← hd4, DF.getCol_setCol_ne _ _ (by decide)]
    exact hcc
  have hc4S : d4.colCount "StartDate" ≤ 1 := by
    rw [← hd4, DF.colCount_setCol_ne _ _ (by decide)]
    exact hcnt1 "StartDate"
  have hc4C : d4.colCount "CustomerRequestDate" ≤ 1 := by
    rw [← hd4, DF.colCount_setCol_ne _ _ (by decide)]
    exact hcnt1 "CustomerRequestDate"
  have hchar2 := durationStep_char d4 hg4S hg4C hc4S hc4C hshS hshC
  rw [hchar2] at hdur
  have hout := Except.ok.inj hdur
  have hh4Dur : d4.hasCol "DurationDays" = true := by
    rw [← hd4, DF.hasCol_setCol_ne _ (by decide)]
    exact hmem "DurationDays" (by decide)
  refine ⟨?_, ?_, ?_⟩
  · rw [← hout, DF.labels_setCol_present d4 _ _ hh4Dur, ← hd4,
      DF.labels_setCol_present df _ _ (hmem "DaysLate" (by decide)), hnames]
  · intro n hn h1 h2
    rw [← hout, DF.getCol_setCol_ne _ _ (by
        simp only [beq_eq_false_iff_ne]
        exact fun he => h2 he.symm),
      ← hd4, DF.getCol_setCol_ne _ _ (by
        simp only [beq_eq_false_iff_ne]
        exact fun he => h1 he.symm)]
  · intro i hi t1 t2 hS hC
    have hnr4 : d4.nrows = df.nrows := by
      rw [← hd4, DF.nrows_setCol]
    have hgoDur : out.getCol "DurationDays" = some ((List.range d4.nrows).map
        (fun i => durPure (sc.getD i Cell.null) (cc.getD i Cell.null)
          (match d4.getCol "DurationDays" with
           | some oc => oc.getD i Cell.null
           | none => Cell.null))) := by
      rw [← hout]
      exact DF.getCol_setCol_self _ _ _
    have hgS : sc.getD i Cell.null = Cell.date t1 true := by
      rw [cellAt_eq i hsc] at hS
      exact getD_eq_of_get? hS
    have hgC : cc.getD i Cell.null = Cell.date t2 true := by
      rw [cellAt_eq i hcc] at hC
      exact getD_eq_of_get? hC
    rw [cellAt_eq i hgoDur, List.get?_map, List.get?_range (by rw [hnr4]; exact hi)]
    show some (durPure (sc.getD i Cell.null) (cc.getD i Cell.null) _) = _
    rw [hgS, hgC]
    rfl

/-- Witness for C9 at the concrete canonical one-row table: field names and
non-derived values come through unchanged while DurationDays is recomputed
from the dates. -/
theorem claim_C9_witness :
    dfC9W.isEmpty = false
  ∧ dfC9W.cols.map Prod.fst = canonicalNames
  ∧ (∀ c ∈ (dfC9W.getCol "Status").getD [], c ∈ statusEnum)
  ∧ (∀ n ∈ dateColNames, ((dfC9W.getCol n).getD []).all
      (fun c => match c with
        | Cell.null => true
        | Cell.date _ true => true
        | _ => false) = true)
  ∧ processDataframe 0 dfC9W = Except.ok (outC9W,
      ["Error parsing StartDate: Already tz-aware, use tz_convert to convert",
       "Error parsing CustomerRequestDate: Already tz-aware, use tz_convert to convert",
       "Failed to parse 1 dates in ShipDate", "Failed to parse 1 dates in DueDate"])
  ∧ (outC9W.cols.map Prod.fst = canonicalNames
    ∧ (∀ n ∈ canonicalNames, n ≠ "DaysLate" → n ≠ "DurationDays" →
        outC9W.getCol n = dfC9W.getCol n)
    ∧ (∀ i, i < dfC9W.nrows → ∀ t1 t2,
        dfC9W.cellAt "StartDate" i = some (Cell.date t1 true) →
        dfC9W.cellAt "CustomerRequestDate" i = some (Cell.date t2 true) →
        outC9W.cellAt "DurationDays" i = some (Cell.num (Int.fdiv (t2 - t1) 86400)))) :=
  ⟨by decide, by decide, by decide, by decide, by decide,
    claim_C9_theorem 0 dfC9W outC9W
      ["Error parsing StartDate: Already tz-aware, use tz_convert to convert",
       "Error parsing CustomerRequestDate: Already tz-aware, use tz_convert to convert",
       "Failed to parse 1 dates in ShipDate", "Failed to parse 1 dates in DueDate"]
      (by decide) (by decide) (by decide) (by decide) (by decide)⟩

end ScheduleCore
